import Mathlib

/-
Verification development for the vue-compiler repository (Rust).
The definitions below are shallow embeddings of the Rust sources:
  - crates/compiler-shared/src/patch_flags.rs
  - crates/compiler-core/src/tokenizer.rs (get_pos, is_whitespace, newline recording)
  - crates/compiler-core/src/parser.rs (parser callbacks, condense_whitespace, ...)
  - crates/compiler-core/src/utils.rs (match_for_alias, ...)
  - crates/compiler-core/src/transforms/v_if.rs (create_children_codegen_node)
  - crates/compiler-core/src/codegen.rs (code generator)
Machine integers (usize, i16, i32) are modeled as Nat or Int; Rust strings are
modeled at the char level (Rust byte offsets coincide with char offsets on the
ASCII inputs used in the concrete theorems).  Rust panics (out-of-range slicing,
unreachable, todo) are modeled by the Except String monad.
-/

namespace VueCompiler

/-! ## Rust string primitives -/

/-- Tokenizer is_whitespace (tokenizer.rs): space, newline, tab, form feed,
carriage return. -/
def isWhitespaceHtml (c : Char) : Bool :=
  c = ' ' || c = '\n' || c = '\t' || c = '\x0c' || c = '\r'

/-- Rust char::is_whitespace: the Unicode White_Space property (used by
str::trim and friends). -/
def rustIsWhitespace (c : Char) : Bool :=
  let n := c.toNat
  n = 0x20 || (0x9 <= n && n <= 0xd) || n = 0x85 || n = 0xa0 || n = 0x1680 ||
  (0x2000 <= n && n <= 0x200a) || n = 0x2028 || n = 0x2029 || n = 0x202f ||
  n = 0x205f || n = 0x3000

/-- Rust str::trim_start. -/
def rustTrimStart (s : String) : String :=
  String.mk (s.toList.dropWhile rustIsWhitespace)

/-- Rust str::trim_end. -/
def rustTrimEnd (s : String) : String :=
  String.mk ((s.toList.reverse.dropWhile rustIsWhitespace).reverse)

/-- Rust str::trim. -/
def rustTrim (s : String) : String :=
  rustTrimEnd (rustTrimStart s)

/-- Rust str::find for a string pattern: index (in chars) of the first
occurrence of pat in s. -/
def strFindAux (pat : List Char) : List Char → Nat → Option Nat
  | [], i => if pat = [] then some i else none
  | c :: rest, i =>
    if pat.isPrefixOf (c :: rest) then some i else strFindAux pat rest (i + 1)

def strFind (s pat : String) : Option Nat :=
  strFindAux pat.toList s.toList 0

/-- Rust str::split_once: split at the first occurrence of pat. -/
def splitOnce (s pat : String) : Option (String × String) :=
  match strFind s pat with
  | none => none
  | some i =>
    some (String.mk (s.toList.take i), String.mk (s.toList.drop (i + pat.length)))

/-- Rust str::contains for a string pattern. -/
def strContains (s pat : String) : Bool := (strFind s pat).isSome

/-- Rust String::replace (all non-overlapping occurrences, left to right).
Implemented with fuel; the fuel used by callers always suffices. -/
def rustReplaceAux (pat rep : List Char) : Nat → List Char → List Char
  | 0, l => l
  | _ + 1, [] => []
  | fuel + 1, c :: rest =>
    if pat ≠ [] ∧ pat.isPrefixOf (c :: rest) then
      rep ++ rustReplaceAux pat rep fuel ((c :: rest).drop pat.length)
    else
      c :: rustReplaceAux pat rep fuel rest

def rustReplace (s pat rep : String) : String :=
  String.mk (rustReplaceAux pat.toList rep.toList (s.length + 1) s.toList)

/-- serde_json::to_string for a String value: double quotes around the content
with the JSON short escapes and \u00XX for other control characters. -/
def jsonEscapeChar (c : Char) : String :=
  if c = '"' then "\\\""
  else if c = '\\' then "\\\\"
  else if c = '\n' then "\\n"
  else if c = '\r' then "\\r"
  else if c = '\t' then "\\t"
  else if c = '\x08' then "\\b"
  else if c = '\x0c' then "\\f"
  else if c.toNat < 0x20 then
    "\\u00" ++ String.mk [Nat.digitChar (c.toNat / 16), Nat.digitChar (c.toNat % 16)]
  else String.mk [c]

def jsonEncodeString (s : String) : String :=
  "\"" ++ String.join (s.toList.map jsonEscapeChar) ++ "\""

/-- Checked slicing standing for Rust &input[start..end] (parser.rs get_slice);
a Rust panic (start > end or end out of range) is modeled as none. -/
def getSliceChecked (input : String) (start stop : Nat) : Option String :=
  if start ≤ stop ∧ stop ≤ input.length then
    some (String.mk ((input.toList.drop start).take (stop - start)))
  else none

/-- Rust str::starts_with / ends_with, at the char level (kernel-reducible). -/
def strStartsWith (s pre : String) : Bool := pre.toList.isPrefixOf s.toList

def strEndsWith (s suf : String) : Bool := suf.toList.reverse.isPrefixOf s.toList.reverse

def strDropRight (s : String) (n : Nat) : String :=
  String.mk (s.toList.take (s.toList.length - n))

/-! ## PatchFlags (compiler-shared/src/patch_flags.rs, the bitflags struct used
by compiler-core; bits is the i16 payload) -/

structure PatchFlags where
  bits : Int
  deriving DecidableEq, Repr

namespace PatchFlags

def Text : PatchFlags := ⟨1⟩
def Class : PatchFlags := ⟨2⟩
def FullProps : PatchFlags := ⟨16⟩
def StableFragment : PatchFlags := ⟨64⟩
def KeyedFragment : PatchFlags := ⟨128⟩
def UnkeyedFragment : PatchFlags := ⟨256⟩
def DevRootFragment : PatchFlags := ⟨2048⟩

/-- Bitwise or of two flag sets (all declared flags are nonnegative). -/
def or (a b : PatchFlags) : PatchFlags := ⟨Int.ofNat (a.bits.toNat ||| b.bits.toNat)⟩

/-- Bitwise and (used by the dev-mode flag-name printer). -/
def and (a b : PatchFlags) : PatchFlags := ⟨Int.ofNat (a.bits.toNat &&& b.bits.toNat)⟩

/-- PatchFlags::as_str (patch_flags.rs); the bitflags_match falls through to
unreachable for flags not listed, modeled by "". -/
def asStr (f : PatchFlags) : String :=
  if f = Text then "TEXT"
  else if f = Class then "CLASS"
  else if f = FullProps then "FULL_PROPS"
  else if f = StableFragment then "STABLE_FRAGMENT"
  else if f = DevRootFragment then "DEV_ROOT_FRAGMENT"
  else ""

/-- PatchFlags::keys (patch_flags.rs). -/
def keys : List PatchFlags := [Text, FullProps, StableFragment, DevRootFragment]

/-- Display impl: the bits as a decimal string. -/
def toStr (f : PatchFlags) : String := toString f.bits

end PatchFlags

/-- The complete table of flag constants declared by the PatchFlags bitflags
struct in patch_flags.rs, as (NAME, value) pairs; the names are the Rust
constant identifiers in the SCREAMING_SNAKE form used by as_str. -/
def definedPatchFlags : List (String × Int) :=
  [("TEXT", 1), ("CLASS", 2), ("FULL_PROPS", 16), ("STABLE_FRAGMENT", 64),
   ("KEYED_FRAGMENT", 128), ("UNKEYED_FRAGMENT", 256), ("DEV_ROOT_FRAGMENT", 2048)]

/-- The wire table claimed by the specification (section 6). -/
def specPatchFlagTable : List (String × Int) :=
  [("TEXT", 1), ("CLASS", 2), ("STYLE", 4), ("PROPS", 8), ("FULL_PROPS", 16),
   ("STABLE_FRAGMENT", 64), ("KEYED_FRAGMENT", 128), ("UNKEYED_FRAGMENT", 256),
   ("DEV_ROOT_FRAGMENT", 2048)]

/-! ## Source positions and the newline table (tokenizer.rs) -/

structure Position where
  offset : Nat
  line : Nat
  column : Nat
  deriving DecidableEq, Repr

structure SourceLocation where
  start : Position
  stop : Position
  source : String
  deriving DecidableEq, Repr

/-- SourceLocation::loc_stub (ast.rs). -/
def locStub : SourceLocation :=
  { start := { offset := 0, line := 1, column := 1 },
    stop := { offset := 0, line := 1, column := 1 },
    source := "" }

/-- Tokenizer::get_pos (tokenizer.rs lines 298-313): iterates the recorded
newline offsets in reverse with a fresh enumeration counter i and, at the
first newline offset strictly below index, returns line = i + 2 and
column = index - newline_index.  The counter i here counts from the END of the
newline table, exactly as .iter().rev().enumerate() does in the source. -/
def getPosAux (index : Nat) : List Nat → Nat → Position
  | [], _ => { offset := index, line := 1, column := index + 1 }
  | nl :: rest, i =>
    if index > nl then { offset := index, line := i + 2, column := index - nl }
    else getPosAux index rest (i + 1)

def getPos (newlines : List Nat) (index : Nat) : Position :=
  getPosAux index newlines.reverse 0

/-- The newline table the tokenizer builds while processing the input: the
positions of the newline characters, in increasing order (the driver loop in
Tokenizer::parse pushes self.index whenever the current char is a newline,
and fast_forward_to pushes every newline it skips). -/
def newlinesOf (input : String) : List Nat :=
  (List.range input.length).filter (fun i => input.toList.getD i ' ' = '\n')

/-- A linear re-scan of the input, as the specification describes the correct
Position: offset = i, line = 1 + number of newlines strictly before i, and
column = distance to the nearest preceding newline (or i + 1 if none). -/
def rescanPos (input : String) (index : Nat) : Position :=
  let before := (newlinesOf input).filter (fun nl => nl < index)
  match before.getLast? with
  | none => { offset := index, line := 1, column := index + 1 }
  | some nl => { offset := index, line := 1 + before.length, column := index - nl }


/-! ## Enumerations shared by the parser and the transforms -/

inductive ParseMode | BASE | HTML | SFC
  deriving DecidableEq, Repr

inductive Whitespace | Preserve | Condense
  deriving DecidableEq, Repr

/-- Namespaces (ast.rs); the parser stores the namespace as a u32. -/
inductive Namespaces | HTML | SVG | MathML
  deriving DecidableEq, Repr

def Namespaces.toU32 : Namespaces → Nat
  | .HTML => 0
  | .SVG => 1
  | .MathML => 2

inductive NodeTypes
  | Root | Element | Text | Comment | SimpleExpression | Interpolation
  | Attribute | Directive | CompoundExpression | If | IfBranch | For
  | VNodeCall | JSCallExpression | JSObjectExpression | JSProperty
  | JSArrayExpression | JSCacheExpression | JSTemplateLiteral
  deriving DecidableEq, Repr

inductive ElementTypes | Element | Component | Slot | Template
  deriving DecidableEq, Repr

inductive QuoteType | NoValue | Unquoted | Single | Double
  deriving DecidableEq, Repr

inductive ErrorCodes
  | CdataInHtmlContent
  | DuplicateAttribute
  | EOFBeforeTagName
  | EOFInCdata
  | EOFInComment
  | EOFInTag
  | MissingAttributeValue
  | MissingEndTagName
  | UnexpectedCharacterInAttributeName
  | UnexpectedCharacterInUnquotedAttributeValue
  | UnexpectedEqualsSignBeforeAttributeName
  | UnexpectedQuestionMarkInsteadOfTagName
  | UnexpectedSolidusInTag
  | XInvalidEndTag
  | XMissingEndTag
  | XMissingInterpolationEnd
  | XMissingDirectiveName
  | XMissingDynamicDirectiveArgumentEnd
  deriving DecidableEq, Repr

/-- Tokenizer states (tokenizer.rs State); the parser reads the state in
onend to decide which EOF error to emit. -/
inductive TokState
  | Text
  | InterpolationOpen | Interpolation | InterpolationClose
  | BeforeTagName | InTagName | InSelfClosingTag | BeforeClosingTagName
  | InClosingTagName | AfterClosingTagName
  | BeforeAttrName | InAttrName | InDirName | InDirArg | InDirDynamicArg
  | InDirModifier | AfterAttrName | BeforeAttrValue
  | InAttrValueDq | InAttrValueSq | InAttrValueNq
  | BeforeDeclaration | InDeclaration | InProcessingInstruction
  | BeforeComment | CDATASequence | InSpecialComment | InCommentLike
  | BeforeSpecialS | BeforeSpecialT | SpecialStartSequence | InRCDATA
  | InEntity | InSFCRootTagName
  deriving DecidableEq, Repr

/-- Global compile-time constants (utils.rs). -/
structure GlobalCompileTimeConstants where
  dev : Bool := false
  test : Bool := false
  browser : Bool := false
  deriving DecidableEq, Repr

/-- ConstantTypes (ast.rs): ordered lattice, derived PartialOrd in Rust is the
declaration order. -/
inductive ConstantTypes | NotConstant | CanSkipPatch | CanCache | CanStringify
  deriving DecidableEq, Repr

def ConstantTypes.rank : ConstantTypes → Nat
  | .NotConstant => 0
  | .CanSkipPatch => 1
  | .CanCache => 2
  | .CanStringify => 3

def ConstantTypes.ltb (a b : ConstantTypes) : Bool := a.rank < b.rank

/-! ## Leaf AST node types (ast.rs) -/

structure SimpleExpressionNode where
  content : String
  isStatic : Bool
  constType : ConstantTypes
  identifiers : Option (List String)
  isHandlerKey : Option Bool
  loc : SourceLocation
  deriving DecidableEq, Repr

/-- SimpleExpressionNode::new (ast.rs): a static expression forces
constType = CanStringify. -/
def SimpleExpressionNode.new (content : String) (isStatic : Option Bool)
    (loc : Option SourceLocation) (constType : Option ConstantTypes) :
    SimpleExpressionNode :=
  let constType := if isStatic = some true then some ConstantTypes.CanStringify else constType
  { content
    isStatic := isStatic.getD false
    constType := constType.getD ConstantTypes.NotConstant
    identifiers := none
    isHandlerKey := none
    loc := loc.getD locStub }

structure TextNode where
  content : String
  loc : SourceLocation
  deriving DecidableEq, Repr

structure CommentNode where
  content : String
  loc : SourceLocation
  deriving DecidableEq, Repr

structure AttributeNode where
  name : String
  nameLoc : SourceLocation
  value : Option TextNode
  loc : SourceLocation
  deriving DecidableEq, Repr

inductive CallCallee
  | str (s : String)
  | symbol (s : String)
  deriving DecidableEq, Repr

/-! ## The mutually recursive AST / codegen IR (ast.rs, codegen.rs).
Struct-like Rust types appear as single-constructor inductives with the
fields in source order; projections are defined below the block.
ElementNode: the parser (parser.rs onopentagname) builds PlainElementNode
values carrying a mutable tag_type field and reclassifies the tag_type on
close tags, so the plainElement constructor carries the tagType;
the Component / SlotOutlet / Template constructors have the fixed tag types
given by ast.rs.  SlotOutletNodeCodegenNode is an empty enum in the source,
so a slotOutlet codegen node can never be present (Option Empty). -/

set_option maxHeartbeats 0

mutual

inductive ExpressionNode
  | simple (e : SimpleExpressionNode)
  | compound (e : CompoundExpressionNode)

inductive CompoundExpressionNode
  | mk (children : List CompoundExpressionNodeChild) (isHandlerKey : Option Bool)
       (loc : SourceLocation)

inductive CompoundExpressionNodeChild
  | simple (e : SimpleExpressionNode)
  | compound (e : CompoundExpressionNode)
  | interpolation (e : InterpolationNode)
  | text (t : TextNode)
  | str (s : String)

inductive InterpolationNode
  | mk (content : ExpressionNode) (loc : SourceLocation)

inductive ForParseResult
  | mk (source : ExpressionNode) (value : Option ExpressionNode)
       (key : Option ExpressionNode) (index : Option ExpressionNode)
       (finalized : Bool)

inductive DirectiveNode
  | mk (name : String) (rawName : Option String) (exp : Option ExpressionNode)
       (arg : Option ExpressionNode) (modifiers : List SimpleExpressionNode)
       (forParseResult : Option ForParseResult) (loc : SourceLocation)

inductive BaseElementProps
  | attribute (a : AttributeNode)
  | directive (d : DirectiveNode)

inductive TemplateChildNode
  | element (e : ElementNode)
  | interpolation (i : InterpolationNode)
  | compound (c : CompoundExpressionNode)
  | text (t : TextNode)
  | comment (c : CommentNode)
  | ifNode (n : IfNode)
  | ifBranch (b : IfBranchNode)
  | forNode (f : ForNode)

inductive ElementNode
  | plainElement (ns : Nat) (tag : String) (tagType : ElementTypes)
      (props : List BaseElementProps) (children : List TemplateChildNode)
      (isSelfClosing : Option Bool) (codegenNode : Option VNodeCall)
      (ssrCodegenNode : Option Unit) (loc : SourceLocation)
  | component (ns : Nat) (tag : String)
      (props : List BaseElementProps) (children : List TemplateChildNode)
      (isSelfClosing : Option Bool) (codegenNode : Option VNodeCall)
      (ssrCodegenNode : Option Unit) (loc : SourceLocation)
  | slotOutlet (ns : Nat) (tag : String)
      (props : List BaseElementProps) (children : List TemplateChildNode)
      (isSelfClosing : Option Bool) (codegenNode : Option Empty)
      (ssrCodegenNode : Option Unit) (loc : SourceLocation)
  | template (ns : Nat) (tag : String)
      (props : List BaseElementProps) (children : List TemplateChildNode)
      (isSelfClosing : Option Bool) (codegenNode : Option Unit)
      (ssrCodegenNode : Option Unit) (loc : SourceLocation)

inductive IfNode
  | mk (branches : List IfBranchNode) (codegenNode : Option IfCodegenNode)
       (loc : SourceLocation)

inductive IfBranchNode
  | mk (condition : Option ExpressionNode) (children : List TemplateChildNode)
       (userKey : Option BaseElementProps) (isTemplateIf : Option Bool)
       (loc : SourceLocation)

inductive ForNode
  | mk (source : ExpressionNode) (valueAlias : Option ExpressionNode)
       (keyAlias : Option ExpressionNode) (objectIndexAlias : Option ExpressionNode)
       (parseResult : ForParseResult) (children : List TemplateChildNode)
       (codegenNode : Option ForCodegenNode) (loc : SourceLocation)

inductive IfCodegenNode
  | ifConditional (e : IfConditionalExpression)

inductive IfConditionalExpression
  | mk (test : JSChildNode) (consequent : JSChildNode) (alternate : JSChildNode)
       (newline : Bool)

inductive JSChildNode
  | vNodeCall (v : VNodeCall)
  | call (c : CallExpression)
  | object (o : ObjectExpression)
  | array (a : ArrayExpression)
  | simple (e : SimpleExpressionNode)
  | compound (e : CompoundExpressionNode)
  | ifConditional (e : IfConditionalExpression)
  | cache (c : CacheExpression)

inductive VNodeCall
  | mk (tag : String) (props : Option PropsExpression)
       (children : Option VNodeCallChildren) (patchFlag : Option PatchFlags)
       (isBlock : Bool) (disableTracking : Bool) (isComponent : Bool)
       (loc : SourceLocation)

inductive VNodeCallChildren
  | templateChildNodeList (l : List TemplateChildNode)
  | templateTextChildNode (n : TemplateTextChildNode)
  | forRenderListExpression (e : ForRenderListExpression)

inductive TemplateTextChildNode
  | text (t : TextNode)
  | interpolation (i : InterpolationNode)
  | compound (c : CompoundExpressionNode)

inductive PropsExpression
  | object (o : ObjectExpression)

inductive ObjectExpression
  | mk (properties : List Property) (loc : SourceLocation)

inductive Property
  | mk (key : ExpressionNode) (value : JSChildNode) (loc : SourceLocation)

inductive ArrayExpression
  | mk (elements : List CodegenNode) (loc : SourceLocation)

inductive CallExpression
  | mk (callee : CallCallee) (arguments : List CallArgument) (loc : SourceLocation)

inductive CallArgument
  | str (s : String)
  | jsChild (n : JSChildNode)
  | ssrCodegen (n : SSRCodegenNode)
  | templateChild (n : TemplateChildNode)
  | templateChildren (l : List TemplateChildNode)

inductive CacheExpression
  | mk (index : Nat) (value : JSChildNode) (needPauseTracking : Bool)
       (inVOnce : Bool) (needArraySpread : Bool) (loc : SourceLocation)

inductive ForCodegenNode
  | mk (tag : String) (children : ForRenderListExpression) (patchFlag : PatchFlags)
       (disableTracking : Bool) (isComponent : Bool) (loc : SourceLocation)

inductive ForRenderListExpression
  | mk (callee : CallCallee) (arguments : List ForRenderListArgument)
       (loc : SourceLocation)

inductive ForRenderListArgument
  | expression (e : ExpressionNode)
  | forIterator (e : ForIteratorExpression)

inductive ForIteratorExpression
  | mk (params : Option FunctionParams) (returns : Option BlockCodegenNode)
       (newline : Bool)

inductive FunctionParams
  | expression (e : ExpressionNode)
  | str (s : String)
  | expressionList (l : List ExpressionNode)
  | strList (l : List String)

inductive BlockCodegenNode
  | vNodeCall (v : VNodeCall)

inductive SSRCodegenNode
  | templateLiteral (t : TemplateLiteral)

inductive TemplateLiteral
  | mk (elements : List TemplateLiteralElement) (loc : SourceLocation)

inductive TemplateLiteralElement
  | str (s : String)
  | jsChild (n : JSChildNode)

inductive CodegenNode
  | element (e : ElementNode)
  | interpolation (i : InterpolationNode)
  | compound (c : CompoundExpressionNode)
  | text (t : TextNode)
  | comment (c : CommentNode)
  | ifNode (n : IfNode)
  | ifBranch (b : IfBranchNode)
  | forNode (f : ForNode)
  | vNodeCall (v : VNodeCall)
  | call (c : CallExpression)
  | object (o : ObjectExpression)
  | array (a : ArrayExpression)
  | simple (e : SimpleExpressionNode)
  | ifConditional (e : IfConditionalExpression)
  | cache (c : CacheExpression)
  | templateLiteral (t : TemplateLiteral)

end


/-! ## Projections and functional updates for the AST -/

def TextNode.type_ (_ : TextNode) : NodeTypes := NodeTypes.Text
def CommentNode.type_ (_ : CommentNode) : NodeTypes := NodeTypes.Comment

def InterpolationNode.content : InterpolationNode → ExpressionNode
  | .mk c _ => c
def InterpolationNode.loc : InterpolationNode → SourceLocation
  | .mk _ l => l

def CompoundExpressionNode.loc : CompoundExpressionNode → SourceLocation
  | .mk _ _ l => l

def ExpressionNode.loc : ExpressionNode → SourceLocation
  | .simple e => e.loc
  | .compound e => e.loc

/-- ExpressionNode::new_simple (ast.rs). -/
def ExpressionNode.newSimple (content : String) (isStatic : Option Bool)
    (loc : Option SourceLocation) (constType : Option ConstantTypes) : ExpressionNode :=
  .simple (SimpleExpressionNode.new content isStatic loc constType)

def DirectiveNode.name : DirectiveNode → String
  | .mk n _ _ _ _ _ _ => n
def DirectiveNode.rawName : DirectiveNode → Option String
  | .mk _ r _ _ _ _ _ => r
def DirectiveNode.exp : DirectiveNode → Option ExpressionNode
  | .mk _ _ e _ _ _ _ => e
def DirectiveNode.arg : DirectiveNode → Option ExpressionNode
  | .mk _ _ _ a _ _ _ => a
def DirectiveNode.modifiers : DirectiveNode → List SimpleExpressionNode
  | .mk _ _ _ _ m _ _ => m
def DirectiveNode.forParseResult : DirectiveNode → Option ForParseResult
  | .mk _ _ _ _ _ f _ => f
def DirectiveNode.loc : DirectiveNode → SourceLocation
  | .mk _ _ _ _ _ _ l => l

def DirectiveNode.setRawName : DirectiveNode → Option String → DirectiveNode
  | .mk n _ e a m f l, r => .mk n r e a m f l
def DirectiveNode.setExp : DirectiveNode → Option ExpressionNode → DirectiveNode
  | .mk n r _ a m f l, e => .mk n r e a m f l
def DirectiveNode.setArg : DirectiveNode → Option ExpressionNode → DirectiveNode
  | .mk n r e _ m f l, a => .mk n r e a m f l
def DirectiveNode.setModifiers : DirectiveNode → List SimpleExpressionNode → DirectiveNode
  | .mk n r e a _ f l, m => .mk n r e a m f l
def DirectiveNode.setForParseResult : DirectiveNode → Option ForParseResult → DirectiveNode
  | .mk n r e a m _ l, f => .mk n r e a m f l

def BaseElementProps.name : BaseElementProps → String
  | .attribute a => a.name
  | .directive d => d.name

def BaseElementProps.loc : BaseElementProps → SourceLocation
  | .attribute a => a.loc
  | .directive d => d.loc

def BaseElementProps.setLoc : BaseElementProps → SourceLocation → BaseElementProps
  | .attribute a, l => .attribute { a with loc := l }
  | .directive (.mk n r e ar m f _), l => .directive (.mk n r e ar m f l)

/-- utils.rs is_v_pre. -/
def isVPreProp : BaseElementProps → Bool
  | .directive d => d.name = "pre"
  | .attribute _ => false

def ElementNode.ns : ElementNode → Nat
  | .plainElement ns _ _ _ _ _ _ _ _ => ns
  | .component ns _ _ _ _ _ _ _ => ns
  | .slotOutlet ns _ _ _ _ _ _ _ => ns
  | .template ns _ _ _ _ _ _ _ => ns

def ElementNode.tag : ElementNode → String
  | .plainElement _ t _ _ _ _ _ _ _ => t
  | .component _ t _ _ _ _ _ _ => t
  | .slotOutlet _ t _ _ _ _ _ _ => t
  | .template _ t _ _ _ _ _ _ => t

/-- tag_type: the parser-built PlainElementNode carries the field (parser.rs
builds it and reclassifies it on close); the other variants have the fixed
tag types of ast.rs. -/
def ElementNode.tagType : ElementNode → ElementTypes
  | .plainElement _ _ tt _ _ _ _ _ _ => tt
  | .component _ _ _ _ _ _ _ _ => ElementTypes.Component
  | .slotOutlet _ _ _ _ _ _ _ _ => ElementTypes.Slot
  | .template _ _ _ _ _ _ _ _ => ElementTypes.Template

/-- tag_type_mut assignment; every element the parser touches is a
PlainElementNode (built by onopentagname), where the field is updated. -/
def ElementNode.setTagType : ElementNode → ElementTypes → ElementNode
  | .plainElement ns t _ p c s cg scg l, tt => .plainElement ns t tt p c s cg scg l
  | e, _ => e

def ElementNode.props : ElementNode → List BaseElementProps
  | .plainElement _ _ _ p _ _ _ _ _ => p
  | .component _ _ p _ _ _ _ _ => p
  | .slotOutlet _ _ p _ _ _ _ _ => p
  | .template _ _ p _ _ _ _ _ => p

def ElementNode.pushProp : ElementNode → BaseElementProps → ElementNode
  | .plainElement ns t tt p c s cg scg l, pr => .plainElement ns t tt (p ++ [pr]) c s cg scg l
  | .component ns t p c s cg scg l, pr => .component ns t (p ++ [pr]) c s cg scg l
  | .slotOutlet ns t p c s cg scg l, pr => .slotOutlet ns t (p ++ [pr]) c s cg scg l
  | .template ns t p c s cg scg l, pr => .template ns t (p ++ [pr]) c s cg scg l

def ElementNode.children : ElementNode → List TemplateChildNode
  | .plainElement _ _ _ _ c _ _ _ _ => c
  | .component _ _ _ c _ _ _ _ => c
  | .slotOutlet _ _ _ c _ _ _ _ => c
  | .template _ _ _ c _ _ _ _ => c

def ElementNode.setChildren : ElementNode → List TemplateChildNode → ElementNode
  | .plainElement ns t tt p _ s cg scg l, c => .plainElement ns t tt p c s cg scg l
  | .component ns t p _ s cg scg l, c => .component ns t p c s cg scg l
  | .slotOutlet ns t p _ s cg scg l, c => .slotOutlet ns t p c s cg scg l
  | .template ns t p _ s cg scg l, c => .template ns t p c s cg scg l

def ElementNode.pushChild (e : ElementNode) (n : TemplateChildNode) : ElementNode :=
  e.setChildren (e.children ++ [n])

def ElementNode.isSelfClosing : ElementNode → Option Bool
  | .plainElement _ _ _ _ _ s _ _ _ => s
  | .component _ _ _ _ s _ _ _ => s
  | .slotOutlet _ _ _ _ s _ _ _ => s
  | .template _ _ _ _ s _ _ _ => s

def ElementNode.setIsSelfClosing : ElementNode → Option Bool → ElementNode
  | .plainElement ns t tt p c _ cg scg l, s => .plainElement ns t tt p c s cg scg l
  | .component ns t p c _ cg scg l, s => .component ns t p c s cg scg l
  | .slotOutlet ns t p c _ cg scg l, s => .slotOutlet ns t p c s cg scg l
  | .template ns t p c _ cg scg l, s => .template ns t p c s cg scg l

def ElementNode.loc : ElementNode → SourceLocation
  | .plainElement _ _ _ _ _ _ _ _ l => l
  | .component _ _ _ _ _ _ _ l => l
  | .slotOutlet _ _ _ _ _ _ _ l => l
  | .template _ _ _ _ _ _ _ l => l

def ElementNode.setLoc : ElementNode → SourceLocation → ElementNode
  | .plainElement ns t tt p c s cg scg _, l => .plainElement ns t tt p c s cg scg l
  | .component ns t p c s cg scg _, l => .component ns t p c s cg scg l
  | .slotOutlet ns t p c s cg scg _, l => .slotOutlet ns t p c s cg scg l
  | .template ns t p c s cg scg _, l => .template ns t p c s cg scg l

def TemplateChildNode.type_ : TemplateChildNode → NodeTypes
  | .element _ => NodeTypes.Element
  | .interpolation _ => NodeTypes.Interpolation
  | .compound _ => NodeTypes.CompoundExpression
  | .text _ => NodeTypes.Text
  | .comment _ => NodeTypes.Comment
  | .ifNode _ => NodeTypes.If
  | .ifBranch _ => NodeTypes.IfBranch
  | .forNode _ => NodeTypes.For

def IfBranchNode.children : IfBranchNode → List TemplateChildNode
  | .mk _ c _ _ _ => c
def IfBranchNode.condition : IfBranchNode → Option ExpressionNode
  | .mk c _ _ _ _ => c
def IfBranchNode.loc : IfBranchNode → SourceLocation
  | .mk _ _ _ _ l => l

def IfNode.branches : IfNode → List IfBranchNode
  | .mk b _ _ => b

def VNodeCall.tag : VNodeCall → String
  | .mk t _ _ _ _ _ _ _ => t
def VNodeCall.props : VNodeCall → Option PropsExpression
  | .mk _ p _ _ _ _ _ _ => p
def VNodeCall.children : VNodeCall → Option VNodeCallChildren
  | .mk _ _ c _ _ _ _ _ => c
def VNodeCall.patchFlag : VNodeCall → Option PatchFlags
  | .mk _ _ _ f _ _ _ _ => f
def VNodeCall.isBlock : VNodeCall → Bool
  | .mk _ _ _ _ b _ _ _ => b
def VNodeCall.disableTracking : VNodeCall → Bool
  | .mk _ _ _ _ _ d _ _ => d
def VNodeCall.isComponent : VNodeCall → Bool
  | .mk _ _ _ _ _ _ c _ => c
def VNodeCall.loc : VNodeCall → SourceLocation
  | .mk _ _ _ _ _ _ _ l => l

def ForParseResult.source : ForParseResult → ExpressionNode
  | .mk s _ _ _ _ => s
def ForParseResult.value : ForParseResult → Option ExpressionNode
  | .mk _ v _ _ _ => v
def ForParseResult.key : ForParseResult → Option ExpressionNode
  | .mk _ _ k _ _ => k
def ForParseResult.index : ForParseResult → Option ExpressionNode
  | .mk _ _ _ i _ => i
def ForParseResult.setValue : ForParseResult → Option ExpressionNode → ForParseResult
  | .mk s _ k i f, v => .mk s v k i f

def ObjectExpression.properties : ObjectExpression → List Property
  | .mk p _ => p

def Property.key : Property → ExpressionNode
  | .mk k _ _ => k
def Property.value : Property → JSChildNode
  | .mk _ v _ => v

/-- Property::new (ast.rs): location is the stub. -/
def Property.new (key : ExpressionNode) (value : JSChildNode) : Property :=
  .mk key value locStub

/-! ## Runtime helper names (runtime_helpers.rs) -/

def helperFragment : String := "Fragment"
def helperOpenBlock : String := "openBlock"
def helperCreateBlock : String := "createBlock"
def helperCreateElementBlock : String := "createElementBlock"
def helperCreateVNode : String := "createVNode"
def helperCreateElementVNode : String := "createElementVNode"
def helperCreateComment : String := "createCommentVNode"
def helperCreateText : String := "createTextVNode"
def helperCreateStatic : String := "createStaticVNode"
def helperResolveComponent : String := "resolveComponent"
def helperResolveDirective : String := "resolveDirective"
def helperRenderList : String := "renderList"
def helperToDisplayString : String := "toDisplayString"
def helperNormalizeClass : String := "normalizeClass"
def helperSetBlockTracking : String := "setBlockTracking"

/-- get_vnode_helper (ast.rs). -/
def getVNodeHelper (ssr isComponent : Bool) : String :=
  if ssr || isComponent then helperCreateVNode else helperCreateElementVNode

/-- get_vnode_block_helper (ast.rs). -/
def getVNodeBlockHelper (ssr isComponent : Bool) : String :=
  if ssr || isComponent then helperCreateBlock else helperCreateElementBlock

/-! ## Root node (ast.rs); helpers is an insertion-ordered set, modeled as a
duplicate-free list in insertion order. -/

inductive RootCodegenNode
  | templateChild (n : TemplateChildNode)
  | jsChild (n : JSChildNode)

structure RootNode where
  source : String
  children : List TemplateChildNode
  helpers : List String
  components : List String
  directives : List String
  hoists : List (Option JSChildNode)
  cached : List (Option CacheExpression)
  temps : Nat
  codegenNode : Option RootCodegenNode
  transformed : Option Bool
  loc : SourceLocation

/-- RootNode::new (ast.rs). -/
def RootNode.new (children : List TemplateChildNode) (source : Option String) : RootNode :=
  { source := source.getD ""
    children
    helpers := []
    components := []
    directives := []
    hoists := []
    cached := []
    temps := 0
    codegenNode := none
    transformed := none
    loc := locStub }

/-! ## Parser options (options.rs) and error values (errors.rs) -/

structure CompilerError where
  code : ErrorCodes
  loc : Option SourceLocation
  deriving DecidableEq, Repr

structure ParserOptions where
  parseMode : ParseMode
  ns : Namespaces
  isNativeTag : Option (String → Bool)
  isVoidTag : String → Bool
  isPreTag : String → Bool
  isBuiltInComponent : Option (String → Option Unit)
  isCustomElement : Option (String → Option Bool)
  prefixIdentifiers : Option Bool
  getNamespace : String → Option ElementNode → Nat → Nat
  whitespace : Option Whitespace
  comments : Option Bool
  constants : GlobalCompileTimeConstants

/-- ParserOptions::default (options.rs). -/
def ParserOptions.default : ParserOptions :=
  { parseMode := ParseMode.BASE
    ns := Namespaces.HTML
    isNativeTag := none
    isVoidTag := fun _ => false
    isPreTag := fun _ => false
    isBuiltInComponent := none
    isCustomElement := none
    prefixIdentifiers := some false
    getNamespace := fun _ _ _ => Namespaces.HTML.toU32
    whitespace := none
    comments := none
    constants := {} }

/-! ## utils.rs helpers used by the parser -/

/-- utils.rs is_core_component. -/
def isCoreComponent (tag : String) : Option String :=
  if tag = "Teleport" ∨ tag = "teleport" then some "TELEPORT"
  else if tag = "Suspense" ∨ tag = "suspense" then some "SUSPENSE"
  else if tag = "KeepAlive" ∨ tag = "keep-alive" then some "KEEP_ALIVE"
  else if tag = "BaseTransition" ∨ tag = "base-transition" then some "BASE_TRANSITION"
  else none

/-- utils.rs is_all_whitespace (tokenizer whitespace classes). -/
def isAllWhitespace (s : String) : Bool :=
  !(s.toList.any (fun c => !(isWhitespaceHtml c)))

/-- utils.rs is_simple_identifier. -/
def isSimpleIdentifier (name : String) : Bool :=
  if name.isEmpty then false
  else
    let chars := name.toList
    let first := chars.headD ' '
    if first.isDigit then false
    else chars.all (fun c =>
      c = '$' || c.isAlphanum || c = '_' || c.toNat ≥ 0xA0)

/-- parser.rs is_upper_case. -/
def isUpperCaseCode (c : Nat) : Bool := 64 < c && c < 91

/-- parser.rs SPECIAL_TEMPLATE_DIR / is_fragment_template. -/
def specialTemplateDir : List String := ["if", "else", "else-if", "for", "slot"]

def isFragmentTemplate (el : ElementNode) : Bool :=
  if el.tag = "template" then
    el.props.any (fun p =>
      match p with
      | .directive d => specialTemplateDir.contains d.name
      | .attribute _ => false)
  else false

/-- parser.rs condense: collapse every run of (tokenizer-class) whitespace to
one space. -/
def condenseAux : List Char → Bool → List Char
  | [], _ => []
  | c :: rest, prevWs =>
    if isWhitespaceHtml c then
      if !prevWs then ' ' :: condenseAux rest true
      else condenseAux rest true
    else c :: condenseAux rest false

def condense (s : String) : String :=
  String.mk (condenseAux s.toList false)

/-- parser.rs has_newline_char: the character is NewLine or CarriageReturn. -/
def hasNewlineChar (s : String) : Bool :=
  s.toList.any (fun c => c = '\n' || c = '\r')


/-! ## Whitespace condensation (parser.rs condense_whitespace, lines 973-1046).
The source loops i over a vector of Option-wrapped nodes, reading nodes[i-1]
from the already processed (possibly removed) prefix and nodes[i+1] from the
untouched suffix.  That loop is translated into a left-to-right recursion
whose prev argument is the type of nodes[i-1] after processing (none when the
node was removed or i = 0); next is read from the unprocessed tail. -/

def cwRemovalPattern (prev next : NodeTypes) (content : String) : Bool :=
  (prev = NodeTypes.Comment && (next = NodeTypes.Comment || next = NodeTypes.Element)) ||
  (prev = NodeTypes.Element && (next = NodeTypes.Comment ||
    (next = NodeTypes.Element && hasNewlineChar content)))

def cwGo (shouldCondense : Bool) (inPre : Int) :
    Option NodeTypes → List TemplateChildNode → List TemplateChildNode
  | _, [] => []
  | prev, x :: rest =>
    match x with
    | .text t =>
      if inPre = 0 then
        if isAllWhitespace t.content then
          let next : Option NodeTypes := match rest with
            | [] => none
            | y :: _ => some y.type_
          match prev, next with
          | some pt, some nt =>
            if shouldCondense && cwRemovalPattern pt nt t.content then
              cwGo shouldCondense inPre none rest
            else
              .text { t with content := " " } ::
                cwGo shouldCondense inPre (some NodeTypes.Text) rest
          | _, _ => cwGo shouldCondense inPre none rest
        else
          if shouldCondense then
            .text { t with content := condense t.content } ::
              cwGo shouldCondense inPre (some NodeTypes.Text) rest
          else
            .text t :: cwGo shouldCondense inPre (some NodeTypes.Text) rest
      else
        .text { t with content := rustReplace t.content "\r\n" "\n" } ::
          cwGo shouldCondense inPre (some NodeTypes.Text) rest
    | other => other :: cwGo shouldCondense inPre (some other.type_) rest

/-- parser.rs condense_whitespace. -/
def condenseWhitespace (nodes : List TemplateChildNode) (shouldCondense : Bool)
    (inPre : Int) : List TemplateChildNode :=
  cwGo shouldCondense inPre none nodes

/-! ## Parser state (Tokenizer + ParserContext fields of tokenizer.rs and
parser.rs).  The tokenizer-owned fields (buffer, newline table, RCDATA and
sequence state, delimiters) live here as well because the parser callbacks
read and occasionally write them. -/

abbrev PRes (α : Type) := Except String α

structure ParserState where
  options : ParserOptions
  root : RootNode
  input : String
  buffer : List Char
  newlines : List Nat
  currentOpenTag : Option ElementNode
  currentProp : Option BaseElementProps
  currentAttrValue : String
  currentAttrStartIndex : Option Nat
  currentAttrEndIndex : Option Nat
  inPre : Int
  inVPre : Bool
  stack : List ElementNode
  tokInVPre : Bool
  inRcData : Bool
  inXml : Bool
  mode : ParseMode
  delimiterOpen : List Char
  delimiterClose : List Char
  currentSequence : List Nat
  sequenceIndex : Nat
  errors : List CompilerError

/-- Checked usize subtraction: Rust usize arithmetic panics on underflow. -/
def csub (a b : Nat) : PRes Nat :=
  if b ≤ a then .ok (a - b) else .error "usize subtraction underflow"

namespace Parser

/-- Tokenizer::get_slice (parser.rs lines 35-37); a Rust slicing panic is an
error. -/
def getSlice (st : ParserState) (start stop : Nat) : PRes String :=
  match getSliceChecked st.input start stop with
  | some s => .ok s
  | none => .error "get_slice: byte range panic"

/-- Tokenizer::get_pos over the recorded newline table. -/
def stGetPos (st : ParserState) (index : Nat) : Position :=
  getPos st.newlines index

/-- Tokenizer::look_ahead (parser.rs lines 39-50). -/
def lookAheadAux (bufLen c : Nat) (index : Nat) : List Char → Nat → Option Nat
  | [], _ => none
  | ch :: rest, i =>
    if i ≥ bufLen - 1 then some (index + i)
    else if ch.toNat = c then some (index + i)
    else lookAheadAux bufLen c index rest (i + 1)

def lookAhead (st : ParserState) (index c : Nat) : PRes Nat :=
  if index ≤ st.buffer.length then
    match lookAheadAux st.buffer.length c index (st.buffer.drop index) 0 with
    | some r => .ok r
    | none => .error "look_ahead: unreachable"
  else .error "look_ahead: split_at panic"

/-- Tokenizer::back_track (parser.rs lines 52-59): last index i ≤ index with
buffer[i] = c. -/
def backTrack (st : ParserState) (index c : Nat) : PRes Nat :=
  if index + 1 ≤ st.buffer.length then
    match (List.range (index + 1)).reverse.find?
        (fun i => (st.buffer.getD i ' ').toNat = c) with
    | some i => .ok i
    | none => .error "back_track: unreachable"
  else .error "back_track: split_at panic"

/-- Tokenizer::in_sfc_root (tokenizer.rs). -/
def inSfcRoot (st : ParserState) : Bool :=
  st.mode = ParseMode.SFC && st.stack.length = 0

/-- Tokenizer::is_component (parser.rs lines 61-100). -/
def isComponent (st : ParserState) (el : ElementNode) : Bool :=
  if (match st.options.isCustomElement with
      | some f => (f el.tag).getD false
      | none => false) then
    false
  else if el.tag = "component"
      ∨ isUpperCaseCode ((el.tag.toList.headD (Char.ofNat 0)).toNat)
      ∨ (isCoreComponent el.tag).isSome then
    true
  else if (match st.options.isBuiltInComponent with
      | some f => (f el.tag).isSome
      | none => false) then
    true
  else if (match st.options.isNativeTag with
      | some f => !(f el.tag)
      | none => false) then
    true
  else if el.props.any (fun p =>
      match p with
      | .attribute a =>
        a.name = "is" && (match a.value with
          | some v => strStartsWith v.content "vue:"
          | none => false)
      | .directive _ => false) then
    true
  else false

/-- Tokenizer::add_node (parser.rs lines 102-108): push into the innermost
open element (stack[0]) or the root. -/
def addNode (st : ParserState) (node : TemplateChildNode) : ParserState :=
  match st.stack with
  | parent :: rest => { st with stack := parent.pushChild node :: rest }
  | [] => { st with root := { st.root with children := st.root.children ++ [node] } }

/-- Tokenizer::get_loc (parser.rs lines 110-118). -/
def getLoc (st : ParserState) (start : Nat) (stop : Option Nat) : PRes SourceLocation := do
  let e := stop.getD start
  let src ← getSlice st start e
  .ok { start := stGetPos st start, stop := stGetPos st e, source := src }

/-- Tokenizer::set_loc_end (parser.rs lines 120-123). -/
def setLocEnd (st : ParserState) (loc : SourceLocation) (stop : Nat) : PRes SourceLocation := do
  let src ← getSlice st loc.start.offset stop
  .ok { loc with stop := stGetPos st stop, source := src }

/-- ExpParseMode (parser.rs). -/
inductive ExpParseMode | Normal | Params | Statements | Skip
  deriving DecidableEq, Repr

/-- Tokenizer::create_exp (parser.rs lines 251-301); the prefix-identifiers
expression-parsing body is entirely commented out in the source. -/
def createExp (_st : ParserState) (content : String) (isStatic : Option Bool)
    (loc : SourceLocation) (constType : Option ConstantTypes)
    (_parseMode : Option ExpParseMode) : SimpleExpressionNode :=
  SimpleExpressionNode.new content (some (isStatic.getD false)) (some loc) constType

/-- Tokenizer::create_alias_expression (parser.rs lines 303-326). -/
def createAliasExpression (st : ParserState) (loc : SourceLocation) (content : String)
    (offset : Nat) (asParam : Option Bool) : PRes SimpleExpressionNode := do
  let start := loc.start.offset + offset
  let stop := start + content.length
  let l ← getLoc st start (some stop)
  .ok (createExp st content (some false) l (some ConstantTypes.NotConstant)
    (some (if asParam.getD false then ExpParseMode.Params else ExpParseMode.Normal)))

/-- utils.rs match_for_alias, inner find helper: split at the next occurrence
of pat, extend the accumulated left prefix, and accept when the occurrence is
surrounded by whitespace. -/
def matchForAliasFind (text leftText pat : String) :
    PRes (Option (String × String) × String × String) :=
  match splitOnce text pat with
  | none => .error "match_for_alias: unreachable"
  | some (left, right) =>
    let leftText := if leftText ≠ "" then leftText ++ pat else leftText
    let leftText := leftText ++ left
    if (left.toList.getLast?.elim false rustIsWhitespace)
        && (right.toList.head?.elim false rustIsWhitespace) then
      .ok (some (rustTrimEnd leftText, rustTrimStart right), right, leftText)
    else
      .ok (none, right, leftText)

/-- utils.rs match_for_alias main loop (with fuel; each step consumes past an
occurrence, so text.length + 1 steps always suffice).  String lengths are char
counts; the concrete inputs in the theorems are ASCII, where Rust byte lengths
coincide. -/
def matchForAliasLoop : Nat → String → String → String → String →
    PRes (Option (String × String))
  | 0, _, _, _, _ => .error "match_for_alias: fuel exhausted"
  | fuel + 1, inText, inLeft, ofText, ofLeft =>
    match strFind inText "in", strFind ofText "of" with
    | some ii, some oi =>
      if inLeft.length + ii ≤ ofLeft.length + oi then do
        let (r, t, l) ← matchForAliasFind inText inLeft "in"
        match r with
        | some res => .ok (some res)
        | none => matchForAliasLoop fuel t l ofText ofLeft
      else do
        let (r, t, l) ← matchForAliasFind ofText ofLeft "of"
        match r with
        | some res => .ok (some res)
        | none => matchForAliasLoop fuel inText inLeft t l
    | some _, none => do
      let (r, t, l) ← matchForAliasFind inText inLeft "in"
      match r with
      | some res => .ok (some res)
      | none => matchForAliasLoop fuel t l ofText ofLeft
    | none, some _ => do
      let (r, t, l) ← matchForAliasFind ofText ofLeft "of"
      match r with
      | some res => .ok (some res)
      | none => matchForAliasLoop fuel inText inLeft t l
    | none, none => .ok none

def matchForAlias (text : String) : PRes (Option (String × String)) :=
  matchForAliasLoop (text.length + 1) text "" text ""

/-- The value content computed by parse_for_expression (parser.rs lines
352-360): the trimmed LHS unwrapped of one leading ( and one trailing ). -/
def valueContentOf (lhs : String) : String :=
  let c := rustTrim lhs
  let c := if c.toList.head? = some '(' then String.mk (c.toList.drop 1) else c
  if c.toList.getLast? = some ')' then String.mk c.toList.dropLast else c

/-- Tokenizer::parse_for_expression (parser.rs lines 328-379); note the value
content is the whole unwrapped LHS (the comma split is left as a TODO in the
source), and key / index are never set. -/
def parseForExpression (st : ParserState) (input : SimpleExpressionNode) :
    PRes (Option ForParseResult) := do
  let inMatch ← matchForAlias input.content
  match inMatch with
  | none => .ok none
  | some (lhs, rhs) =>
    let offset ← match strFind input.content rhs with
      | some o => .ok o
      | none => .error "parse_for_expression: unreachable"
    let sourceAlias ← createAliasExpression st input.loc (rustTrim rhs) offset none
    let result : ForParseResult :=
      ForParseResult.mk (.simple sourceAlias) none none none false
    let valueContent := valueContentOf lhs
    let trimmedOffset ← match strFind lhs valueContent with
      | some o => .ok o
      | none => .error "parse_for_expression: unreachable"
    let result ←
      if valueContent.length ≠ 0 then do
        let v ← createAliasExpression st input.loc valueContent trimmedOffset (some true)
        .ok (result.setValue (some (.simple v)))
      else .ok result
    .ok (some result)

/-- Tokenizer::emit_error (parser.rs lines 381-388); the on_error callback is
modeled as appending to the error list. -/
def emitError (st : ParserState) (code : ErrorCodes) (index : Nat) : PRes ParserState := do
  let loc ← getLoc st index (some index)
  .ok { st with errors := st.errors ++ [{ code, loc := some loc }] }

/-- Tokenizer::on_close_tag (parser.rs lines 214-249); el is threaded through
explicitly in place of the &mut reference. -/
def onCloseTagImpl (st : ParserState) (el : ElementNode) (stop : Nat)
    (isImplied : Option Bool) : PRes (ParserState × ElementNode) := do
  let isImplied := isImplied.getD false
  let el ←
    if isImplied then do
      let idx ← backTrack st stop ('<').toNat
      let loc ← setLocEnd st el.loc idx
      pure (el.setLoc loc)
    else do
      let idx ← lookAhead st stop ('>').toNat
      let loc ← setLocEnd st el.loc (idx + 1)
      pure (el.setLoc loc)
  let el :=
    if !st.inVPre then
      if el.tag = "slot" then el.setTagType ElementTypes.Slot
      else if isFragmentTemplate el then el.setTagType ElementTypes.Template
      else if isComponent st el then el.setTagType ElementTypes.Component
      else el
    else el
  let el :=
    if !st.inRcData then
      el.setChildren (condenseWhitespace el.children
        (st.options.whitespace ≠ some Whitespace.Preserve) st.inPre)
    else el
  let st := if st.inVPre then { st with tokInVPre := false, inVPre := false } else st
  .ok (st, el)

/-- Tokenizer::on_text (parser.rs lines 152-212); the browser-only entity
decoding calls are commented out in the source. -/
def onTextImpl (st : ParserState) (content : String) (start stop : Nat) :
    PRes ParserState :=
  match st.stack with
  | parent :: restStack =>
    match parent.children.getLast? with
    | some (.text lastNode) => do
      let loc ← setLocEnd st lastNode.loc stop
      let newLast := TemplateChildNode.text
        { lastNode with content := lastNode.content ++ content, loc := loc }
      let parent := parent.setChildren (parent.children.dropLast ++ [newLast])
      .ok { st with stack := parent :: restStack }
    | _ => do
      let loc ← getLoc st start (some stop)
      let parent := parent.pushChild (.text { content := content, loc := loc })
      .ok { st with stack := parent :: restStack }
  | [] =>
    match st.root.children.getLast? with
    | some (.text lastNode) => do
      let loc ← setLocEnd st lastNode.loc stop
      let newLast := TemplateChildNode.text
        { lastNode with content := lastNode.content ++ content, loc := loc }
      .ok { st with root :=
        { st.root with children := st.root.children.dropLast ++ [newLast] } }
    | _ => do
      let loc ← getLoc st start (some stop)
      .ok { st with root := { st.root with children :=
        st.root.children ++ [.text { content := content, loc := loc }] } }

/-- Tokenizer::end_open_tag (parser.rs lines 125-150). -/
def endOpenTag (st : ParserState) (stop : Nat) : PRes ParserState := do
  match st.currentOpenTag with
  | none => .error "end_open_tag: unreachable"
  | some tag =>
    let st := { st with currentOpenTag := none }
    -- in_sfc_root: the innerLoc generation is commented out in the source
    let st :=
      if tag.ns = Namespaces.HTML.toU32 ∧ st.options.isPreTag tag.tag then
        { st with inPre := st.inPre + 1 }
      else st
    if st.options.isVoidTag tag.tag then do
      let (st, el) ← onCloseTagImpl st tag stop none
      .ok (addNode st (.element el))
    else
      let st :=
        if tag.ns = Namespaces.SVG.toU32 ∨ tag.ns = Namespaces.MathML.toU32 then
          { st with inXml := true }
        else st
      .ok { st with stack := tag :: st.stack }

/-- Tokenizer::enter_rc_data (tokenizer.rs). -/
def enterRcData (st : ParserState) (seq : List Nat) (offset : Nat) : ParserState :=
  { st with inRcData := true, currentSequence := seq, sequenceIndex := offset }

/-- tokenizer.rs to_char_codes. -/
def toCharCodes (s : String) : List Nat := s.toList.map Char.toNat

/-! ### Parser callbacks (parser.rs, Callbacks impl block) -/

/-- Tokenizer::onerr. -/
def onerr (st : ParserState) (code : ErrorCodes) (index : Nat) : PRes ParserState :=
  emitError st code index

/-- Tokenizer::ontext. -/
def ontext (st : ParserState) (start stop : Nat) : PRes ParserState := do
  let sl ← getSlice st start stop
  onTextImpl st sl start stop

/-- Whitespace scan used by oninterpolation for the inner start: advance while
buffer[i] is whitespace; an out-of-bounds read is the Rust indexing panic. -/
def scanWsFwd (buffer : List Char) : Nat → Nat → PRes Nat
  | 0, _ => .error "oninterpolation: fuel exhausted"
  | fuel + 1, i =>
    match buffer.get? i with
    | none => .error "oninterpolation: index out of bounds"
    | some c =>
      if isWhitespaceHtml c then scanWsFwd buffer fuel (i + 1) else .ok i

/-- Whitespace scan used by oninterpolation for the inner end: decrement while
buffer[i - 1] is whitespace. -/
def scanWsBwd (buffer : List Char) : Nat → Nat → PRes Nat
  | 0, _ => .error "oninterpolation: fuel exhausted"
  | fuel + 1, i => do
    let j ← csub i 1
    match buffer.get? j with
    | none => .error "oninterpolation: index out of bounds"
    | some c =>
      if isWhitespaceHtml c then scanWsBwd buffer fuel j else .ok i

/-- Tokenizer::oninterpolation (parser.rs lines 401-436). -/
def oninterpolation (st : ParserState) (start stop : Nat) : PRes ParserState := do
  if st.inVPre then do
    let sl ← getSlice st start stop
    onTextImpl st sl start stop
  else do
    let innerStart ← scanWsFwd st.buffer (st.buffer.length + 1)
      (start + st.delimiterOpen.length)
    let innerEndStart ← csub stop st.delimiterClose.length
    let innerEnd ← scanWsBwd st.buffer (st.buffer.length + 1) innerEndStart
    let exp ← getSlice st innerStart innerEnd
    -- entity decoding for backwards compat: commented out in the source
    let loc ← getLoc st innerStart (some innerEnd)
    let expNode := createExp st exp (some false) loc none none
    let loc2 ← getLoc st start (some stop)
    .ok (addNode st (.interpolation (.mk (.simple expNode) loc2)))

/-- Tokenizer::onopentagname (parser.rs lines 438-457). -/
def onopentagname (st : ParserState) (start stop : Nat) : PRes ParserState := do
  let name ← getSlice st start stop
  let s1 ← csub start 1
  let loc ← getLoc st s1 (some stop)
  let ns := st.options.getNamespace name st.stack.head? st.options.ns.toU32
  let el : ElementNode := .plainElement ns name ElementTypes.Element [] [] none none none loc
  .ok { st with currentOpenTag := some el }

/-- Tokenizer::onopentagend. -/
def onopentagend (st : ParserState) (stop : Nat) : PRes ParserState :=
  endOpenTag st stop

/-- The removal loop of onclosetag: pop stack[0] count times; every popped
element but the last closes as an implied close. -/
def closeLoop (stop : Nat) : ParserState → Nat → PRes ParserState
  | st, 0 => .ok st
  | st, count + 1 =>
    match st.stack with
    | [] => .error "onclosetag: unreachable"
    | el :: rest => do
      let (st, el) ← onCloseTagImpl { st with stack := rest } el stop (some (count > 0))
      let st := addNode st (.element el)
      closeLoop stop st count

/-- Rust str::to_lowercase (ASCII-relevant part). -/
def rustToLower (s : String) : String := String.mk (s.toList.map Char.toLower)

/-- Tokenizer::onclosetag (parser.rs lines 463-494). -/
def onclosetag (st : ParserState) (start stop : Nat) : PRes ParserState := do
  let name ← getSlice st start stop
  if !(st.options.isVoidTag name) then
    let found := st.stack.findIdx? (fun e => rustToLower e.tag == rustToLower name)
    match found with
    | some index => do
      let st ←
        if index > 0 then
          match st.stack.head? with
          | some top => emitError st ErrorCodes.XMissingEndTag top.loc.start.offset
          | none => .error "onclosetag: unreachable"
        else .ok st
      closeLoop stop st (index + 1)
    | none => do
      let idx ← backTrack st start ('<').toNat
      emitError st ErrorCodes.XInvalidEndTag idx
  else .ok st

/-- Tokenizer::onselfclosingtag (parser.rs lines 496-515). -/
def onselfclosingtag (st : ParserState) (stop : Nat) : PRes ParserState := do
  match st.currentOpenTag with
  | none => .error "onselfclosingtag: unreachable"
  | some tag =>
    let name := tag.tag
    let st := { st with currentOpenTag := some (tag.setIsSelfClosing (some true)) }
    let st ← endOpenTag st stop
    if (match st.stack.head? with
        | some el => el.tag == name
        | none => false) then
      match st.stack with
      | el :: rest => do
        let (st, el) ← onCloseTagImpl { st with stack := rest } el stop none
        .ok (addNode st (.element el))
      | [] => .error "onselfclosingtag: unreachable"
    else .ok st

/-- Tokenizer::onattribname (parser.rs lines 517-525). -/
def onattribname (st : ParserState) (start stop : Nat) : PRes ParserState := do
  let name ← getSlice st start stop
  let nameLoc ← getLoc st start (some stop)
  let loc ← getLoc st start none
  .ok { st with currentProp := some (.attribute
    { name, nameLoc, value := none, loc }) }

/-- Tokenizer::ondirname (parser.rs lines 527-583); raw.split_at(2) panics
when the raw name is shorter than two (never produced by the tokenizer). -/
def ondirname (st : ParserState) (start stop : Nat) : PRes ParserState := do
  let raw ← getSlice st start stop
  let name ←
    if raw = "." ∨ raw = ":" then .ok "bind"
    else if raw = "@" then .ok "on"
    else if raw = "#" then .ok "slot"
    else if raw.length ≥ 2 then .ok (String.mk (raw.toList.drop 2))
    else .error "ondirname: split_at panic"
  let st ←
    if !st.inVPre ∧ name = "" then
      emitError st ErrorCodes.XMissingDirectiveName start
    else .ok st
  if st.inVPre ∨ name = "" then do
    let nameLoc ← getLoc st start (some stop)
    let loc ← getLoc st start none
    .ok { st with currentProp := some (.attribute
      { name := raw, nameLoc, value := none, loc }) }
  else do
    let modifiers :=
      if raw = "." then [SimpleExpressionNode.new "prop" none none none] else []
    let loc ← getLoc st start none
    let st := { st with currentProp := some (.directive
      (.mk name (some raw) none none modifiers none loc)) }
    if name = "pre" then
      .ok { st with tokInVPre := true, inVPre := true }
    else .ok st

/-- Tokenizer::ondirarg (parser.rs lines 585-619). -/
def ondirarg (st : ParserState) (start stop : Nat) : PRes ParserState := do
  if start = stop then .ok st
  else do
    let arg ← getSlice st start stop
    match st.currentProp with
    | none => .error "ondirarg: unreachable"
    | some currentProp =>
      if st.inVPre ∧ !(isVPreProp currentProp) then
        match currentProp with
        | .attribute attr =>
          .ok { st with currentProp := some (.attribute
            { attr with name := attr.name ++ arg }) }
        | .directive _ => .error "ondirarg: unreachable"
      else do
        let isStatic := !(strStartsWith arg "[")
        let content ←
          if isStatic then .ok arg
          else if arg.length ≥ 2 then
            .ok (String.mk (arg.toList.drop 1).dropLast)
          else .error "ondirarg: slice panic"
        let loc ← getLoc st start (some stop)
        let constType :=
          if isStatic then ConstantTypes.CanStringify else ConstantTypes.NotConstant
        let expNode := createExp st content (some isStatic) loc (some constType) none
        match st.currentProp with
        | some (.directive dir) =>
          .ok { st with currentProp := some (.directive
            (dir.setArg (some (.simple expNode)))) }
        | _ => .error "ondirarg: unreachable"

/-- Tokenizer::ondirmodifier (parser.rs lines 621-672); the v-pre branch is a
todo!() in the source. -/
def ondirmodifier (st : ParserState) (start stop : Nat) : PRes ParserState := do
  let dirMod ← getSlice st start stop
  if st.inVPre && (match st.currentProp with
      | some p => !(isVPreProp p)
      | none => false) then
    .error "ondirmodifier: todo"
  else if (match st.currentProp with
      | some (.directive d) => d.name == "slot"
      | _ => false) then
    match st.currentProp with
    | some (.directive dir) =>
      (match dir.arg with
      | some (.simple arg) => do
        let argLoc ← setLocEnd st arg.loc stop
        let arg := { arg with content := arg.content ++ "." ++ dirMod, loc := argLoc }
        .ok { st with currentProp := some (.directive
          (dir.setArg (some (.simple arg)))) }
      | some (.compound _) => .error "ondirmodifier: debug_assert"
      | none => .ok st)
    | _ => .error "ondirmodifier: unreachable"
  else do
    let loc ← getLoc st start (some stop)
    let exp := SimpleExpressionNode.new dirMod (some true) (some loc) none
    match st.currentProp with
    | some (.directive dir) =>
      .ok { st with currentProp := some (.directive
        (dir.setModifiers (dir.modifiers ++ [exp]))) }
    | _ => .error "ondirmodifier: unreachable"

/-- Tokenizer::onattribdata (parser.rs lines 674-682). -/
def onattribdata (st : ParserState) (start stop : Nat) : PRes ParserState := do
  let sl ← getSlice st start stop
  .ok { st with
    currentAttrValue := st.currentAttrValue ++ sl
    currentAttrStartIndex :=
      if st.currentAttrStartIndex.isNone then some start else st.currentAttrStartIndex
    currentAttrEndIndex := some stop }

/-- Tokenizer::onattribnameend (parser.rs lines 684-704): recompute the full
raw name, store it on directives, and emit DUPLICATE_ATTRIBUTE at the start of
this prop when an existing prop has the same name (attributes) or raw name
(directives). -/
def onattribnameend (st : ParserState) (stop : Nat) : PRes ParserState := do
  match st.currentProp with
  | none => .error "onattribnameend: unreachable"
  | some currentProp =>
    let start := currentProp.loc.start.offset
    let name ← getSlice st start stop
    let st :=
      match st.currentProp with
      | some (.directive dir) =>
        { st with currentProp := some (.directive (dir.setRawName (some name))) }
      | _ => st
    match st.currentOpenTag with
    | none => .error "onattribnameend: unreachable"
    | some tag =>
      if tag.props.any (fun p =>
          match p with
          | .attribute a => a.name = name
          | .directive d => d.rawName = some name) then
        emitError st ErrorCodes.DuplicateAttribute start
      else .ok st

/-- onattribend, class-value condensation (parser.rs lines 723-728). -/
def oaeClassCondense (st : ParserState) : ParserState :=
  if (match st.currentProp with
      | some p => p.name == "class"
      | none => false) then
    { st with currentAttrValue := rustTrim (condense st.currentAttrValue) }
  else st

/-- onattribend, attaching the collected value to the current attribute
(parser.rs lines 748-760). -/
def oaeSetAttrValue (st : ParserState) (loc : SourceLocation) : ParserState :=
  match st.currentProp with
  | some (.attribute cp) =>
    { st with currentProp := some (.attribute
      { cp with value := some { content := st.currentAttrValue, loc } }) }
  | _ => st

/-- onattribend, the attribute-valued branch (parser.rs lines 719-786). -/
def oaeAttr (st : ParserState) (quote : QuoteType) (stop : Nat) : PRes ParserState := do
  -- __browser__ entity decoding: commented out in the source
  let st := oaeClassCondense st
  let st ←
    if quote = QuoteType.Unquoted ∧ st.currentAttrValue ≠ "" then
      emitError st ErrorCodes.MissingAttributeValue stop
    else .ok st
  match st.currentAttrStartIndex, st.currentAttrEndIndex with
  | some casi, some caei => do
    let loc ←
      if quote = QuoteType.Unquoted then
        getLoc st casi (some caei)
      else do
        let s1 ← csub casi 1
        getLoc st s1 (some (caei + 1))
    let st := oaeSetAttrValue st loc
    if inSfcRoot st
        && (match st.currentOpenTag with
           | some el => el.tag == "template"
           | none => false)
        && (match st.currentProp with
           | some p => p.name == "lang"
           | none => false)
        && st.currentAttrValue != "" && st.currentAttrValue != "html" then
      .ok (enterRcData st (toCharCodes "</template") 0)
    else .ok st
  | _, _ => .error "onattribend: unreachable"

/-- onattribend, the directive-valued branch (parser.rs lines 787-846). -/
def oaeDir (st : ParserState) (_quote : QuoteType) : PRes ParserState := do
  let expParseMode :=
    if !st.options.constants.browser then
      match st.currentProp with
      | some p =>
        if p.name = "for" then ExpParseMode.Skip
        else if p.name = "slot" then ExpParseMode.Params
        else if p.name = "on" ∧ strContains st.currentAttrValue ";" then
          ExpParseMode.Statements
        else ExpParseMode.Normal
      | none => ExpParseMode.Normal
    else ExpParseMode.Normal
  match st.currentAttrStartIndex, st.currentAttrEndIndex with
  | some casi, some caei => do
    let loc ← getLoc st casi (some caei)
    let exp := createExp st st.currentAttrValue (some false) loc
      (some ConstantTypes.NotConstant) (some expParseMode)
    match st.currentProp with
    | some (.directive dir) => do
      let forParseResult ←
        if dir.name = "for" then do
          let r ← parseForExpression st exp
          pure (some r)
        else pure none
      let dir := dir.setExp (some (.simple exp))
      let dir :=
        match forParseResult with
        | some fpr => dir.setForParseResult fpr
        | none => dir
      pure { st with currentProp := some (.directive dir) }
    | _ => pure st
  | _, _ => .error "onattribend: unreachable"

/-- onattribend, appending the finished prop unless it is the v-pre directive
(parser.rs lines 848-858). -/
def oaeAppend (st : ParserState) : PRes ParserState :=
  match st.currentProp with
  | none => .error "onattribend: unreachable"
  | some cp =>
    if !(match cp with
        | .directive d => d.name = "pre"
        | .attribute _ => false) then
      match st.currentOpenTag with
      | some tag =>
        .ok { st with currentOpenTag := some (tag.pushProp cp) }
      | none => .ok st
    else .ok st

/-- Tokenizer::onattribend (parser.rs lines 706-863). -/
def onattribend (st : ParserState) (quote : QuoteType) (stop : Nat) : PRes ParserState := do
  let st ←
    if st.currentOpenTag.isSome ∧ st.currentProp.isSome then do
      -- finalize end pos
      let st ←
        match st.currentProp with
        | some cp => do
          let loc ← setLocEnd st cp.loc stop
          pure { st with currentProp := some (cp.setLoc loc) }
        | none => pure st
      let st ←
        if quote ≠ QuoteType.NoValue then
          if (match st.currentProp with
              | some (.attribute _) => true
              | _ => false) then
            oaeAttr st quote stop
          else
            oaeDir st quote
        else .ok st
      oaeAppend st
    else .ok st
  .ok { st with currentAttrValue := "", currentAttrStartIndex := none, currentAttrEndIndex := none }

/-- Tokenizer::oncomment (parser.rs lines 865-871): comment nodes are created
only when the comments option is set. -/
def oncomment (st : ParserState) (start stop : Nat) : PRes ParserState := do
  if st.options.comments.getD false then do
    let content ← getSlice st start stop
    let s4 ← csub start 4
    let loc ← getLoc st s4 (some (stop + 3))
    .ok (addNode st (.comment { content, loc }))
  else .ok st

/-- The stack-draining loop of onend: the stack was drained up front, so every
element is appended with an empty stack (directly to the root). -/
def onendDrain (stop : Nat) : ParserState → List ElementNode → PRes ParserState
  | st, [] => .ok st
  | st, item :: rest => do
    let e1 ← csub stop 1
    let (st, item) ← onCloseTagImpl st item e1 none
    let offset := item.loc.start.offset
    let st := addNode st (.element item)
    let st ← emitError st ErrorCodes.XMissingEndTag offset
    onendDrain stop st rest

/-- Tokenizer::onend (parser.rs lines 873-926); the tokenizer fields it reads
(state, section_start, current_sequence) are taken as arguments. -/
def onend (st : ParserState) (tokSt : TokState) (sectionStart : Option Nat)
    (seqIsCdataEnd : Bool) : PRes ParserState := do
  let e := st.input.length
  let st ←
    if (st.options.constants.dev ∨ !st.options.constants.browser)
        ∧ tokSt ≠ TokState.Text then
      match tokSt with
      | TokState.BeforeTagName | TokState.BeforeClosingTagName =>
        emitError st ErrorCodes.EOFBeforeTagName e
      | TokState.Interpolation | TokState.InterpolationClose =>
        (match sectionStart with
        | none => .error "onend: unreachable"
        | some ss => emitError st ErrorCodes.XMissingInterpolationEnd ss)
      | TokState.InCommentLike =>
        if seqIsCdataEnd then emitError st ErrorCodes.EOFInCdata e
        else emitError st ErrorCodes.EOFInComment e
      | TokState.InTagName | TokState.InSelfClosingTag | TokState.InClosingTagName
      | TokState.BeforeAttrName | TokState.InAttrName | TokState.InDirName
      | TokState.InDirArg | TokState.InDirDynamicArg | TokState.InDirModifier
      | TokState.AfterAttrName | TokState.BeforeAttrValue | TokState.InAttrValueDq
      | TokState.InAttrValueSq | TokState.InAttrValueNq =>
        emitError st ErrorCodes.EOFInTag e
      | _ => .ok st
    else .ok st
  let items := st.stack
  let st := { st with stack := [] }
  onendDrain e st items

/-- Tokenizer::oncdata (parser.rs lines 928-936). -/
def oncdata (st : ParserState) (start stop : Nat) : PRes ParserState := do
  if (match st.stack.head? with
      | some el => el.ns != Namespaces.HTML.toU32
      | none => false) then do
    let sl ← getSlice st start stop
    onTextImpl st sl start stop
  else do
    let s9 ← csub start 9
    emitError st ErrorCodes.CdataInHtmlContent s9

/-- Tokenizer::onprocessinginstruction (parser.rs lines 938-951). -/
def onprocessinginstruction (st : ParserState) (start _stop : Nat) : PRes ParserState := do
  let ns :=
    match st.stack.head? with
    | some el => el.ns
    | none => st.options.ns.toU32
  if ns = Namespaces.HTML.toU32 then do
    let s1 ← csub start 1
    emitError st ErrorCodes.UnexpectedQuestionMarkInsteadOfTagName s1
  else .ok st

/-! ### Parse events: the callback invocations a tokenizer run performs.
Quantifying over arbitrary event sequences covers every behavior of the
tokenizer driver (which owns the interleaving but creates no AST nodes
itself); tokSet models the tokenizer mutating its RCDATA flag. -/

inductive ParseEvent
  | onerr (code : ErrorCodes) (index : Nat)
  | ontext (start stop : Nat)
  | oninterpolation (start stop : Nat)
  | onopentagname (start stop : Nat)
  | onopentagend (stop : Nat)
  | onclosetag (start stop : Nat)
  | onselfclosingtag (stop : Nat)
  | onattribname (start stop : Nat)
  | ondirname (start stop : Nat)
  | ondirarg (start stop : Nat)
  | ondirmodifier (start stop : Nat)
  | onattribdata (start stop : Nat)
  | onattribnameend (stop : Nat)
  | onattribend (quote : QuoteType) (stop : Nat)
  | oncomment (start stop : Nat)
  | oncdata (start stop : Nat)
  | onprocessinginstruction (start stop : Nat)
  | onend (tokSt : TokState) (sectionStart : Option Nat) (seqIsCdataEnd : Bool)
  | tokSet (inRcData : Bool)

def dispatchEvent (st : ParserState) : ParseEvent → PRes ParserState
  | .onerr code index => onerr st code index
  | .ontext s e => ontext st s e
  | .oninterpolation s e => oninterpolation st s e
  | .onopentagname s e => onopentagname st s e
  | .onopentagend e => onopentagend st e
  | .onclosetag s e => onclosetag st s e
  | .onselfclosingtag e => onselfclosingtag st e
  | .onattribname s e => onattribname st s e
  | .ondirname s e => ondirname st s e
  | .ondirarg s e => ondirarg st s e
  | .ondirmodifier s e => ondirmodifier st s e
  | .onattribdata s e => onattribdata st s e
  | .onattribnameend e => onattribnameend st e
  | .onattribend q e => onattribend st q e
  | .oncomment s e => oncomment st s e
  | .oncdata s e => oncdata st s e
  | .onprocessinginstruction s e => onprocessinginstruction st s e
  | .onend t ss cd => onend st t ss cd
  | .tokSet rc => .ok { st with inRcData := rc }

def runEvents (st : ParserState) : List ParseEvent → PRes ParserState
  | [] => .ok st
  | ev :: rest => do
    let st ← dispatchEvent st ev
    runEvents st rest

/-- The parser state at the start of base_parse (parser.rs lines 1078-1107):
the context fields, the tokenizer buffer over the input chars, the mode and
in_xml flags copied from the options.  The newline table is filled by the
tokenizer driver while scanning; it is passed here as a parameter. -/
def initState (options : ParserOptions) (input : String) (newlines : List Nat) :
    ParserState :=
  { options
    root := RootNode.new [] (some input)
    input
    buffer := input.toList
    newlines
    currentOpenTag := none
    currentProp := none
    currentAttrValue := ""
    currentAttrStartIndex := none
    currentAttrEndIndex := none
    inPre := 0
    inVPre := false
    stack := []
    tokInVPre := false
    inRcData := false
    inXml := options.ns = Namespaces.SVG ∨ options.ns = Namespaces.MathML
    mode := options.parseMode
    delimiterOpen := ['{', '{']
    delimiterClose := ['}', '}']
    currentSequence := []
    sequenceIndex := 0
    errors := [] }

/-- The tail of base_parse (parser.rs lines 1109-1123): after the tokenizer
run, the root children get a final whitespace condensation. -/
def finishRoot (st : ParserState) : RootNode :=
  let newChildren := condenseWhitespace st.root.children
    (st.options.whitespace ≠ some Whitespace.Preserve) st.inPre
  { st.root with children := newChildren }

end Parser

/-! ## Transform context pieces used by the v-if transform (transform.rs,
ast.rs).  helpers is an insertion-ordered multiset: an IndexMap from helper
name to use count whose key order is first-insertion order. -/

structure TransformContext where
  ssr : Bool
  inSSR : Bool
  helpers : List (String × Nat)
  constants : GlobalCompileTimeConstants

/-- TransformContext::helper (transform.rs lines 132-136): bump the count
(inserting at the back on first use; IndexMap keeps the position of existing
keys) and return the name. -/
def TransformContext.helper (ctx : TransformContext) (name : String) :
    String × TransformContext :=
  let count := (((ctx.helpers.find? (fun p => p.1 == name)).map Prod.snd).getD 0) + 1
  let helpers :=
    if ctx.helpers.any (fun p => p.1 == name) then
      ctx.helpers.map (fun p => if p.1 == name then (p.1, count) else p)
    else ctx.helpers ++ [(name, count)]
  (name, { ctx with helpers := helpers })

/-- VNodeCall::new (ast.rs lines 906-940): registers the vnode helpers on the
context when one is supplied. -/
def VNodeCall.new (ctx : Option TransformContext) (tag : String)
    (props : Option PropsExpression) (children : Option VNodeCallChildren)
    (patchFlag : Option PatchFlags) (isBlock : Option Bool)
    (disableTracking : Option Bool) (isComponent : Option Bool)
    (loc : Option SourceLocation) : VNodeCall × Option TransformContext :=
  let isBlock := isBlock.getD false
  let isComponent := isComponent.getD false
  let ctx :=
    match ctx with
    | some c =>
      if isBlock then
        let (_, c) := c.helper helperOpenBlock
        let (_, c) := c.helper (getVNodeBlockHelper c.inSSR isComponent)
        some c
      else
        let (_, c) := c.helper (getVNodeHelper c.inSSR isComponent)
        some c
    | none => none
  (VNodeCall.mk tag props children patchFlag isBlock (disableTracking.getD false)
    isComponent (loc.getD locStub), ctx)

/-- create_children_codegen_node (transforms/v_if.rs lines 194-276): build the
key property, then unconditionally wrap the branch children in a Fragment
block VNodeCall with the STABLE_FRAGMENT patch flag.  The single-element
VNodeCall-reuse path of the upstream compiler appears only as a comment in the
source. -/
def createChildrenCodegenNode (branch : IfBranchNode) (keyIndex : Nat)
    (ctx : TransformContext) : JSChildNode × TransformContext :=
  let keyProperty := Property.new
    (ExpressionNode.newSimple "key" (some true) none none)
    (JSChildNode.simple (SimpleExpressionNode.new (toString keyIndex) (some false)
      (some locStub) (some ConstantTypes.CanCache)))
  let children := branch.children
  let patchFlag := PatchFlags.StableFragment
  let (tag, ctx) := ctx.helper helperFragment
  let (v, ctxOut) := VNodeCall.new (some ctx) tag
    (some (.object (.mk [keyProperty] locStub)))
    (some (.templateChildNodeList children))
    (some patchFlag) (some true) (some false) (some false) (some branch.loc)
  (JSChildNode.vNodeCall v, ctxOut.getD ctx)

/-- TransformIfState::exit, is_root case (transforms/v_if.rs lines 27-48):
the root v-if branch becomes an IfConditional whose alternate is a
createCommentVNode call with "v-if" (dev) or "" plus true. -/
def transformIfRootCodegen (branch : IfBranchNode) (key : Nat)
    (ctx : TransformContext) : PRes (IfCodegenNode × TransformContext) :=
  match branch.condition with
  | none => .error "transform_if exit: unreachable"
  | some condition =>
    let test : JSChildNode :=
      match condition with
      | .simple e => .simple e
      | .compound e => .compound e
    let (consequent, ctx) := createChildrenCodegenNode branch key ctx
    let (helperName, ctx) := ctx.helper helperCreateComment
    let alternate : JSChildNode := .call (.mk (.str helperName)
      [ .str (if ctx.constants.dev then "\"v-if\"" else "\"\""), .str "true" ]
      locStub)
    .ok (IfCodegenNode.ifConditional (.mk test consequent alternate true), ctx)

/-! ## The code generator (codegen.rs).  The CodegenContext is threaded
functionally; its push only ever appends to the output buffer (the source-map
branch of push is an unreached todo when no map sink is installed, and no map
sink exists in the embedded options).  The recursive printers take fuel;
running out of fuel leaves the context unchanged, and every concrete
evaluation below supplies enough fuel. -/

inductive CodegenMode | Module | Function
  deriving DecidableEq, Repr

structure CodegenOptions where
  prefixIdentifiers : Option Bool := none
  ssr : Option Bool := none
  inSSR : Option Bool := none
  bindingMetadata : Option Unit := none
  inline : Option Bool := none
  isTS : Option Bool := none
  mode : Option CodegenMode := none
  scopeId : Option String := none
  optimizeImports : Option Bool := none
  runtimeModuleName : Option String := none
  runtimeGlobalName : Option String := none
  constants : GlobalCompileTimeConstants := {}

structure CodegenContext where
  prefixIdentifiers : Bool
  ssr : Bool
  inSSR : Bool
  isTS : Bool
  mode : CodegenMode
  scopeId : Option String
  optimizeImports : Bool
  runtimeModuleName : String
  runtimeGlobalName : String
  code : String
  indentLevel : Nat
  pure : Bool
  constants : GlobalCompileTimeConstants

/-- CodegenContext::new (codegen.rs lines 187-216). -/
def CodegenContext.new (options : CodegenOptions) : CodegenContext :=
  { prefixIdentifiers :=
      options.prefixIdentifiers.getD (options.mode = some CodegenMode.Module)
    ssr := options.ssr.getD false
    inSSR := options.inSSR.getD false
    isTS := options.isTS.getD false
    mode := options.mode.getD CodegenMode.Function
    scopeId := options.scopeId
    optimizeImports := options.optimizeImports.getD false
    runtimeModuleName := options.runtimeModuleName.getD "vue"
    runtimeGlobalName := options.runtimeGlobalName.getD "Vue"
    code := ""
    indentLevel := 0
    pure := false
    constants := options.constants }

/-- CodegenContext::helper. -/
def CodegenContext.helper (_ctx : CodegenContext) (key : String) : String :=
  "_" ++ key

/-- CodegenContext::push: appends to the buffer (no source map sink). -/
def CodegenContext.push (ctx : CodegenContext) (code : String) : CodegenContext :=
  { ctx with code := ctx.code ++ code }

/-- codegen.rs newline(n): a line break plus two-space indents. -/
def cgNewlineN (ctx : CodegenContext) (n : Nat) : CodegenContext :=
  ctx.push ("\n" ++ String.join (List.replicate n "  "))

def CodegenContext.indent (ctx : CodegenContext) : CodegenContext :=
  let ctx := { ctx with indentLevel := ctx.indentLevel + 1 }
  cgNewlineN ctx ctx.indentLevel

def CodegenContext.deindent (ctx : CodegenContext) (withoutNewLine : Option Bool) :
    CodegenContext :=
  if withoutNewLine.getD false then
    { ctx with indentLevel := ctx.indentLevel - 1 }
  else
    let ctx := { ctx with indentLevel := ctx.indentLevel - 1 }
    cgNewlineN ctx ctx.indentLevel

def CodegenContext.newline (ctx : CodegenContext) : CodegenContext :=
  cgNewlineN ctx ctx.indentLevel

def pureAnno : String := "/*@__PURE__*/"

/-- codegen.rs alias_helper. -/
def aliasHelper (s : String) : String := s ++ ": _" ++ s

inductive AssetType | Component | Directive
  deriving DecidableEq, Repr

def AssetType.toStr : AssetType → String
  | .Component => "component"
  | .Directive => "directive"

/-- utils.rs to_valid_asset_id. -/
def toValidAssetId (name : String) (type_ : AssetType) : String :=
  let mapped := String.join (name.toList.map (fun c =>
    if !(c.isAlphanum && c.toNat < 128) && c ≠ '_' then
      if c = '-' then "_" else toString c.toNat
    else String.mk [c]))
  "_" ++ type_.toStr ++ "_" ++ mapped

/-- codegen.rs GenNodeListNode. -/
inductive GenNodeListNode
  | str (s : String)
  | codegenNode (n : CodegenNode)
  | templateChildNodeList (l : List TemplateChildNode)

/-- From impls collected from codegen.rs. -/
def CodegenNode.ofTemplateChild : TemplateChildNode → CodegenNode
  | .element e => .element e
  | .interpolation i => .interpolation i
  | .compound c => .compound c
  | .text t => .text t
  | .comment c => .comment c
  | .ifNode n => .ifNode n
  | .ifBranch b => .ifBranch b
  | .forNode f => .forNode f

def CodegenNode.ofJSChild : JSChildNode → CodegenNode
  | .vNodeCall v => .vNodeCall v
  | .call c => .call c
  | .object o => .object o
  | .array a => .array a
  | .simple e => .simple e
  | .compound e => .compound e
  | .ifConditional e => .ifConditional e
  | .cache c => .cache c

def CodegenNode.ofSSR : SSRCodegenNode → CodegenNode
  | .templateLiteral t => .templateLiteral t

def CodegenNode.ofRootCodegen : RootCodegenNode → CodegenNode
  | .templateChild n => CodegenNode.ofTemplateChild n
  | .jsChild n => CodegenNode.ofJSChild n

def CodegenNode.ofExpression : ExpressionNode → CodegenNode
  | .simple e => .simple e
  | .compound e => .compound e

def CodegenNode.ofIfCodegen : IfCodegenNode → CodegenNode
  | .ifConditional e => .ifConditional e

/-- From VNodeCallChildren for GenNodeListNode (codegen.rs lines 605-620);
the source From impl has no arm for the ForRenderListExpression variant
(never built in the printer paths: a ForCodegenNode converts to a VNodeCall
with children = None). -/
def GenNodeListNode.ofVNodeCallChildren : VNodeCallChildren → GenNodeListNode
  | .templateChildNodeList l => .templateChildNodeList l
  | .templateTextChildNode n =>
    match n with
    | .text t => .codegenNode (.text t)
    | .interpolation i => .codegenNode (.interpolation i)
    | .compound c => .codegenNode (.compound c)
  | .forRenderListExpression _ => .str ""

def GenNodeListNode.ofProps : PropsExpression → GenNodeListNode
  | .object o => .codegenNode (.object o)

def GenNodeListNode.ofCallArgument : CallArgument → GenNodeListNode
  | .str s => .str s
  | .jsChild n => .codegenNode (CodegenNode.ofJSChild n)
  | .ssrCodegen n => .codegenNode (CodegenNode.ofSSR n)
  | .templateChild n => .codegenNode (CodegenNode.ofTemplateChild n)
  | .templateChildren l => .templateChildNodeList l

/-- ForCodegenNode into VNodeCall (ast.rs lines 957-970). -/
def ForCodegenNode.intoVNodeCall : ForCodegenNode → VNodeCall
  | .mk tag _children patchFlag disableTracking _isComponent loc =>
    VNodeCall.mk tag none none (some patchFlag) true disableTracking false loc

/-- codegen.rs gen_text. -/
def genText (node : TextNode) (ctx : CodegenContext) : CodegenContext :=
  ctx.push (jsonEncodeString node.content)

/-- codegen.rs gen_expression. -/
def genExpression (node : SimpleExpressionNode) (ctx : CodegenContext) : CodegenContext :=
  if node.isStatic then ctx.push (jsonEncodeString node.content)
  else ctx.push node.content

/-- The argument vector assembled by gen_vnode_call (codegen.rs lines
972-990): pushed back-to-front (patch flag, children, props, tag) with a
literal null standing in for a missing argument once a later one has been
pushed, then reversed. -/
def genVNodeCallArgs (patchFlagString : Option String)
    (children : Option VNodeCallChildren) (props : Option PropsExpression)
    (tag : String) : List GenNodeListNode :=
  let nodes : List GenNodeListNode := []
  let nodes :=
    match patchFlagString with
    | some pf => nodes ++ [.str pf]
    | none => nodes
  let nodes :=
    match children with
    | some ch => nodes ++ [GenNodeListNode.ofVNodeCallChildren ch]
    | none => if nodes.length ≠ 0 then nodes ++ [.str "null"] else nodes
  let nodes :=
    match props with
    | some pr => nodes ++ [GenNodeListNode.ofProps pr]
    | none => if nodes.length ≠ 0 then nodes ++ [.str "null"] else nodes
  let nodes := nodes ++ [.str tag]
  nodes.reverse

/-- The patch-flag argument string of gen_vnode_call (codegen.rs lines
919-946). -/
def genPatchFlagString (ctx : CodegenContext) (patchFlag : Option PatchFlags) :
    Option String :=
  match patchFlag with
  | none => none
  | some pf =>
    some (if ctx.constants.dev then
      if pf.bits < 0 then
        pf.toStr ++ " /* " ++ pf.asStr ++ " */"
      else
        let flagNames := String.intercalate ", "
          (PatchFlags.keys.filterMap (fun n =>
            if n.bits > 0 ∧ (PatchFlags.and pf n).bits ≠ 0 then some n.asStr else none))
        pf.toStr ++ " /* " ++ flagNames ++ " */"
    else pf.toStr)

mutual

/-- codegen.rs gen_node (lines 684-810); the dev-mode missing-codegen println
writes to stdout, not to the buffer. -/
def genNode : Nat → CodegenNode → CodegenContext → CodegenContext
  | 0, _, ctx => ctx
  | fuel + 1, node, ctx =>
    match node with
    | .element e =>
      (match e with
      | .plainElement _ _ _ _ _ _ cg _ _ =>
        (match cg with
        | some v => genNode fuel (.vNodeCall v) ctx
        | none => ctx)
      | .component _ _ _ _ _ cg _ _ =>
        (match cg with
        | some v => genNode fuel (.vNodeCall v) ctx
        | none => ctx)
      | .slotOutlet _ _ _ _ _ _ _ _ => ctx
      | .template _ _ _ _ _ _ _ _ => ctx)
    | .ifNode n =>
      (match n with
      | .mk _ cg _ =>
        (match cg with
        | some cg => genNode fuel (CodegenNode.ofIfCodegen cg) ctx
        | none => ctx))
    | .forNode f =>
      (match f with
      | .mk _ _ _ _ _ _ cg _ =>
        (match cg with
        | some cg => genNode fuel (.vNodeCall cg.intoVNodeCall) ctx
        | none => ctx))
    | .text t => genText t ctx
    | .simple e => genExpression e ctx
    | .interpolation i => genInterpolation fuel i ctx
    | .compound c => genCompoundExpression fuel c ctx
    | .comment c => genComment c ctx
    | .vNodeCall v => genVNodeCall fuel v ctx
    | .call c => genCallExpression fuel c ctx
    | .object o => genObjectExpression fuel o ctx
    | .array a => genArrayExpression fuel a ctx
    | .ifConditional e => genIfConditionalExpression fuel e ctx
    | .cache c => genCacheExpression fuel c ctx
    | .templateLiteral t =>
      if !ctx.constants.browser then genTemplateLiteral fuel t ctx else ctx
    | .ifBranch _ => ctx

/-- codegen.rs gen_interpolation. -/
def genInterpolation : Nat → InterpolationNode → CodegenContext → CodegenContext
  | 0, _, ctx => ctx
  | fuel + 1, node, ctx =>
    let ctx := if ctx.pure then ctx.push pureAnno else ctx
    let ctx := ctx.push (ctx.helper helperToDisplayString ++ "(")
    let ctx := genNode fuel (CodegenNode.ofExpression node.content) ctx
    ctx.push ")"

/-- codegen.rs gen_compound_expression. -/
def genCompoundExpression : Nat → CompoundExpressionNode → CodegenContext → CodegenContext
  | 0, _, ctx => ctx
  | fuel + 1, node, ctx =>
    (match node with
    | .mk children _ _ => genCompoundChildren fuel children ctx)

def genCompoundChildren : Nat → List CompoundExpressionNodeChild → CodegenContext → CodegenContext
  | 0, _, ctx => ctx
  | _ + 1, [], ctx => ctx
  | fuel + 1, child :: rest, ctx =>
    let ctx :=
      match child with
      | .simple e => genNode fuel (.simple e) ctx
      | .compound c => genNode fuel (.compound c) ctx
      | .interpolation i => genNode fuel (.interpolation i) ctx
      | .text t => genNode fuel (.text t) ctx
      | .str s => ctx.push s
    genCompoundChildren fuel rest ctx

/-- codegen.rs gen_expression_as_property_key. -/
def genExpressionAsPropertyKey : Nat → ExpressionNode → CodegenContext → CodegenContext
  | 0, _, ctx => ctx
  | fuel + 1, node, ctx =>
    match node with
    | .compound c =>
      let ctx := ctx.push "["
      let ctx := genCompoundExpression fuel c ctx
      ctx.push "]"
    | .simple e =>
      if e.isStatic then
        if isSimpleIdentifier e.content then ctx.push e.content
        else ctx.push (jsonEncodeString e.content)
      else
        ctx.push ("[" ++ e.content ++ "]")

/-- codegen.rs gen_node_list_as_array. -/
def genNodeListAsArray : Nat → List GenNodeListNode → CodegenContext → CodegenContext
  | 0, _, ctx => ctx
  | fuel + 1, nodes, ctx =>
    let multilines :=
      if nodes.length > 3 then true
      else if (!ctx.constants.browser || ctx.constants.dev)
          && nodes.any (fun n =>
            match n with
            | .codegenNode _ => true
            | _ => false) then true
      else false
    let ctx := ctx.push "["
    let ctx := if multilines then ctx.indent else ctx
    let ctx := genNodeList fuel nodes ctx multilines true
    let ctx := if multilines then ctx.deindent none else ctx
    ctx.push "]"

/-- codegen.rs gen_node_list (the loop, recursing on the node list; the
separators follow every node but the last). -/
def genNodeList : Nat → List GenNodeListNode → CodegenContext → Bool → Bool → CodegenContext
  | 0, _, ctx, _, _ => ctx
  | _ + 1, [], ctx, _, _ => ctx
  | fuel + 1, node :: rest, ctx, multilines, comma =>
    let ctx :=
      match node with
      | .str s => ctx.push s
      | .templateChildNodeList l =>
        genNodeListAsArray fuel (l.map (fun n => .codegenNode (CodegenNode.ofTemplateChild n))) ctx
      | .codegenNode n => genNode fuel n ctx
    if rest.length > 0 then
      let ctx :=
        if multilines then
          let ctx := if comma then ctx.push "," else ctx
          ctx.newline
        else
          if comma then ctx.push ", " else ctx
      genNodeList fuel rest ctx multilines comma
    else ctx

/-- codegen.rs gen_comment. -/
def genComment (node : CommentNode) (ctx : CodegenContext) : CodegenContext :=
  let ctx := if ctx.pure then ctx.push pureAnno else ctx
  ctx.push (ctx.helper helperCreateComment ++ "(" ++ jsonEncodeString node.content ++ ")")

/-- codegen.rs gen_vnode_call (lines 918-996). -/
def genVNodeCall : Nat → VNodeCall → CodegenContext → CodegenContext
  | 0, _, ctx => ctx
  | fuel + 1, node, ctx =>
    let patchFlagString := genPatchFlagString ctx node.patchFlag
    let ctx :=
      if node.isBlock then
        ctx.push ("(" ++ ctx.helper helperOpenBlock ++ "(" ++
          (if node.disableTracking then "true" else "") ++ "), ")
      else ctx
    let ctx := if ctx.pure then ctx.push pureAnno else ctx
    let callHelper :=
      if node.isBlock then getVNodeBlockHelper ctx.inSSR node.isComponent
      else getVNodeHelper ctx.inSSR node.isComponent
    let ctx := ctx.push (ctx.helper callHelper ++ "(")
    let nodes := genVNodeCallArgs patchFlagString node.children node.props node.tag
    let ctx := genNodeList fuel nodes ctx false true
    let ctx := ctx.push ")"
    if node.isBlock then ctx.push ")" else ctx

/-- codegen.rs gen_call_expression. -/
def genCallExpression : Nat → CallExpression → CodegenContext → CodegenContext
  | 0, _, ctx => ctx
  | fuel + 1, node, ctx =>
    match node with
    | .mk calleeRaw args _ =>
      let callee :=
        match calleeRaw with
        | .str c => c
        | .symbol c => ctx.helper c
      let ctx := if ctx.pure then ctx.push pureAnno else ctx
      let ctx := ctx.push (callee ++ "(")
      let ctx := genNodeList fuel (args.map GenNodeListNode.ofCallArgument) ctx false true
      ctx.push ")"

/-- codegen.rs gen_object_expression (lines 1024-1061); braces are emitted
as their character codes. -/
def genObjectExpression : Nat → ObjectExpression → CodegenContext → CodegenContext
  | 0, _, ctx => ctx
  | fuel + 1, node, ctx =>
    match node with
    | .mk properties _ =>
      if properties.isEmpty then ctx.push "\x7b\x7d"
      else
        let multilines :=
          properties.length > 1 ||
          ((!ctx.constants.browser || ctx.constants.dev) &&
            properties.any (fun p =>
              match p.value with
              | .simple _ => false
              | _ => true))
        let ctx := ctx.push (if multilines then "\x7b" else "\x7b ")
        let ctx := if multilines then ctx.indent else ctx
        let ctx := genObjectProperties fuel properties multilines ctx
        let ctx := if multilines then ctx.deindent none else ctx
        ctx.push (if multilines then "\x7d" else " \x7d")

def genObjectProperties : Nat → List Property → Bool → CodegenContext → CodegenContext
  | 0, _, _, ctx => ctx
  | _ + 1, [], _, ctx => ctx
  | fuel + 1, p :: rest, multilines, ctx =>
    let ctx := genExpressionAsPropertyKey fuel p.key ctx
    let ctx := ctx.push ": "
    let ctx := genNode fuel (CodegenNode.ofJSChild p.value) ctx
    if rest.length > 0 then
      let ctx := ctx.push ","
      let ctx := ctx.newline
      genObjectProperties fuel rest multilines ctx
    else ctx

/-- codegen.rs gen_array_expression. -/
def genArrayExpression : Nat → ArrayExpression → CodegenContext → CodegenContext
  | 0, _, ctx => ctx
  | fuel + 1, node, ctx =>
    match node with
    | .mk elements _ =>
      genNodeListAsArray fuel (elements.map (fun e => .codegenNode e)) ctx

/-- codegen.rs gen_if_conditional_expression (lines 1073-1121). -/
def genIfConditionalExpression : Nat → IfConditionalExpression → CodegenContext → CodegenContext
  | 0, _, ctx => ctx
  | fuel + 1, node, ctx =>
    match node with
    | .mk test consequent alternate needNewLine =>
      let ctx :=
        match test with
        | .simple t =>
          let needsParens := !(isSimpleIdentifier t.content)
          let ctx := if needsParens then ctx.push "(" else ctx
          let ctx := genExpression t ctx
          if needsParens then ctx.push ")" else ctx
        | t =>
          let ctx := ctx.push "("
          let ctx := genNode fuel (CodegenNode.ofJSChild t) ctx
          ctx.push ")"
      let ctx := if needNewLine then ctx.indent else ctx
      let ctx := { ctx with indentLevel := ctx.indentLevel + 1 }
      let ctx := if !needNewLine then ctx.push " " else ctx
      let ctx := ctx.push "? "
      let ctx := genNode fuel (CodegenNode.ofJSChild consequent) ctx
      let ctx := { ctx with indentLevel := ctx.indentLevel - 1 }
      let ctx := if needNewLine then ctx.newline else ctx.push " "
      let ctx := ctx.push ": "
      let isNested :=
        match alternate with
        | .ifConditional _ => true
        | _ => false
      let ctx :=
        if !isNested then { ctx with indentLevel := ctx.indentLevel + 1 } else ctx
      let ctx := genNode fuel (CodegenNode.ofJSChild alternate) ctx
      let ctx :=
        if !isNested then { ctx with indentLevel := ctx.indentLevel - 1 } else ctx
      if needNewLine then ctx.deindent (some true) else ctx

/-- codegen.rs gen_cache_expression. -/
def genCacheExpression : Nat → CacheExpression → CodegenContext → CodegenContext
  | 0, _, ctx => ctx
  | fuel + 1, node, ctx =>
    match node with
    | .mk index value needPauseTracking inVOnce needArraySpread _ =>
      let ctx := if needArraySpread then ctx.push "[...(" else ctx
      let ctx := ctx.push ("_cache[" ++ toString index ++ "] || (")
      let ctx :=
        if needPauseTracking then
          let ctx := ctx.indent
          let ctx := ctx.push (ctx.helper helperSetBlockTracking ++ "(-1")
          let ctx := if inVOnce then ctx.push ", true" else ctx
          let ctx := ctx.push "),"
          let ctx := ctx.newline
          ctx.push "("
        else ctx
      let ctx := ctx.push ("_cache[" ++ toString index ++ "] = ")
      let ctx := genNode fuel (CodegenNode.ofJSChild value) ctx
      let ctx :=
        if needPauseTracking then
          let ctx := ctx.push (").cacheIndex = " ++ toString index ++ ",")
          let ctx := ctx.newline
          let ctx := ctx.push (ctx.helper helperSetBlockTracking ++ "(1),")
          let ctx := ctx.newline
          let ctx := ctx.push ("_cache[" ++ toString index ++ "]")
          ctx.deindent none
        else ctx
      let ctx := ctx.push ")"
      if needArraySpread then ctx.push ")]" else ctx

/-- codegen.rs gen_template_literal. -/
def genTemplateLiteral : Nat → TemplateLiteral → CodegenContext → CodegenContext
  | 0, _, ctx => ctx
  | fuel + 1, node, ctx =>
    match node with
    | .mk elements _ =>
      let ctx := ctx.push "`"
      let multilines := elements.length > 3
      let ctx := genTemplateLiteralElems fuel elements multilines ctx
      ctx.push "`"

def genTemplateLiteralElems : Nat → List TemplateLiteralElement → Bool → CodegenContext → CodegenContext
  | 0, _, _, ctx => ctx
  | _ + 1, [], _, ctx => ctx
  | fuel + 1, e :: rest, multilines, ctx =>
    let ctx :=
      match e with
      | .str s =>
        ctx.push (((rustReplace (rustReplace s "\\" "\\\\") "$" "\\$").toList.map
          (fun c => if c = '`' then "\\`" else String.mk [c])).foldl (· ++ ·) "")
      | .jsChild n =>
        let ctx := ctx.push "$\x7b"
        let ctx := if multilines then ctx.indent else ctx
        let ctx := genNode fuel (CodegenNode.ofJSChild n) ctx
        let ctx := if multilines then ctx.deindent none else ctx
        ctx.push "\x7d"
    genTemplateLiteralElems fuel rest multilines ctx

end

/-- codegen.rs gen_assets (lines 526-554): one const per asset, newline
between consecutive entries. -/
def genAssetsLoop : List String → AssetType → CodegenContext → CodegenContext
  | [], _, ctx => ctx
  | id :: rest, t, ctx =>
    let maybeSelfReference := strEndsWith id "__self"
    let id := if maybeSelfReference then strDropRight id 6 else id
    let resolver := ctx.helper
      (if t = AssetType.Component then helperResolveComponent else helperResolveDirective)
    let ctx := ctx.push ("const " ++ toValidAssetId id t ++ " = " ++ resolver ++ "(" ++
      jsonEncodeString id ++ (if maybeSelfReference then ", true" else "") ++ ")" ++
      (if ctx.isTS then "!" else ""))
    if rest.length > 0 then genAssetsLoop rest t ctx.newline else ctx

/-- codegen.rs gen_hoists (lines 556-572). -/
def genHoistsLoop (fuel : Nat) : List (Option JSChildNode) → Nat → CodegenContext → CodegenContext
  | [], _, ctx => ctx
  | exp :: rest, i, ctx =>
    let ctx :=
      match exp with
      | some exp =>
        let ctx := ctx.push ("const _hoisted_" ++ toString (i + 1) ++ " = ")
        let ctx := genNode fuel (CodegenNode.ofJSChild exp) ctx
        ctx.newline
      | none => ctx
    genHoistsLoop fuel rest (i + 1) ctx

def genHoists (fuel : Nat) (hoists : List (Option JSChildNode)) (ctx : CodegenContext) :
    CodegenContext :=
  if hoists.isEmpty then ctx
  else
    let ctx := { ctx with pure := true }
    let ctx := ctx.newline
    let ctx := genHoistsLoop fuel hoists 0 ctx
    { ctx with pure := false }

/-- codegen.rs gen_function_preamble (lines 395-449). -/
def genFunctionPreamble (fuel : Nat) (ast : RootNode) (ctx : CodegenContext) :
    CodegenContext :=
  let vueBinding :=
    if !ctx.constants.browser && ctx.ssr then
      "require(" ++ jsonEncodeString ctx.runtimeModuleName ++ ")"
    else ctx.runtimeGlobalName
  let ctx :=
    if ast.helpers.length > 0 then
      if !ctx.constants.browser && ctx.prefixIdentifiers then ctx
      else
        let ctx := ctx.push ("const _Vue = " ++ vueBinding ++ "\n")
        if ast.hoists.length ≠ 0 then
          let staticHelpers := String.intercalate ", "
            (([helperCreateVNode, helperCreateElementVNode, helperCreateComment,
               helperCreateText, helperCreateStatic].filter
                (fun h => ast.helpers.contains h)).map aliasHelper)
          ctx.push ("const \x7b " ++ staticHelpers ++ " \x7d = _Vue\n")
        else ctx
    else ctx
  let ctx := genHoists fuel ast.hoists ctx
  let ctx := ctx.newline
  ctx.push "return "

/-- codegen.rs gen_module_preamble (lines 451-508). -/
def genModulePreamble (fuel : Nat) (ast : RootNode) (ctx : CodegenContext)
    (_genScopeId : Bool) (inline : Option Bool) : CodegenContext :=
  let runtimeModuleName := ctx.runtimeModuleName
  let ctx :=
    if ast.helpers.length ≠ 0 then
      if ctx.optimizeImports then
        let helpers := String.intercalate ", " ast.helpers
        let ctx := ctx.push ("import \x7b " ++ helpers ++ " \x7d from " ++
          jsonEncodeString runtimeModuleName ++ "\n")
        let helpers2 := String.intercalate ", "
          (ast.helpers.map (fun s => "_" ++ s ++ " = " ++ s))
        ctx.push ("\n// Binding optimization for webpack code-split\nconst " ++
          helpers2 ++ "\n")
      else
        let helpers := String.intercalate ", "
          (ast.helpers.map (fun s => s ++ " as _" ++ s))
        ctx.push ("import \x7b " ++ helpers ++ " \x7d from " ++
          jsonEncodeString runtimeModuleName ++ "\n")
    else ctx
  let ctx := genHoists fuel ast.hoists ctx
  let ctx := ctx.newline
  if !(inline.getD false) then ctx.push "export " else ctx

/-- The temps loop of generate. -/
def genTempsLoop : Nat → Nat → CodegenContext → CodegenContext
  | 0, _, ctx => ctx
  | remaining + 1, i, ctx =>
    let ctx := ctx.push ((if i > 0 then ", " else "") ++ "_temp" ++ toString i)
    genTempsLoop remaining (i + 1) ctx

/-- codegen.rs generate (lines 261-393), returning the filled context (the
code field is CodegenResult.code; the returned preamble is always empty in
the source). -/
def generate (fuel : Nat) (ast : RootNode) (options : CodegenOptions) :
    CodegenContext :=
  let ctx := CodegenContext.new options
  let mode := ctx.mode
  let prefixIdentifiers := ctx.prefixIdentifiers
  let ssr := ctx.ssr
  let scopeId := ctx.scopeId
  let helpers := ast.helpers
  let hasHelpers := !helpers.isEmpty
  let useWithBlock := !prefixIdentifiers && mode ≠ CodegenMode.Module
  let genScopeId := !options.constants.browser && scopeId.isSome &&
    mode = CodegenMode.Module
  let isSetupInlined := !options.constants.browser && (options.inline.getD false)
  let ctx :=
    if !options.constants.browser && mode = CodegenMode.Module then
      genModulePreamble fuel ast ctx genScopeId (some isSetupInlined)
    else
      genFunctionPreamble fuel ast ctx
  let functionName := if ssr then "ssrRender" else "render"
  let args := if ssr then ["_ctx", "_push", "_parent", "_attrs"] else ["_ctx", "_cache"]
  let args :=
    if !options.constants.browser && options.bindingMetadata.isSome &&
        !(options.inline.getD false) then
      args ++ ["$props", "$setup", "$data", "$options"]
    else args
  let signature :=
    if !options.constants.browser && (options.isTS.getD false) then
      String.intercalate "," (args.map (fun a => a ++ ": any"))
    else String.intercalate ", " args
  let ctx :=
    if isSetupInlined then ctx.push ("(" ++ signature ++ ") => \x7b")
    else ctx.push ("function " ++ functionName ++ "(" ++ signature ++ ") \x7b")
  let ctx := ctx.indent
  let ctx :=
    if useWithBlock then
      let ctx := ctx.push "with (_ctx) \x7b"
      let ctx := ctx.indent
      if hasHelpers then
        let hs := String.intercalate ", " (ast.helpers.map aliasHelper)
        let ctx := ctx.push ("const \x7b " ++ hs ++ " \x7d = _Vue\n")
        ctx.newline
      else ctx
    else ctx
  let ctx :=
    if ast.components.length > 0 then
      let ctx := genAssetsLoop ast.components AssetType.Component ctx
      if ast.directives.length > 0 ∨ ast.temps > 0 then ctx.newline else ctx
    else ctx
  let ctx :=
    if ast.directives.length > 0 then
      let ctx := genAssetsLoop ast.directives AssetType.Directive ctx
      if ast.temps > 0 then ctx.newline else ctx
    else ctx
  let ctx :=
    if ast.temps > 0 then
      let ctx := ctx.push "let "
      genTempsLoop ast.temps 0 ctx
    else ctx
  let ctx :=
    if ast.components.length > 0 ∨ ast.directives.length > 0 ∨ ast.temps > 0 then
      (ctx.push "\n").newline
    else ctx
  let ctx := if !ssr then ctx.push "return " else ctx
  let ctx :=
    match ast.codegenNode with
    | some cg => genNode fuel (CodegenNode.ofRootCodegen cg) ctx
    | none => ctx.push "null"
  let ctx :=
    if useWithBlock then
      (ctx.deindent none).push "\x7d"
    else ctx
  (ctx.deindent none).push "\x7d"

/-! ## Verification -/


/-- The code buffer only ever grows: b extends a. -/
def CodeExt (a b : CodegenContext) : Prop := ∃ s, b.code = a.code ++ s

theorem CodeExt.refl (a : CodegenContext) : CodeExt a a := ⟨"", by simp⟩

theorem CodeExt.trans {a b c : CodegenContext} (h1 : CodeExt a b) (h2 : CodeExt b c) :
    CodeExt a c := by
  obtain ⟨s, hs⟩ := h1
  obtain ⟨t, ht⟩ := h2
  exact ⟨s ++ t, by rw [ht, hs, String.append_assoc]⟩

theorem push_ext (a : CodegenContext) (s : String) : CodeExt a (a.push s) := ⟨s, rfl⟩

theorem eq_code_ext {a b : CodegenContext} (h : b.code = a.code) : CodeExt a b :=
  ⟨"", by simp [h]⟩

theorem newlineN_ext (a : CodegenContext) (n : Nat) : CodeExt a (cgNewlineN a n) := ⟨_, rfl⟩

theorem indent_ext (a : CodegenContext) : CodeExt a a.indent := ⟨_, rfl⟩

theorem newline_ext (a : CodegenContext) : CodeExt a a.newline := ⟨_, rfl⟩

theorem deindent_ext (a : CodegenContext) (w : Option Bool) : CodeExt a (a.deindent w) := by
  unfold CodegenContext.deindent
  split
  · exact ⟨"", by simp⟩
  · exact ⟨_, rfl⟩

theorem ite_ext {c : Prop} [Decidable c] {a f g : CodegenContext}
    (hf : CodeExt a f) (hg : CodeExt a g) : CodeExt a (if c then f else g) := by
  split <;> assumption

theorem genText_ext (t : TextNode) (ctx : CodegenContext) : CodeExt ctx (genText t ctx) :=
  push_ext _ _

theorem genExpression_ext (e : SimpleExpressionNode) (ctx : CodegenContext) :
    CodeExt ctx (genExpression e ctx) := by
  unfold genExpression
  split <;> exact push_ext _ _

theorem genComment_ext (c : CommentNode) (ctx : CodegenContext) :
    CodeExt ctx (genComment c ctx) := by
  unfold genComment
  exact CodeExt.trans (ite_ext (push_ext _ _) (.refl _)) (push_ext _ _)

/-- Separator emission in gen_node_list. -/
theorem sep_ext (a : CodegenContext) (m c : Bool) :
    CodeExt a (if m then ((if c then a.push "," else a).newline)
               else (if c then a.push ", " else a)) := by
  split
  · exact CodeExt.trans (ite_ext (push_ext _ _) (.refl _)) (newline_ext _)
  · exact ite_ext (push_ext _ _) (.refl _)

set_option maxHeartbeats 1000000 in
/-- Master monotonicity: every printer only appends to the buffer. -/
theorem genAllExt (fuel : Nat) :
    (∀ n ctx, CodeExt ctx (genNode fuel n ctx)) ∧
    (∀ i ctx, CodeExt ctx (genInterpolation fuel i ctx)) ∧
    (∀ c ctx, CodeExt ctx (genCompoundExpression fuel c ctx)) ∧
    (∀ l ctx, CodeExt ctx (genCompoundChildren fuel l ctx)) ∧
    (∀ e ctx, CodeExt ctx (genExpressionAsPropertyKey fuel e ctx)) ∧
    (∀ l ctx, CodeExt ctx (genNodeListAsArray fuel l ctx)) ∧
    (∀ l ctx m c, CodeExt ctx (genNodeList fuel l ctx m c)) ∧
    (∀ v ctx, CodeExt ctx (genVNodeCall fuel v ctx)) ∧
    (∀ c ctx, CodeExt ctx (genCallExpression fuel c ctx)) ∧
    (∀ o ctx, CodeExt ctx (genObjectExpression fuel o ctx)) ∧
    (∀ p m ctx, CodeExt ctx (genObjectProperties fuel p m ctx)) ∧
    (∀ a ctx, CodeExt ctx (genArrayExpression fuel a ctx)) ∧
    (∀ e ctx, CodeExt ctx (genIfConditionalExpression fuel e ctx)) ∧
    (∀ c ctx, CodeExt ctx (genCacheExpression fuel c ctx)) ∧
    (∀ t ctx, CodeExt ctx (genTemplateLiteral fuel t ctx)) ∧
    (∀ es m ctx, CodeExt ctx (genTemplateLiteralElems fuel es m ctx)) := by
  induction fuel with
  | zero =>
    refine ⟨?_, ?_, ?_, ?_, ?_, ?_, ?_, ?_, ?_, ?_, ?_, ?_, ?_, ?_, ?_, ?_⟩ <;>
      intros <;> exact .refl _
  | succ fuel ih =>
    obtain ⟨ihNode, ihInterp, ihComp, ihCompCh, ihKey, ihArr, ihList, ihV, ihCall,
      ihObj, ihObjP, ihArrE, ihIf, ihCache, ihTL, ihTLE⟩ := ih
    refine ⟨?_, ?_, ?_, ?_, ?_, ?_, ?_, ?_, ?_, ?_, ?_, ?_, ?_, ?_, ?_, ?_⟩
    -- genNode
    · intro n ctx
      cases n with
      | element e =>
        cases e with
        | plainElement ns tag tt p c s cg scg l =>
          simp only [genNode]
          cases cg with
          | some v => exact ihNode _ _
          | none => exact .refl _
        | component ns tag p c s cg scg l =>
          simp only [genNode]
          cases cg with
          | some v => exact ihNode _ _
          | none => exact .refl _
        | slotOutlet ns tag p c s cg scg l => exact .refl _
        | template ns tag p c s cg scg l => exact .refl _
      | interpolation i => exact ihInterp _ _
      | compound c => exact ihComp _ _
      | text t => exact genText_ext _ _
      | comment c => exact genComment_ext _ _
      | ifNode n =>
        cases n with
        | mk b cg l =>
          simp only [genNode]
          cases cg with
          | some cgv => exact ihNode _ _
          | none => exact .refl _
      | ifBranch b => exact .refl _
      | forNode f =>
        cases f with
        | mk a b c d e g cg l =>
          simp only [genNode]
          cases cg with
          | some cgv => exact ihNode _ _
          | none => exact .refl _
      | vNodeCall v => exact ihV _ _
      | call c => exact ihCall _ _
      | object o => exact ihObj _ _
      | array a => exact ihArrE _ _
      | simple e => exact genExpression_ext _ _
      | ifConditional e => exact ihIf _ _
      | cache c => exact ihCache _ _
      | templateLiteral t =>
        simp only [genNode]
        split
        · exact ihTL _ _
        · exact .refl _
    -- genInterpolation
    · intro i ctx
      simp only [genInterpolation]
      refine CodeExt.trans ?_ (push_ext _ _)
      refine CodeExt.trans ?_ (ihNode _ _)
      refine CodeExt.trans ?_ (push_ext _ _)
      exact ite_ext (push_ext _ _) (.refl _)
    -- genCompoundExpression
    · intro c ctx
      cases c with
      | mk children hk l =>
        simp only [genCompoundExpression]
        exact ihCompCh _ _
    -- genCompoundChildren
    · intro l ctx
      cases l with
      | nil => exact .refl _
      | cons child rest =>
        simp only [genCompoundChildren]
        refine CodeExt.trans ?_ (ihCompCh _ _)
        cases child with
        | simple e => exact ihNode _ _
        | compound c => exact ihNode _ _
        | interpolation i => exact ihNode _ _
        | text t => exact ihNode _ _
        | str s => exact push_ext _ _
    -- genExpressionAsPropertyKey
    · intro e ctx
      cases e with
      | compound c =>
        simp only [genExpressionAsPropertyKey]
        refine CodeExt.trans ?_ (push_ext _ _)
        refine CodeExt.trans ?_ (ihComp _ _)
        exact push_ext _ _
      | simple s =>
        simp only [genExpressionAsPropertyKey]
        split
        · split
          · exact push_ext _ _
          · exact push_ext _ _
        · exact push_ext _ _
    -- genNodeListAsArray
    · intro l ctx
      simp only [genNodeListAsArray]
      refine CodeExt.trans ?_ (push_ext _ _)
      refine CodeExt.trans ?_ (ite_ext (deindent_ext _ _) (.refl _))
      refine CodeExt.trans ?_ (ihList _ _ _ _)
      refine CodeExt.trans ?_ (ite_ext (indent_ext _) (.refl _))
      exact push_ext _ _
    -- genNodeList
    · intro l ctx m c
      cases l with
      | nil => exact .refl _
      | cons node rest =>
        simp only [genNodeList]
        split
        · refine CodeExt.trans ?_ (ihList _ _ _ _)
          refine CodeExt.trans ?_ (sep_ext _ _ _)
          cases node with
          | str s => exact push_ext _ _
          | templateChildNodeList tl => exact ihArr _ _
          | codegenNode n => exact ihNode _ _
        · cases node with
          | str s => exact push_ext _ _
          | templateChildNodeList tl => exact ihArr _ _
          | codegenNode n => exact ihNode _ _
    -- genVNodeCall
    · intro v ctx
      simp only [genVNodeCall]
      refine CodeExt.trans ?_ (ite_ext (push_ext _ _) (.refl _))
      refine CodeExt.trans ?_ (push_ext _ _)
      refine CodeExt.trans ?_ (ihList _ _ _ _)
      refine CodeExt.trans ?_ (push_ext _ _)
      refine CodeExt.trans ?_ (ite_ext (push_ext _ _) (.refl _))
      exact ite_ext (push_ext _ _) (.refl _)
    -- genCallExpression
    · intro c ctx
      cases c with
      | mk callee args l =>
        simp only [genCallExpression]
        refine CodeExt.trans ?_ (push_ext _ _)
        refine CodeExt.trans ?_ (ihList _ _ _ _)
        refine CodeExt.trans ?_ (push_ext _ _)
        exact ite_ext (push_ext _ _) (.refl _)
    -- genObjectExpression
    · intro o ctx
      cases o with
      | mk properties l =>
        simp only [genObjectExpression]
        split
        · exact push_ext _ _
        · refine CodeExt.trans ?_ (push_ext _ _)
          refine CodeExt.trans ?_ (ite_ext (deindent_ext _ _) (.refl _))
          refine CodeExt.trans ?_ (ihObjP _ _ _)
          refine CodeExt.trans ?_ (ite_ext (indent_ext _) (.refl _))
          exact push_ext _ _
    -- genObjectProperties
    · intro p m ctx
      cases p with
      | nil => exact .refl _
      | cons prop rest =>
        simp only [genObjectProperties]
        split
        · refine CodeExt.trans ?_ (ihObjP _ _ _)
          refine CodeExt.trans ?_ (newline_ext _)
          refine CodeExt.trans ?_ (push_ext _ _)
          refine CodeExt.trans ?_ (ihNode _ _)
          refine CodeExt.trans ?_ (push_ext _ _)
          exact ihKey _ _
        · refine CodeExt.trans ?_ (ihNode _ _)
          refine CodeExt.trans ?_ (push_ext _ _)
          exact ihKey _ _
    -- genArrayExpression
    · intro a ctx
      cases a with
      | mk elements l =>
        simp only [genArrayExpression]
        exact ihArr _ _
    -- genIfConditionalExpression
    · intro e ctx
      cases e with
      | mk test consequent alternate needNewLine =>
        simp only [genIfConditionalExpression]
        refine CodeExt.trans ?_ (ite_ext (deindent_ext _ _) (.refl _))
        refine CodeExt.trans ?_ (ite_ext (eq_code_ext rfl) (.refl _))
        refine CodeExt.trans ?_ (ihNode _ _)
        refine CodeExt.trans ?_ (ite_ext (eq_code_ext rfl) (.refl _))
        refine CodeExt.trans ?_ (push_ext _ _)
        refine CodeExt.trans ?_ (ite_ext (newline_ext _) (push_ext _ _))
        refine CodeExt.trans ?_ (eq_code_ext rfl)
        refine CodeExt.trans ?_ (ihNode _ _)
        refine CodeExt.trans ?_ (push_ext _ _)
        refine CodeExt.trans ?_ (ite_ext (push_ext _ _) (.refl _))
        refine CodeExt.trans ?_ (eq_code_ext rfl)
        refine CodeExt.trans ?_ (ite_ext (indent_ext _) (.refl _))
        cases test with
        | simple t =>
          refine CodeExt.trans ?_ (ite_ext (push_ext _ _) (.refl _))
          refine CodeExt.trans ?_ (genExpression_ext _ _)
          exact ite_ext (push_ext _ _) (.refl _)
        | vNodeCall v =>
          refine CodeExt.trans ?_ (push_ext _ _)
          refine CodeExt.trans ?_ (ihNode _ _)
          exact push_ext _ _
        | call c =>
          refine CodeExt.trans ?_ (push_ext _ _)
          refine CodeExt.trans ?_ (ihNode _ _)
          exact push_ext _ _
        | object ob =>
          refine CodeExt.trans ?_ (push_ext _ _)
          refine CodeExt.trans ?_ (ihNode _ _)
          exact push_ext _ _
        | array ar =>
          refine CodeExt.trans ?_ (push_ext _ _)
          refine CodeExt.trans ?_ (ihNode _ _)
          exact push_ext _ _
        | compound co =>
          refine CodeExt.trans ?_ (push_ext _ _)
          refine CodeExt.trans ?_ (ihNode _ _)
          exact push_ext _ _
        | ifConditional ic =>
          refine CodeExt.trans ?_ (push_ext _ _)
          refine CodeExt.trans ?_ (ihNode _ _)
          exact push_ext _ _
        | cache ca =>
          refine CodeExt.trans ?_ (push_ext _ _)
          refine CodeExt.trans ?_ (ihNode _ _)
          exact push_ext _ _
    -- genCacheExpression
    · intro c ctx
      cases c with
      | mk index value needPauseTracking inVOnce needArraySpread l =>
        simp only [genCacheExpression]
        refine CodeExt.trans ?_ (ite_ext (push_ext _ _) (.refl _))
        refine CodeExt.trans ?_ (push_ext _ _)
        refine CodeExt.trans ?_ (ite_ext ?pause2 (.refl _))
        case pause2 =>
          refine CodeExt.trans ?_ (deindent_ext _ _)
          refine CodeExt.trans ?_ (push_ext _ _)
          refine CodeExt.trans ?_ (newline_ext _)
          refine CodeExt.trans ?_ (push_ext _ _)
          refine CodeExt.trans ?_ (newline_ext _)
          exact push_ext _ _
        refine CodeExt.trans ?_ (ihNode _ _)
        refine CodeExt.trans ?_ (push_ext _ _)
        refine CodeExt.trans ?_ (ite_ext ?pause1 (.refl _))
        case pause1 =>
          refine CodeExt.trans ?_ (push_ext _ _)
          refine CodeExt.trans ?_ (newline_ext _)
          refine CodeExt.trans ?_ (push_ext _ _)
          refine CodeExt.trans ?_ (ite_ext (push_ext _ _) (.refl _))
          refine CodeExt.trans ?_ (push_ext _ _)
          exact indent_ext _
        refine CodeExt.trans ?_ (push_ext _ _)
        exact ite_ext (push_ext _ _) (.refl _)
    -- genTemplateLiteral
    · intro t ctx
      cases t with
      | mk elements l =>
        simp only [genTemplateLiteral]
        refine CodeExt.trans ?_ (push_ext _ _)
        refine CodeExt.trans ?_ (ihTLE _ _ _)
        exact push_ext _ _
    -- genTemplateLiteralElems
    · intro es m ctx
      cases es with
      | nil => exact .refl _
      | cons e rest =>
        simp only [genTemplateLiteralElems]
        refine CodeExt.trans ?_ (ihTLE _ _ _)
        cases e with
        | str s => exact push_ext _ _
        | jsChild n =>
          refine CodeExt.trans ?_ (push_ext _ _)
          refine CodeExt.trans ?_ (ite_ext (deindent_ext _ _) (.refl _))
          refine CodeExt.trans ?_ (ihNode _ _)
          refine CodeExt.trans ?_ (ite_ext (indent_ext _) (.refl _))
          exact push_ext _ _

theorem genNode_ext (fuel n ctx) : CodeExt ctx (genNode fuel n ctx) :=
  (genAllExt fuel).1 n ctx

theorem genAssetsLoop_ext (l : List String) (t ctx) :
    CodeExt ctx (genAssetsLoop l t ctx) := by
  induction l generalizing ctx with
  | nil => exact .refl _
  | cons id rest ih =>
    simp only [genAssetsLoop]
    split
    · exact CodeExt.trans (CodeExt.trans (push_ext _ _) (newline_ext _)) (ih _)
    · exact push_ext _ _

theorem genHoistsLoop_ext (fuel l i ctx) : CodeExt ctx (genHoistsLoop fuel l i ctx) := by
  induction l generalizing i ctx with
  | nil => exact .refl _
  | cons exp rest ih =>
    simp only [genHoistsLoop]
    refine CodeExt.trans ?_ (ih _ _)
    cases exp with
    | some e =>
      refine CodeExt.trans ?_ (newline_ext _)
      refine CodeExt.trans ?_ (genNode_ext fuel _ _)
      exact push_ext _ _
    | none => exact .refl _

theorem genHoists_ext (fuel hoists ctx) : CodeExt ctx (genHoists fuel hoists ctx) := by
  simp only [genHoists]
  split
  · exact .refl _
  · refine CodeExt.trans ?_ (eq_code_ext rfl)
    refine CodeExt.trans ?_ (genHoistsLoop_ext _ _ _ _)
    refine CodeExt.trans ?_ (newline_ext _)
    exact eq_code_ext rfl

theorem genTempsLoop_ext (n i ctx) : CodeExt ctx (genTempsLoop n i ctx) := by
  induction n generalizing i ctx with
  | zero => exact .refl _
  | succ m ih =>
    simp only [genTempsLoop]
    exact CodeExt.trans (push_ext _ _) (ih _ _)

/-- The import line gen_module_preamble pushes for a non-empty helper list
when optimize_imports is off. -/
def moduleImportLine (helpers : List String) (runtimeModuleName : String) : String :=
  "import \x7b " ++ String.intercalate ", " (helpers.map (fun s => s ++ " as _" ++ s)) ++
    " \x7d from " ++ jsonEncodeString runtimeModuleName ++ "\n"

theorem ext_code_front (a : CodegenContext) (p : String) {b : CodegenContext}
    (h : CodeExt (a.push p) b) : ∃ rest, b.code = a.code ++ p ++ rest := by
  obtain ⟨s, hs⟩ := h
  exact ⟨s, by rw [hs]; simp [CodegenContext.push, String.append_assoc]⟩

theorem genModulePreamble_code (fuel ast ctx gsi inl)
    (hoi : ctx.optimizeImports = false) (hne : ast.helpers ≠ []) :
    ∃ rest, (genModulePreamble fuel ast ctx gsi inl).code =
      ctx.code ++ moduleImportLine ast.helpers ctx.runtimeModuleName ++ rest := by
  have hlen : ast.helpers.length ≠ 0 := fun h => hne (List.length_eq_zero.mp h)
  simp only [genModulePreamble, hoi, hlen, ne_eq, not_false_eq_true, if_true,
    Bool.false_eq_true, if_false]
  exact ext_code_front ctx (moduleImportLine ast.helpers ctx.runtimeModuleName)
    (CodeExt.trans (genHoists_ext _ _ _)
      (CodeExt.trans (newline_ext _) (ite_ext (push_ext _ _) (.refl _))))

theorem code_prefix_mono (a : CodegenContext) {b : CodegenContext} (h : CodeExt a b) {p : String}
    (hp : ∃ r, a.code = p ++ r) : ∃ rest, b.code = p ++ rest := by
  obtain ⟨s, hs⟩ := h
  obtain ⟨r, hr⟩ := hp
  exact ⟨r ++ s, by rw [hs, hr, String.append_assoc]⟩

/-- Claim C6: in module mode without optimizeImports, for every root with a
non-empty helpers list the generated code starts with the single import line
listing each helper as name as _name, comma separated, in the insertion order
of the helpers list, from the runtime module name (default vue). -/
theorem c6gen (fuel : Nat) (ast : RootNode) (options : CodegenOptions)
    (hmode : options.mode = some CodegenMode.Module)
    (hbrowser : options.constants.browser = false)
    (hopt : options.optimizeImports ≠ some true)
    (hne : ast.helpers ≠ []) :
    ∃ rest, (generate fuel ast options).code =
      moduleImportLine ast.helpers (options.runtimeModuleName.getD "vue") ++ rest := by
  have hoi : (CodegenContext.new options).optimizeImports = false := by
    simp only [CodegenContext.new]
    cases h : options.optimizeImports with
    | none => rfl
    | some b => cases b with
      | false => rfl
      | true => exact absurd h hopt
  have hm : (CodegenContext.new options).mode = CodegenMode.Module := by
    simp [CodegenContext.new, hmode]
  cases hcg : ast.codegenNode with
  | none =>
    simp only [generate, hcg, hbrowser, hm, eq_self_iff_true, decide_True, Bool.not_false,
      Bool.true_and, Bool.and_true, if_true, ne_eq, not_true, decide_False, Bool.and_false,
      Bool.false_and, Bool.false_eq_true, if_false]
    refine code_prefix_mono
      (genModulePreamble fuel ast (CodegenContext.new options)
        (CodegenContext.new options).scopeId.isSome (some (options.inline.getD false))) ?ext ?pre
    case ext =>
      refine CodeExt.trans ?_ (push_ext _ _)
      refine CodeExt.trans ?_ (deindent_ext _ _)
      refine CodeExt.trans ?_ (push_ext _ _)
      refine CodeExt.trans ?_ (ite_ext (push_ext _ _) (.refl _))
      refine CodeExt.trans ?_ (ite_ext (CodeExt.trans (push_ext _ _) (newline_ext _)) (.refl _))
      refine CodeExt.trans ?_ (ite_ext (CodeExt.trans (push_ext _ _) (genTempsLoop_ext _ _ _)) (.refl _))
      refine CodeExt.trans ?_ (ite_ext (CodeExt.trans (genAssetsLoop_ext _ _ _) (ite_ext (newline_ext _) (.refl _))) (.refl _))
      refine CodeExt.trans ?_ (ite_ext (CodeExt.trans (genAssetsLoop_ext _ _ _) (ite_ext (newline_ext _) (.refl _))) (.refl _))
      refine CodeExt.trans ?_ (indent_ext _)
      refine CodeExt.trans ?_ (ite_ext (push_ext _ _) (push_ext _ _))
      exact .refl _
    case pre =>
      refine Exists.imp ?_ (genModulePreamble_code fuel ast (CodegenContext.new options)
        (CodegenContext.new options).scopeId.isSome (some (options.inline.getD false)) hoi hne)
      intro r hr
      rw [hr]
      simp [CodegenContext.new, moduleImportLine]
  | some cg =>
    simp only [generate, hcg, hbrowser, hm, eq_self_iff_true, decide_True, Bool.not_false,
      Bool.true_and, Bool.and_true, if_true, ne_eq, not_true, decide_False, Bool.and_false,
      Bool.false_and, Bool.false_eq_true, if_false]
    refine code_prefix_mono
      (genModulePreamble fuel ast (CodegenContext.new options)
        (CodegenContext.new options).scopeId.isSome (some (options.inline.getD false))) ?ext ?pre
    case ext =>
      refine CodeExt.trans ?_ (push_ext _ _)
      refine CodeExt.trans ?_ (deindent_ext _ _)
      refine CodeExt.trans ?_ (genNode_ext _ _ _)
      refine CodeExt.trans ?_ (ite_ext (push_ext _ _) (.refl _))
      refine CodeExt.trans ?_ (ite_ext (CodeExt.trans (push_ext _ _) (newline_ext _)) (.refl _))
      refine CodeExt.trans ?_ (ite_ext (CodeExt.trans (push_ext _ _) (genTempsLoop_ext _ _ _)) (.refl _))
      refine CodeExt.trans ?_ (ite_ext (CodeExt.trans (genAssetsLoop_ext _ _ _) (ite_ext (newline_ext _) (.refl _))) (.refl _))
      refine CodeExt.trans ?_ (ite_ext (CodeExt.trans (genAssetsLoop_ext _ _ _) (ite_ext (newline_ext _) (.refl _))) (.refl _))
      refine CodeExt.trans ?_ (indent_ext _)
      refine CodeExt.trans ?_ (ite_ext (push_ext _ _) (push_ext _ _))
      exact .refl _
    case pre =>
      refine Exists.imp ?_ (genModulePreamble_code fuel ast (CodegenContext.new options)
        (CodegenContext.new options).scopeId.isSome (some (options.inline.getD false)) hoi hne)
      intro r hr
      rw [hr]
      simp [CodegenContext.new, moduleImportLine]

def c6Ast : RootNode :=
  { RootNode.new [] none with helpers := [helperCreateVNode, helperResolveDirective] }

def c6Options : CodegenOptions := { mode := some CodegenMode.Module }

theorem c6_witness :
    c6Options.mode = some CodegenMode.Module ∧
    c6Options.constants.browser = false ∧
    c6Options.optimizeImports ≠ some true ∧
    c6Ast.helpers ≠ [] ∧
    ∃ rest, (generate 10 c6Ast c6Options).code =
      "import \x7b createVNode as _createVNode, resolveDirective as _resolveDirective \x7d from \"vue\"\n" ++ rest := by
  refine ⟨rfl, rfl, by decide, by decide, ?_⟩
  obtain ⟨rest, h⟩ := c6gen 10 c6Ast c6Options rfl rfl (by decide) (by decide)
  exact ⟨rest, by rw [h]; congr 1⟩

theorem bool_eq_false {b : Bool} (h : ¬ b = true) : b = false := by
  cases b
  · rfl
  · exact absurd rfl h

theorem condenseAux_idem (l : List Char) : ∀ b, condenseAux (condenseAux l b) b = condenseAux l b := by
  induction l with
  | nil => intro b; rfl
  | cons c rest ih =>
    intro b
    by_cases hc : isWhitespaceHtml c = true
    · cases b with
      | false =>
        have hsp : isWhitespaceHtml ' ' = true := rfl
        simp [condenseAux, hc, hsp, ih true]
      | true => simp [condenseAux, hc, ih true]
    · have hc' : isWhitespaceHtml c = false := bool_eq_false hc
      simp [condenseAux, hc', ih false]

theorem condense_idem (s : String) : condense (condense s) = condense s := by
  simp only [condense]
  exact congrArg String.mk (condenseAux_idem s.toList false)

theorem condenseAux_any (l : List Char) : ∀ b,
    (condenseAux l b).any (fun c => !(isWhitespaceHtml c)) =
      l.any (fun c => !(isWhitespaceHtml c)) := by
  induction l with
  | nil => intro b; rfl
  | cons c rest ih =>
    intro b
    by_cases hc : isWhitespaceHtml c = true
    · cases b with
      | false =>
        have hsp : isWhitespaceHtml ' ' = true := rfl
        simp [condenseAux, hc, hsp, ih true]
      | true => simp [condenseAux, hc, ih true]
    · have hc' : isWhitespaceHtml c = false := bool_eq_false hc
      simp [condenseAux, hc', ih false]

theorem isAllWhitespace_condense (s : String) (h : isAllWhitespace s = false) :
    isAllWhitespace (condense s) = false := by
  unfold isAllWhitespace at h ⊢
  have h' : s.toList.any (fun c => !(isWhitespaceHtml c)) = true := by
    cases hx : s.toList.any (fun c => !(isWhitespaceHtml c))
    · rw [hx] at h; simp at h
    · rfl
  have h2 : (condense s).toList.any (fun c => !(isWhitespaceHtml c)) = true := by
    rw [show (condense s).toList = condenseAux s.toList false from rfl, condenseAux_any, h']
  rw [h2]
  rfl

theorem cwRemovalPattern_sp (pt nt : NodeTypes) (c : String)
    (h : cwRemovalPattern pt nt c = false) : cwRemovalPattern pt nt " " = false := by
  unfold cwRemovalPattern at h ⊢
  have hnl : hasNewlineChar " " = false := rfl
  rw [hnl]
  rcases Bool.or_eq_false_iff.mp h with ⟨h1, h2⟩
  apply Bool.or_eq_false_iff.mpr
  refine ⟨h1, ?_⟩
  rcases Bool.and_eq_false_iff.mp h2 with h3 | h3
  · exact Bool.and_eq_false_iff.mpr (Or.inl h3)
  · refine Bool.and_eq_false_iff.mpr (Or.inr ?_)
    rcases Bool.or_eq_false_iff.mp h3 with ⟨h4, h5⟩
    exact Bool.or_eq_false_iff.mpr ⟨h4, by simp⟩

def isTextNode : TemplateChildNode → Bool
  | .text _ => true
  | _ => false

/-- No two adjacent nodes of the list are Text nodes. -/
def noAdjText : List TemplateChildNode → Bool
  | [] => true
  | [_] => true
  | x :: y :: rest => !(isTextNode x && isTextNode y) && noAdjText (y :: rest)

theorem noAdjText_tail (x : TemplateChildNode) (l : List TemplateChildNode)
    (h : noAdjText (x :: l) = true) : noAdjText l = true := by
  cases l with
  | nil => rfl
  | cons y rest => exact (Bool.and_eq_true_iff.mp h).2

theorem cwGo_cons_nontext (sc : Bool) (ip : Int) (p : Option NodeTypes)
    (y : TemplateChildNode) (hy : isTextNode y = false) (r : List TemplateChildNode) :
    cwGo sc ip p (y :: r) = y :: cwGo sc ip (some y.type_) r := by
  cases y
  case text => simp [isTextNode] at hy
  all_goals rfl

theorem cwGo_idem (sc : Bool) (l : List TemplateChildNode) : ∀ (prev p2 : Option NodeTypes),
    noAdjText l = true → (∀ τ, prev = some τ → p2 = some τ) →
    cwGo sc 0 p2 (cwGo sc 0 prev l) = cwGo sc 0 prev l := by
  induction l with
  | nil => intro prev p2 _ _; rfl
  | cons x rest ih =>
    intro prev p2 hadj hcompat
    have hadj' : noAdjText rest = true := noAdjText_tail _ _ hadj
    cases x with
    | text t =>
      by_cases hws : isAllWhitespace t.content = true
      · cases rest with
        | nil =>
          cases prev with
          | none => simp [cwGo, hws]
          | some pt => simp [cwGo, hws]
        | cons y rest2 =>
          cases prev with
          | none =>
            simp only [cwGo, hws]
            simp only [show ((0:Int) = 0) = True by simp, if_true, if_pos trivial]
            exact ih none p2 hadj' (fun τ h => Option.noConfusion h)
          | some pt =>
            have hp2 : p2 = some pt := hcompat pt rfl
            subst hp2
            have hy : isTextNode y = false := by
              have hxy := (Bool.and_eq_true_iff.mp hadj).1
              simpa [isTextNode] using hxy
            by_cases hrem : (sc && cwRemovalPattern pt y.type_ t.content) = true
            · simp only [cwGo, hws]
              simp only [show ((0:Int) = 0) = True by simp, if_true, if_pos trivial, hrem]
              exact ih none (some pt) hadj' (fun τ h => Option.noConfusion h)
            · have hrem' : (sc && cwRemovalPattern pt y.type_ t.content) = false :=
                bool_eq_false hrem
              have hrem2 : (sc && cwRemovalPattern pt y.type_ " ") = false := by
                cases hsc : sc with
                | false => rfl
                | true =>
                  rw [hsc, Bool.true_and] at hrem'
                  rw [Bool.true_and]
                  exact cwRemovalPattern_sp _ _ _ hrem'
              have ihy := ih (some NodeTypes.Text) (some NodeTypes.Text) hadj' (fun τ h => h)
              cases y <;>
                first
                | exact Bool.noConfusion hy
                | (rw [cwGo_cons_nontext sc 0 (some NodeTypes.Text) _ hy rest2] at ihy
                   simp only [cwGo, hws]
                   simp only [show ((0:Int) = 0) = True by simp, if_true, if_pos trivial]
                   simp only [hrem', Bool.false_eq_true, if_false]
                   simp only [cwGo]
                   simp only [show ((0:Int) = 0) = True by simp, if_true, if_pos trivial]
                   try simp only [show ({ content := " ", loc := t.loc } : TextNode).content = " "
                     from rfl]
                   try simp only [show isAllWhitespace (" " : String) = true from rfl, if_true,
                     if_pos trivial]
                   simp only [hrem2, Bool.false_eq_true, if_false]
                   simp only [cwGo] at ihy
                   simp only [List.cons.injEq, eq_self_iff_true, true_and] at ihy
                   rw [ihy])
      · have hws' : isAllWhitespace t.content = false := bool_eq_false hws
        cases hsc : sc with
        | false =>
          simp [cwGo, hws']
          exact hsc ▸ ih (some NodeTypes.Text) (some NodeTypes.Text) hadj' (fun τ h => h)
        | true =>
          simp [cwGo, hws', isAllWhitespace_condense _ hws', condense_idem]
          exact hsc ▸ ih (some NodeTypes.Text) (some NodeTypes.Text) hadj' (fun τ h => h)
    | element e =>
      rw [cwGo_cons_nontext sc 0 prev (.element e) rfl,
        cwGo_cons_nontext sc 0 p2 (.element e) rfl]
      exact congrArg _ (ih _ _ hadj' (fun τ h => h))
    | interpolation i =>
      rw [cwGo_cons_nontext sc 0 prev (.interpolation i) rfl,
        cwGo_cons_nontext sc 0 p2 (.interpolation i) rfl]
      exact congrArg _ (ih _ _ hadj' (fun τ h => h))
    | compound c =>
      rw [cwGo_cons_nontext sc 0 prev (.compound c) rfl,
        cwGo_cons_nontext sc 0 p2 (.compound c) rfl]
      exact congrArg _ (ih _ _ hadj' (fun τ h => h))
    | comment c =>
      rw [cwGo_cons_nontext sc 0 prev (.comment c) rfl,
        cwGo_cons_nontext sc 0 p2 (.comment c) rfl]
      exact congrArg _ (ih _ _ hadj' (fun τ h => h))
    | ifNode n =>
      rw [cwGo_cons_nontext sc 0 prev (.ifNode n) rfl,
        cwGo_cons_nontext sc 0 p2 (.ifNode n) rfl]
      exact congrArg _ (ih _ _ hadj' (fun τ h => h))
    | ifBranch b =>
      rw [cwGo_cons_nontext sc 0 prev (.ifBranch b) rfl,
        cwGo_cons_nontext sc 0 p2 (.ifBranch b) rfl]
      exact congrArg _ (ih _ _ hadj' (fun τ h => h))
    | forNode f =>
      rw [cwGo_cons_nontext sc 0 prev (.forNode f) rfl,
        cwGo_cons_nontext sc 0 p2 (.forNode f) rfl]
      exact congrArg _ (ih _ _ hadj' (fun τ h => h))

/-- Claim C9 (amended): whitespace condensation is idempotent at in_pre depth 0
on lists with no two adjacent Text nodes. In general it is not: trailing
whitespace removal can cascade, and the in-pre carriage-return replacement is
not idempotent (see the counterexample). -/
theorem c9_amended (sc : Bool) (nodes : List TemplateChildNode)
    (h : noAdjText nodes = true) :
    condenseWhitespace (condenseWhitespace nodes sc 0) sc 0 =
      condenseWhitespace nodes sc 0 :=
  cwGo_idem sc nodes none none h (fun τ hh => hh)

def tcContents : List TemplateChildNode → List String
  | [] => []
  | .text t :: r => t.content :: tcContents r
  | _ :: r => "" :: tcContents r

theorem c9_counterexample :
    ((condenseWhitespace (condenseWhitespace
        [.text ⟨"a", locStub⟩, .text ⟨" ", locStub⟩, .text ⟨" ", locStub⟩] true 0) true 0).length ≠
      (condenseWhitespace
        [.text ⟨"a", locStub⟩, .text ⟨" ", locStub⟩, .text ⟨" ", locStub⟩] true 0).length) ∧
    tcContents (condenseWhitespace (condenseWhitespace
        [.text ⟨"\r\r\n", locStub⟩] true 1) true 1) ≠
      tcContents (condenseWhitespace [.text ⟨"\r\r\n", locStub⟩] true 1) := by
  refine ⟨by decide, by decide⟩

theorem c9_witness :
    noAdjText [TemplateChildNode.text ⟨"a  b", locStub⟩, .comment ⟨"c", locStub⟩] = true ∧
    condenseWhitespace (condenseWhitespace
        [TemplateChildNode.text ⟨"a  b", locStub⟩, .comment ⟨"c", locStub⟩] true 0) true 0 =
      condenseWhitespace
        [TemplateChildNode.text ⟨"a  b", locStub⟩, .comment ⟨"c", locStub⟩] true 0 :=
  ⟨by decide, c9_amended true _ (by decide)⟩

mutual

/-- No Comment node occurs anywhere in the subtree. -/
def noCommentT : TemplateChildNode → Bool
  | .element e => noCommentEl e
  | .interpolation _ => true
  | .compound _ => true
  | .text _ => true
  | .comment _ => false
  | .ifNode (.mk branches _ _) => noCommentBranches branches
  | .ifBranch b => noCommentBranch b
  | .forNode (.mk _ _ _ _ _ children _ _) => noCommentList children

def noCommentBranch : IfBranchNode → Bool
  | .mk _ children _ _ _ => noCommentList children

def noCommentBranches : List IfBranchNode → Bool
  | [] => true
  | b :: r => noCommentBranch b && noCommentBranches r

def noCommentEl : ElementNode → Bool
  | .plainElement _ _ _ _ children _ _ _ _ => noCommentList children
  | .component _ _ _ children _ _ _ _ => noCommentList children
  | .slotOutlet _ _ _ children _ _ _ _ => noCommentList children
  | .template _ _ _ children _ _ _ _ => noCommentList children

def noCommentList : List TemplateChildNode → Bool
  | [] => true
  | x :: r => noCommentT x && noCommentList r

end

def noCommentStack : List ElementNode → Bool
  | [] => true
  | e :: r => noCommentEl e && noCommentStack r

/-- The parse-state invariant: no Comment node in the root, the open stack or
the currently open tag. -/
def noCommentState (st : ParserState) : Bool :=
  noCommentList st.root.children &&
  noCommentStack st.stack &&
  (match st.currentOpenTag with
   | some el => noCommentEl el
   | none => true)

theorem pbind_ok {α β : Type} {e : PRes α} {f : α → PRes β} {b : β}
    (h : (e >>= f) = .ok b) : ∃ a, e = .ok a ∧ f a = .ok b := by
  cases e with
  | error err => exact absurd h (by simp [Bind.bind, Except.bind])
  | ok a => exact ⟨a, rfl, by simpa [Bind.bind, Except.bind] using h⟩

theorem noCommentEl_setChildren (e : ElementNode) (cs : List TemplateChildNode) :
    noCommentEl (e.setChildren cs) = noCommentList cs := by
  cases e <;> rfl

theorem noCommentEl_setTagType (e : ElementNode) (tt : ElementTypes) :
    noCommentEl (e.setTagType tt) = noCommentEl e := by
  cases e <;> rfl

theorem noCommentEl_setLoc (e : ElementNode) (l : SourceLocation) :
    noCommentEl (e.setLoc l) = noCommentEl e := by
  cases e <;> rfl

theorem noCommentEl_setIsSelfClosing (e : ElementNode) (s : Option Bool) :
    noCommentEl (e.setIsSelfClosing s) = noCommentEl e := by
  cases e <;> rfl

theorem noCommentEl_pushProp (e : ElementNode) (p : BaseElementProps) :
    noCommentEl (e.pushProp p) = noCommentEl e := by
  cases e <;> rfl

theorem noCommentEl_children (e : ElementNode) :
    noCommentEl e = noCommentList e.children := by
  cases e <;> rfl

theorem noCommentList_append (a b : List TemplateChildNode) :
    noCommentList (a ++ b) = (noCommentList a && noCommentList b) := by
  induction a with
  | nil => simp [noCommentList]
  | cons x r ih => simp [noCommentList, ih, Bool.and_assoc]

theorem noCommentEl_pushChild (e : ElementNode) (n : TemplateChildNode) :
    noCommentEl (e.pushChild n) = (noCommentEl e && noCommentT n) := by
  rw [ElementNode.pushChild, noCommentEl_setChildren, noCommentList_append,
    noCommentEl_children]
  simp [noCommentList]

theorem noCommentList_dropLast : ∀ (l : List TemplateChildNode),
    noCommentList l = true → noCommentList l.dropLast = true
  | [], _ => rfl
  | [_], _ => rfl
  | x :: y :: r, h => by
    rcases Bool.and_eq_true_iff.mp h with ⟨h1, h2⟩
    show noCommentList (x :: (y :: r).dropLast) = true
    exact Bool.and_eq_true_iff.mpr ⟨h1, noCommentList_dropLast (y :: r) h2⟩

theorem noCommentList_cwGo (sc : Bool) (ip : Int) (l : List TemplateChildNode) :
    ∀ (prev : Option NodeTypes), noCommentList l = true →
      noCommentList (cwGo sc ip prev l) = true := by
  induction l with
  | nil => intro prev h; exact h
  | cons x rest ih =>
    intro prev h
    rcases Bool.and_eq_true_iff.mp h with ⟨h1, h2⟩
    cases x with
    | text t =>
      simp only [cwGo]
      split
      · split
        · split
          · split
            · exact ih _ h2
            · exact Bool.and_eq_true_iff.mpr ⟨rfl, ih _ h2⟩
          · exact ih _ h2
        · split
          · exact Bool.and_eq_true_iff.mpr ⟨rfl, ih _ h2⟩
          · exact Bool.and_eq_true_iff.mpr ⟨rfl, ih _ h2⟩
      · exact Bool.and_eq_true_iff.mpr ⟨rfl, ih _ h2⟩
    | element e => exact Bool.and_eq_true_iff.mpr ⟨h1, ih _ h2⟩
    | interpolation i => exact Bool.and_eq_true_iff.mpr ⟨h1, ih _ h2⟩
    | compound c => exact Bool.and_eq_true_iff.mpr ⟨h1, ih _ h2⟩
    | comment c => exact Bool.and_eq_true_iff.mpr ⟨h1, ih _ h2⟩
    | ifNode n => exact Bool.and_eq_true_iff.mpr ⟨h1, ih _ h2⟩
    | ifBranch b => exact Bool.and_eq_true_iff.mpr ⟨h1, ih _ h2⟩
    | forNode f => exact Bool.and_eq_true_iff.mpr ⟨h1, ih _ h2⟩

/-- The invariant only depends on root, stack and the open tag. -/
theorem noCommentState_ext {a b : ParserState} (hr : b.root = a.root)
    (hs : b.stack = a.stack) (ho : b.currentOpenTag = a.currentOpenTag)
    (h : noCommentState a = true) : noCommentState b = true := by
  unfold noCommentState at *
  rw [hr, hs, ho]
  exact h

theorem emitError_core {st : ParserState} {c : ErrorCodes} {i : Nat} {st' : ParserState}
    (h : Parser.emitError st c i = .ok st') :
    st'.root = st.root ∧ st'.stack = st.stack ∧
      st'.currentOpenTag = st.currentOpenTag ∧ st'.options = st.options := by
  unfold Parser.emitError at h
  obtain ⟨loc, hl, h⟩ := pbind_ok h
  cases h
  exact ⟨rfl, rfl, rfl, rfl⟩

theorem addNode_pres (st : ParserState) (node : TemplateChildNode)
    (hn : noCommentT node = true) (hs : noCommentState st = true) :
    noCommentState (Parser.addNode st node) = true ∧
    (Parser.addNode st node).options = st.options ∧
    (Parser.addNode st node).currentOpenTag = st.currentOpenTag := by
  unfold noCommentState at hs
  rcases Bool.and_eq_true_iff.mp hs with ⟨hs12, hs3⟩
  rcases Bool.and_eq_true_iff.mp hs12 with ⟨hs1, hs2⟩
  cases hst : st.stack with
  | nil =>
    have heq : Parser.addNode st node =
        { st with root := { st.root with children := st.root.children ++ [node] } } := by
      unfold Parser.addNode
      rw [hst]
    rw [heq]
    refine ⟨?_, rfl, rfl⟩
    unfold noCommentState
    simp [noCommentList_append, noCommentList, hs1, hs2, hs3, hn]
  | cons parent rest =>
    rw [hst] at hs2
    rcases Bool.and_eq_true_iff.mp hs2 with ⟨hp, hr⟩
    have heq : Parser.addNode st node =
        { st with stack := parent.pushChild node :: rest } := by
      unfold Parser.addNode
      rw [hst]
    rw [heq]
    refine ⟨?_, rfl, rfl⟩
    unfold noCommentState
    simp [noCommentStack, noCommentEl_pushChild, hs1, hp, hr, hs3, hn]

theorem onTextImpl_pres {st : ParserState} {content : String} {start stop : Nat}
    {st' : ParserState} (h : Parser.onTextImpl st content start stop = .ok st')
    (hs : noCommentState st = true) :
    noCommentState st' = true ∧ st'.options = st.options ∧
      st'.currentOpenTag = st.currentOpenTag := by
  unfold noCommentState at hs
  rcases Bool.and_eq_true_iff.mp hs with ⟨hs12, hs3⟩
  rcases Bool.and_eq_true_iff.mp hs12 with ⟨hs1, hs2⟩
  unfold Parser.onTextImpl at h
  split at h
  case _ parent restStack heq =>
    rw [heq] at hs2
    rcases Bool.and_eq_true_iff.mp hs2 with ⟨hp, hr⟩
    rw [noCommentEl_children] at hp
    split at h
    case _ lastNode hlast =>
      obtain ⟨loc, _, h⟩ := pbind_ok h
      cases h
      refine ⟨?_, rfl, rfl⟩
      unfold noCommentState
      simp [noCommentStack, noCommentEl_setChildren, noCommentList_append, noCommentList,
        noCommentT, hs1, hr, hs3, noCommentList_dropLast _ hp]
    case _ hlast =>
      obtain ⟨loc, _, h⟩ := pbind_ok h
      cases h
      refine ⟨?_, rfl, rfl⟩
      have hpc : noCommentEl (parent.pushChild
          (TemplateChildNode.text { content := content, loc := loc })) = true := by
        rw [noCommentEl_pushChild, noCommentEl_children]
        simp [hp, noCommentT]
      unfold noCommentState
      simp [noCommentStack, hs1, hr, hs3, hpc]
  case _ heq =>
    split at h
    case _ lastNode hlast =>
      obtain ⟨loc, _, h⟩ := pbind_ok h
      cases h
      refine ⟨?_, rfl, rfl⟩
      unfold noCommentState
      simp [noCommentList_append, noCommentList, noCommentT, hs2, hs3,
        noCommentList_dropLast _ hs1]
    case _ hlast =>
      obtain ⟨loc, _, h⟩ := pbind_ok h
      cases h
      refine ⟨?_, rfl, rfl⟩
      unfold noCommentState
      simp [noCommentList_append, noCommentList, noCommentT, hs1, hs2, hs3]

theorem onCloseTagImpl_pres {st : ParserState} {el : ElementNode} {stop : Nat}
    {imp : Option Bool} {st' : ParserState} {el' : ElementNode}
    (h : Parser.onCloseTagImpl st el stop imp = .ok (st', el'))
    (he : noCommentEl el = true) :
    noCommentEl el' = true ∧ st'.root = st.root ∧ st'.stack = st.stack ∧
      st'.currentOpenTag = st.currentOpenTag ∧ st'.options = st.options := by
  unfold Parser.onCloseTagImpl at h
  dsimp only at h
  split at h
  all_goals
    obtain ⟨idx, _, h⟩ := pbind_ok h
    obtain ⟨loc, _, h⟩ := pbind_ok h
    obtain ⟨y, hy, h⟩ := pbind_ok h
    cases hy
    cases h
    have hel1 : noCommentEl (el.setLoc loc) = true := by
      rw [noCommentEl_setLoc]; exact he
    refine ⟨?_, ?_, ?_, ?_, ?_⟩
    case _ =>
      split
      · rw [noCommentEl_setChildren]
        apply noCommentList_cwGo
        rw [← noCommentEl_children]
        split
        · split
          · rw [noCommentEl_setTagType]; exact hel1
          · split
            · rw [noCommentEl_setTagType]; exact hel1
            · split
              · rw [noCommentEl_setTagType]; exact hel1
              · exact hel1
        · exact hel1
      · split
        · split
          · rw [noCommentEl_setTagType]; exact hel1
          · split
            · rw [noCommentEl_setTagType]; exact hel1
            · split
              · rw [noCommentEl_setTagType]; exact hel1
              · exact hel1
        · exact hel1
    all_goals split <;> rfl

/-- Core fields: the components noCommentState reads, plus options. -/
def CorePres (a b : ParserState) : Prop :=
  b.root = a.root ∧ b.stack = a.stack ∧ b.currentOpenTag = a.currentOpenTag ∧
    b.options = a.options

theorem corePresRefl (a : ParserState) : CorePres a a := ⟨rfl, rfl, rfl, rfl⟩

theorem corePresTrans {a b c : ParserState} (h1 : CorePres a b) (h2 : CorePres b c) :
    CorePres a c :=
  ⟨h2.1.trans h1.1, h2.2.1.trans h1.2.1, h2.2.2.1.trans h1.2.2.1, h2.2.2.2.trans h1.2.2.2⟩

theorem noCommentState_core {a b : ParserState} (hc : CorePres a b)
    (h : noCommentState a = true) : noCommentState b = true :=
  noCommentState_ext hc.1 hc.2.1 hc.2.2.1 h

theorem emitError_corePres {st : ParserState} {c : ErrorCodes} {i : Nat} {st' : ParserState}
    (h : Parser.emitError st c i = .ok st') : CorePres st st' :=
  emitError_core h

theorem onattribname_core {st : ParserState} {s e : Nat} {st' : ParserState}
    (h : Parser.onattribname st s e = .ok st') : CorePres st st' := by
  unfold Parser.onattribname at h
  obtain ⟨n, _, h⟩ := pbind_ok h
  obtain ⟨nl, _, h⟩ := pbind_ok h
  obtain ⟨l, _, h⟩ := pbind_ok h
  cases h
  exact ⟨rfl, rfl, rfl, rfl⟩

theorem onattribdata_core {st : ParserState} {s e : Nat} {st' : ParserState}
    (h : Parser.onattribdata st s e = .ok st') : CorePres st st' := by
  unfold Parser.onattribdata at h
  obtain ⟨sl, _, h⟩ := pbind_ok h
  cases h
  exact ⟨rfl, rfl, rfl, rfl⟩

theorem ondirname_core {st : ParserState} {s e : Nat} {st' : ParserState}
    (h : Parser.ondirname st s e = .ok st') : CorePres st st' := by
  unfold Parser.ondirname at h
  dsimp only at h
  obtain ⟨raw, _, h⟩ := pbind_ok h
  split at h
  · obtain ⟨nm, hnm, h⟩ := pbind_ok h
    cases hnm
    split at h
    · obtain ⟨st1, hst1, h⟩ := pbind_ok h
      refine corePresTrans (emitError_corePres hst1) ?_
      split at h
      · obtain ⟨nl, _, h⟩ := pbind_ok h
        obtain ⟨l, _, h⟩ := pbind_ok h
        cases h
        exact ⟨rfl, rfl, rfl, rfl⟩
      · obtain ⟨l, _, h⟩ := pbind_ok h
        split at h <;> (cases h; exact ⟨rfl, rfl, rfl, rfl⟩)
    · obtain ⟨st1, hst1, h⟩ := pbind_ok h
      cases hst1
      split at h
      · obtain ⟨nl, _, h⟩ := pbind_ok h
        obtain ⟨l, _, h⟩ := pbind_ok h
        cases h
        exact ⟨rfl, rfl, rfl, rfl⟩
      · obtain ⟨l, _, h⟩ := pbind_ok h
        split at h <;> (cases h; exact ⟨rfl, rfl, rfl, rfl⟩)
  · split at h
    · obtain ⟨nm, hnm, h⟩ := pbind_ok h
      cases hnm
      split at h
      · obtain ⟨st1, hst1, h⟩ := pbind_ok h
        refine corePresTrans (emitError_corePres hst1) ?_
        split at h
        · obtain ⟨nl, _, h⟩ := pbind_ok h
          obtain ⟨l, _, h⟩ := pbind_ok h
          cases h
          exact ⟨rfl, rfl, rfl, rfl⟩
        · obtain ⟨l, _, h⟩ := pbind_ok h
          split at h <;> (cases h; exact ⟨rfl, rfl, rfl, rfl⟩)
      · obtain ⟨st1, hst1, h⟩ := pbind_ok h
        cases hst1
        split at h
        · obtain ⟨nl, _, h⟩ := pbind_ok h
          obtain ⟨l, _, h⟩ := pbind_ok h
          cases h
          exact ⟨rfl, rfl, rfl, rfl⟩
        · obtain ⟨l, _, h⟩ := pbind_ok h
          split at h <;> (cases h; exact ⟨rfl, rfl, rfl, rfl⟩)
    · split at h
      · obtain ⟨nm, hnm, h⟩ := pbind_ok h
        cases hnm
        split at h
        · obtain ⟨st1, hst1, h⟩ := pbind_ok h
          refine corePresTrans (emitError_corePres hst1) ?_
          split at h
          · obtain ⟨nl, _, h⟩ := pbind_ok h
            obtain ⟨l, _, h⟩ := pbind_ok h
            cases h
            exact ⟨rfl, rfl, rfl, rfl⟩
          · obtain ⟨l, _, h⟩ := pbind_ok h
            split at h <;> (cases h; exact ⟨rfl, rfl, rfl, rfl⟩)
        · obtain ⟨st1, hst1, h⟩ := pbind_ok h
          cases hst1
          split at h
          · obtain ⟨nl, _, h⟩ := pbind_ok h
            obtain ⟨l, _, h⟩ := pbind_ok h
            cases h
            exact ⟨rfl, rfl, rfl, rfl⟩
          · obtain ⟨l, _, h⟩ := pbind_ok h
            split at h <;> (cases h; exact ⟨rfl, rfl, rfl, rfl⟩)
      · split at h
        · obtain ⟨nm, hnm, h⟩ := pbind_ok h
          cases hnm
          split at h
          · obtain ⟨st1, hst1, h⟩ := pbind_ok h
            refine corePresTrans (emitError_corePres hst1) ?_
            split at h
            · obtain ⟨nl, _, h⟩ := pbind_ok h
              obtain ⟨l, _, h⟩ := pbind_ok h
              cases h
              exact ⟨rfl, rfl, rfl, rfl⟩
            · obtain ⟨l, _, h⟩ := pbind_ok h
              split at h <;> (cases h; exact ⟨rfl, rfl, rfl, rfl⟩)
          · obtain ⟨st1, hst1, h⟩ := pbind_ok h
            cases hst1
            split at h
            · obtain ⟨nl, _, h⟩ := pbind_ok h
              obtain ⟨l, _, h⟩ := pbind_ok h
              cases h
              exact ⟨rfl, rfl, rfl, rfl⟩
            · obtain ⟨l, _, h⟩ := pbind_ok h
              split at h <;> (cases h; exact ⟨rfl, rfl, rfl, rfl⟩)
        · obtain ⟨a, ha, _⟩ := pbind_ok h
          cases ha

theorem ondirarg_core {st : ParserState} {s e : Nat} {st' : ParserState}
    (h : Parser.ondirarg st s e = .ok st') : CorePres st st' := by
  unfold Parser.ondirarg at h
  dsimp only at h
  split at h
  · cases h; exact corePresRefl _
  · obtain ⟨arg, _, h⟩ := pbind_ok h
    split at h
    · cases h
    · split at h
      · split at h
        · cases h; exact ⟨rfl, rfl, rfl, rfl⟩
        · cases h
      · split at h
        · obtain ⟨y, hy, h⟩ := pbind_ok h
          cases hy
          obtain ⟨l, _, h⟩ := pbind_ok h
          split at h
          · cases h; exact ⟨rfl, rfl, rfl, rfl⟩
          · cases h
        · split at h
          · obtain ⟨y, hy, h⟩ := pbind_ok h
            cases hy
            obtain ⟨l, _, h⟩ := pbind_ok h
            split at h
            · cases h; exact ⟨rfl, rfl, rfl, rfl⟩
            · cases h
          · obtain ⟨y, hy, h⟩ := pbind_ok h
            cases hy

theorem ondirmodifier_core {st : ParserState} {s e : Nat} {st' : ParserState}
    (h : Parser.ondirmodifier st s e = .ok st') : CorePres st st' := by
  unfold Parser.ondirmodifier at h
  dsimp only at h
  obtain ⟨dm, _, h⟩ := pbind_ok h
  split at h
  · cases h
  · split at h
    · split at h
      · split at h
        · obtain ⟨al, _, h⟩ := pbind_ok h
          cases h
          exact ⟨rfl, rfl, rfl, rfl⟩
        · cases h
        · cases h; exact corePresRefl _
      · cases h
    · obtain ⟨l, _, h⟩ := pbind_ok h
      split at h
      · cases h; exact ⟨rfl, rfl, rfl, rfl⟩
      · cases h

theorem onattribnameend_core {st : ParserState} {e : Nat} {st' : ParserState}
    (h : Parser.onattribnameend st e = .ok st') : CorePres st st' := by
  unfold Parser.onattribnameend at h
  dsimp only at h
  split at h
  · cases h
  · obtain ⟨name, _, h⟩ := pbind_ok h
    split at h
    · cases h
    · split at h
      · refine corePresTrans ?_ (emitError_corePres h)
        split
        · exact ⟨rfl, rfl, rfl, rfl⟩
        · exact corePresRefl _
      · cases h
        split <;> exact ⟨rfl, rfl, rfl, rfl⟩

theorem onprocessinginstruction_core {st : ParserState} {s e : Nat} {st' : ParserState}
    (h : Parser.onprocessinginstruction st s e = .ok st') : CorePres st st' := by
  unfold Parser.onprocessinginstruction at h
  dsimp only at h
  split at h
  · obtain ⟨s1, _, h⟩ := pbind_ok h
    exact emitError_corePres h
  · cases h; exact corePresRefl _

theorem oncomment_pres {st : ParserState} {s e : Nat} {st' : ParserState}
    (h : Parser.oncomment st s e = .ok st')
    (hc : st.options.comments.getD false = false) :
    st' = st := by
  unfold Parser.oncomment at h
  rw [hc] at h
  simp only [Bool.false_eq_true, if_false] at h
  cases h
  rfl

theorem ontext_pres {st : ParserState} {s e : Nat} {st' : ParserState}
    (h : Parser.ontext st s e = .ok st') (hs : noCommentState st = true) :
    noCommentState st' = true ∧ st'.options = st.options := by
  unfold Parser.ontext at h
  obtain ⟨sl, _, h⟩ := pbind_ok h
  obtain ⟨h1, h2, _⟩ := onTextImpl_pres h hs
  exact ⟨h1, h2⟩

theorem oninterpolation_pres {st : ParserState} {s e : Nat} {st' : ParserState}
    (h : Parser.oninterpolation st s e = .ok st') (hs : noCommentState st = true) :
    noCommentState st' = true ∧ st'.options = st.options := by
  unfold Parser.oninterpolation at h
  dsimp only at h
  split at h
  · obtain ⟨sl, _, h⟩ := pbind_ok h
    obtain ⟨h1, h2, _⟩ := onTextImpl_pres h hs
    exact ⟨h1, h2⟩
  · obtain ⟨is1, _, h⟩ := pbind_ok h
    obtain ⟨ies, _, h⟩ := pbind_ok h
    obtain ⟨ie, _, h⟩ := pbind_ok h
    obtain ⟨exp, _, h⟩ := pbind_ok h
    obtain ⟨l, _, h⟩ := pbind_ok h
    obtain ⟨l2, _, h⟩ := pbind_ok h
    cases h
    obtain ⟨h1, h2, _⟩ := addNode_pres st
      (.interpolation (.mk (.simple (Parser.createExp st exp (some false) l none none)) l2))
      rfl hs
    exact ⟨h1, h2⟩

theorem onopentagname_pres {st : ParserState} {s e : Nat} {st' : ParserState}
    (h : Parser.onopentagname st s e = .ok st') (hs : noCommentState st = true) :
    noCommentState st' = true ∧ st'.options = st.options := by
  unfold noCommentState at hs
  rcases Bool.and_eq_true_iff.mp hs with ⟨hs12, hs3⟩
  rcases Bool.and_eq_true_iff.mp hs12 with ⟨hs1, hs2⟩
  unfold Parser.onopentagname at h
  obtain ⟨name, _, h⟩ := pbind_ok h
  obtain ⟨s1, _, h⟩ := pbind_ok h
  obtain ⟨l, _, h⟩ := pbind_ok h
  cases h
  refine ⟨?_, rfl⟩
  unfold noCommentState
  simp [hs1, hs2, noCommentEl, noCommentList]

theorem endOpenTag_pres {st : ParserState} {stop : Nat} {st' : ParserState}
    (h : Parser.endOpenTag st stop = .ok st') (hs : noCommentState st = true) :
    noCommentState st' = true ∧ st'.options = st.options := by
  unfold noCommentState at hs
  rcases Bool.and_eq_true_iff.mp hs with ⟨hs12, hs3⟩
  rcases Bool.and_eq_true_iff.mp hs12 with ⟨hs1, hs2⟩
  unfold Parser.endOpenTag at h
  dsimp only at h
  split at h
  · cases h
  case _ tag heq =>
    rw [heq] at hs3
    have htag : noCommentEl tag = true := hs3
    split at h <;>
      (split at h
       · obtain ⟨⟨st2, el2⟩, h2, h⟩ := pbind_ok h
         cases h
         obtain ⟨hel2, hr2, hstk2, hot2, hop2⟩ := onCloseTagImpl_pres h2 htag
         have hinv2 : noCommentState st2 = true := by
           refine noCommentState_ext hr2 hstk2 hot2 ?_
           unfold noCommentState
           simp [hs1, hs2]
         obtain ⟨ha1, ha2, _⟩ := addNode_pres st2 (.element el2)
           (by simpa [noCommentT] using hel2) hinv2
         exact ⟨ha1, by rw [ha2, hop2]⟩
       · split at h
         all_goals
           cases h
           refine ⟨?_, rfl⟩
           unfold noCommentState
           simp [noCommentStack, htag, hs1, hs2])

theorem onopentagend_pres {st : ParserState} {stop : Nat} {st' : ParserState}
    (h : Parser.onopentagend st stop = .ok st') (hs : noCommentState st = true) :
    noCommentState st' = true ∧ st'.options = st.options :=
  endOpenTag_pres h hs

theorem closeLoop_pres {stop : Nat} : ∀ {count : Nat} {st st' : ParserState},
    Parser.closeLoop stop st count = .ok st' → noCommentState st = true →
    noCommentState st' = true ∧ st'.options = st.options := by
  intro count
  induction count with
  | zero => intro st st' h hs; cases h; exact ⟨hs, rfl⟩
  | succ n ih =>
    intro st st' h hs
    unfold Parser.closeLoop at h
    dsimp only at h
    split at h
    · cases h
    case _ el rest heq =>
      obtain ⟨⟨st2, el2⟩, h2, h⟩ := pbind_ok h
      unfold noCommentState at hs
      rcases Bool.and_eq_true_iff.mp hs with ⟨hs12, hs3⟩
      rcases Bool.and_eq_true_iff.mp hs12 with ⟨hs1, hs2⟩
      rw [heq] at hs2
      rcases Bool.and_eq_true_iff.mp hs2 with ⟨hel, hrest⟩
      obtain ⟨hel2, hr2, hstk2, hot2, hop2⟩ := onCloseTagImpl_pres h2 hel
      have hinv2 : noCommentState st2 = true := by
        refine noCommentState_ext hr2 hstk2 hot2 ?_
        unfold noCommentState
        simp [hs1, hrest, hs3]
      obtain ⟨ha1, ha2, _⟩ := addNode_pres st2 (.element el2)
        (by simpa [noCommentT] using hel2) hinv2
      obtain ⟨hi1, hi2⟩ := ih h ha1
      exact ⟨hi1, by rw [hi2, ha2, hop2]⟩

theorem onclosetag_pres {st : ParserState} {s e : Nat} {st' : ParserState}
    (h : Parser.onclosetag st s e = .ok st') (hs : noCommentState st = true) :
    noCommentState st' = true ∧ st'.options = st.options := by
  unfold Parser.onclosetag at h
  dsimp only at h
  obtain ⟨name, _, h⟩ := pbind_ok h
  split at h
  · split at h
    · split at h
      · split at h
        · obtain ⟨st1, hst1, h⟩ := pbind_ok h
          have hcore1 : CorePres st st1 := emitError_corePres hst1
          have hinv1 := noCommentState_core hcore1 hs
          obtain ⟨h1, h2⟩ := closeLoop_pres h hinv1
          exact ⟨h1, by rw [h2, hcore1.2.2.2]⟩
        · obtain ⟨st1, hst1, h⟩ := pbind_ok h
          cases hst1
      · obtain ⟨st1, hst1, h⟩ := pbind_ok h
        cases hst1
        obtain ⟨h1, h2⟩ := closeLoop_pres h hs
        exact ⟨h1, h2⟩
    · obtain ⟨idx, _, h⟩ := pbind_ok h
      have hc := emitError_corePres h
      exact ⟨noCommentState_core hc hs, hc.2.2.2⟩
  · cases h; exact ⟨hs, rfl⟩

theorem onselfclosingtag_pres {st : ParserState} {stop : Nat} {st' : ParserState}
    (h : Parser.onselfclosingtag st stop = .ok st') (hs : noCommentState st = true) :
    noCommentState st' = true ∧ st'.options = st.options := by
  unfold noCommentState at hs
  rcases Bool.and_eq_true_iff.mp hs with ⟨hs12, hs3⟩
  rcases Bool.and_eq_true_iff.mp hs12 with ⟨hs1, hs2⟩
  unfold Parser.onselfclosingtag at h
  try dsimp only at h
  split at h
  · cases h
  case _ tag heq =>
    rw [heq] at hs3
    have htag : noCommentEl tag = true := hs3
    obtain ⟨st2, h2, h⟩ := pbind_ok h
    have hinv1 : noCommentState
        { st with currentOpenTag := some (tag.setIsSelfClosing (some true)) } = true := by
      unfold noCommentState
      simp [hs1, hs2, noCommentEl_setIsSelfClosing, htag]
    obtain ⟨hinv2, hop2⟩ := endOpenTag_pres h2 hinv1
    unfold noCommentState at hinv2
    rcases Bool.and_eq_true_iff.mp hinv2 with ⟨hi12, hi3⟩
    rcases Bool.and_eq_true_iff.mp hi12 with ⟨hi1, hi2⟩
    split at h
    · split at h
      case _ el rest heq2 =>
        obtain ⟨⟨st3, el3⟩, h3, h⟩ := pbind_ok h
        cases h
        rw [heq2] at hi2
        rcases Bool.and_eq_true_iff.mp hi2 with ⟨hel, hrest⟩
        obtain ⟨hel3, hr3, hstk3, hot3, hop3⟩ := onCloseTagImpl_pres h3 hel
        have hinv3 : noCommentState st3 = true := by
          refine noCommentState_ext hr3 hstk3 hot3 ?_
          unfold noCommentState
          simp [hi1, hrest, hi3]
        obtain ⟨ha1, ha2, _⟩ := addNode_pres st3 (.element el3)
          (by simpa [noCommentT] using hel3) hinv3
        refine ⟨ha1, ?_⟩
        rw [ha2, hop3]
        show ({ st2 with stack := rest } : ParserState).options = st.options
        rw [show ({ st2 with stack := rest } : ParserState).options = st2.options from rfl,
          hop2]
      case _ heq2 =>
        cases h
    · cases h
      refine ⟨?_, hop2⟩
      unfold noCommentState
      simp [hi1, hi2, hi3]

theorem oncdata_pres {st : ParserState} {s e : Nat} {st' : ParserState}
    (h : Parser.oncdata st s e = .ok st') (hs : noCommentState st = true) :
    noCommentState st' = true ∧ st'.options = st.options := by
  unfold Parser.oncdata at h
  try dsimp only at h
  split at h
  · obtain ⟨sl, _, h⟩ := pbind_ok h
    obtain ⟨h1, h2, _⟩ := onTextImpl_pres h hs
    exact ⟨h1, h2⟩
  · obtain ⟨s9, _, h⟩ := pbind_ok h
    have hc := emitError_corePres h
    exact ⟨noCommentState_core hc hs, hc.2.2.2⟩

theorem onendDrain_pres {stop : Nat} : ∀ {items : List ElementNode} {st st' : ParserState},
    Parser.onendDrain stop st items = .ok st' → noCommentState st = true →
    noCommentStack items = true →
    noCommentState st' = true ∧ st'.options = st.options := by
  intro items
  induction items with
  | nil => intro st st' h hs _; cases h; exact ⟨hs, rfl⟩
  | cons item rest ih =>
    intro st st' h hs hstk
    rcases Bool.and_eq_true_iff.mp hstk with ⟨hitem, hrest⟩
    unfold Parser.onendDrain at h
    dsimp only at h
    obtain ⟨e1, _, h⟩ := pbind_ok h
    obtain ⟨⟨st2, el2⟩, h2, h⟩ := pbind_ok h
    obtain ⟨hel2, hr2, hstk2, hot2, hop2⟩ := onCloseTagImpl_pres h2 hitem
    have hinv2 : noCommentState st2 = true := noCommentState_ext hr2 hstk2 hot2 hs
    obtain ⟨ha1, ha2, _⟩ := addNode_pres st2 (.element el2)
      (by simpa [noCommentT] using hel2) hinv2
    obtain ⟨st3, h3, h⟩ := pbind_ok h
    have hcore3 := emitError_corePres h3
    have hinv3 := noCommentState_core hcore3 ha1
    obtain ⟨hi1, hi2⟩ := ih h hinv3 hrest
    refine ⟨hi1, ?_⟩
    rw [hi2, hcore3.2.2.2, ha2, hop2]

theorem onend_pres {st : ParserState} {tokSt : TokState} {ss : Option Nat} {cd : Bool}
    {st' : ParserState} (h : Parser.onend st tokSt ss cd = .ok st')
    (hs : noCommentState st = true) :
    noCommentState st' = true ∧ st'.options = st.options := by
  unfold Parser.onend at h
  try dsimp only at h
  split at h
  · split at h
    all_goals
      first
      | (obtain ⟨y, hy, h⟩ := pbind_ok h
         have hcore : CorePres st y := emitError_corePres hy
         have hinv1 := noCommentState_core hcore hs
         unfold noCommentState at hinv1
         rcases Bool.and_eq_true_iff.mp hinv1 with ⟨hi12, hi3⟩
         rcases Bool.and_eq_true_iff.mp hi12 with ⟨hi1, hi2⟩
         have hinv2 : noCommentState { y with stack := ([] : List ElementNode) } = true := by
           unfold noCommentState
           simp [hi1, hi3, noCommentStack]
         obtain ⟨h1, h2⟩ := onendDrain_pres h hinv2 hi2
         exact ⟨h1, by rw [h2]; exact hcore.2.2.2⟩)
      | (obtain ⟨y, hy, h⟩ := pbind_ok h
         have hcore : CorePres st y := by cases hy <;> exact corePresRefl _
         have hinv1 := noCommentState_core hcore hs
         unfold noCommentState at hinv1
         rcases Bool.and_eq_true_iff.mp hinv1 with ⟨hi12, hi3⟩
         rcases Bool.and_eq_true_iff.mp hi12 with ⟨hi1, hi2⟩
         have hinv2 : noCommentState { y with stack := ([] : List ElementNode) } = true := by
           unfold noCommentState
           simp [hi1, hi3, noCommentStack]
         obtain ⟨h1, h2⟩ := onendDrain_pres h hinv2 hi2
         exact ⟨h1, by rw [h2]; exact hcore.2.2.2⟩)
      | (split at h
         all_goals
           first
           | (obtain ⟨y, hy, h⟩ := pbind_ok h
              have hcore : CorePres st y := emitError_corePres hy
              have hinv1 := noCommentState_core hcore hs
              unfold noCommentState at hinv1
              rcases Bool.and_eq_true_iff.mp hinv1 with ⟨hi12, hi3⟩
              rcases Bool.and_eq_true_iff.mp hi12 with ⟨hi1, hi2⟩
              have hinv2 : noCommentState { y with stack := ([] : List ElementNode) } = true := by
                unfold noCommentState
                simp [hi1, hi3, noCommentStack]
              obtain ⟨h1, h2⟩ := onendDrain_pres h hinv2 hi2
              exact ⟨h1, by rw [h2]; exact hcore.2.2.2⟩)
           | (obtain ⟨y, hy, h⟩ := pbind_ok h
              have hcore : CorePres st y := by cases hy <;> exact corePresRefl _
              have hinv1 := noCommentState_core hcore hs
              unfold noCommentState at hinv1
              rcases Bool.and_eq_true_iff.mp hinv1 with ⟨hi12, hi3⟩
              rcases Bool.and_eq_true_iff.mp hi12 with ⟨hi1, hi2⟩
              have hinv2 : noCommentState { y with stack := ([] : List ElementNode) } = true := by
                unfold noCommentState
                simp [hi1, hi3, noCommentStack]
              obtain ⟨h1, h2⟩ := onendDrain_pres h hinv2 hi2
              exact ⟨h1, by rw [h2]; exact hcore.2.2.2⟩))
  · obtain ⟨y, hy, h⟩ := pbind_ok h
    have hcore : CorePres st y := by cases hy <;> exact corePresRefl _
    have hinv1 := noCommentState_core hcore hs
    unfold noCommentState at hinv1
    rcases Bool.and_eq_true_iff.mp hinv1 with ⟨hi12, hi3⟩
    rcases Bool.and_eq_true_iff.mp hi12 with ⟨hi1, hi2⟩
    have hinv2 : noCommentState { y with stack := ([] : List ElementNode) } = true := by
      unfold noCommentState
      simp [hi1, hi3, noCommentStack]
    obtain ⟨h1, h2⟩ := onendDrain_pres h hinv2 hi2
    exact ⟨h1, by rw [h2]; exact hcore.2.2.2⟩

theorem oaeClassCondense_core (st : ParserState) :
    CorePres st (Parser.oaeClassCondense st) := by
  unfold Parser.oaeClassCondense
  split
  · exact ⟨rfl, rfl, rfl, rfl⟩
  · exact corePresRefl _

theorem oaeSetAttrValue_core (st : ParserState) (loc : SourceLocation) :
    CorePres st (Parser.oaeSetAttrValue st loc) := by
  unfold Parser.oaeSetAttrValue
  split
  · exact ⟨rfl, rfl, rfl, rfl⟩
  · exact corePresRefl _

theorem oaeAttr_core {st : ParserState} {q : QuoteType} {stop : Nat} {st' : ParserState}
    (h : Parser.oaeAttr st q stop = .ok st') : CorePres st st' := by
  unfold Parser.oaeAttr at h
  try dsimp only at h
  refine corePresTrans (oaeClassCondense_core st) ?_
  split at h
  all_goals
    obtain ⟨y, hy, h⟩ := pbind_ok h
    first
    | (refine corePresTrans (emitError_corePres hy) ?_)
    | (refine corePresTrans (show CorePres (Parser.oaeClassCondense st) y by
        cases hy <;> exact corePresRefl _) ?_)
  all_goals
    split at h
  all_goals
    first
    | cases h
    | (split at h
       · obtain ⟨l, _, h⟩ := pbind_ok h
         split at h
         · cases h
           exact corePresTrans (oaeSetAttrValue_core y l) ⟨rfl, rfl, rfl, rfl⟩
         · cases h
           exact oaeSetAttrValue_core y l
       · obtain ⟨s1, _, h⟩ := pbind_ok h
         obtain ⟨l, _, h⟩ := pbind_ok h
         split at h
         · cases h
           exact corePresTrans (oaeSetAttrValue_core y l) ⟨rfl, rfl, rfl, rfl⟩
         · cases h
           exact oaeSetAttrValue_core y l)

theorem oaeDir_core {st : ParserState} {q : QuoteType} {st' : ParserState}
    (h : Parser.oaeDir st q = .ok st') : CorePres st st' := by
  unfold Parser.oaeDir at h
  try dsimp only at h
  split at h
  · obtain ⟨loc, _, h⟩ := pbind_ok h
    split at h
    · split at h
      · obtain ⟨r, _, h⟩ := pbind_ok h
        obtain ⟨y, hy, h⟩ := pbind_ok h
        cases hy
        cases h
        exact ⟨rfl, rfl, rfl, rfl⟩
      · obtain ⟨y, hy, h⟩ := pbind_ok h
        cases hy
        cases h
        exact ⟨rfl, rfl, rfl, rfl⟩
    · cases h; exact corePresRefl _
  · cases h

theorem oaeAppend_pres {st : ParserState} {st' : ParserState}
    (h : Parser.oaeAppend st = .ok st') (hs : noCommentState st = true) :
    noCommentState st' = true ∧ st'.options = st.options := by
  unfold noCommentState at hs
  rcases Bool.and_eq_true_iff.mp hs with ⟨hs12, hs3⟩
  rcases Bool.and_eq_true_iff.mp hs12 with ⟨hs1, hs2⟩
  unfold Parser.oaeAppend at h
  split at h
  · cases h
  · split at h
    · split at h
      case _ tag heq =>
        cases h
        rw [heq] at hs3
        have htag : noCommentEl tag = true := hs3
        refine ⟨?_, rfl⟩
        unfold noCommentState
        simp [hs1, hs2, noCommentEl_pushProp, htag]
      case _ heq =>
        cases h
        refine ⟨?_, rfl⟩
        unfold noCommentState
        rw [heq]
        simp [hs1, hs2]
    · cases h
      exact ⟨hs, rfl⟩

theorem onattribend_pres {st : ParserState} {q : QuoteType} {e : Nat} {st' : ParserState}
    (h : Parser.onattribend st q e = .ok st') (hs : noCommentState st = true) :
    noCommentState st' = true ∧ st'.options = st.options := by
  unfold Parser.onattribend at h
  try dsimp only at h
  split at h
  · split at h
    all_goals
      first
      | (obtain ⟨loc, _, h⟩ := pbind_ok h
         obtain ⟨y, hy, h⟩ := pbind_ok h
         have hy' : CorePres st y := by cases hy <;> exact ⟨rfl, rfl, rfl, rfl⟩)
      | (obtain ⟨y, hy, h⟩ := pbind_ok h
         have hy' : CorePres st y := by cases hy <;> exact corePresRefl _)
    all_goals
      have hinvy : noCommentState y = true := noCommentState_core hy' hs
      split at h
    all_goals
      first
      | (split at h
         all_goals
           obtain ⟨z, hz, h⟩ := pbind_ok h
           first
           | (have hcz : CorePres y z := oaeAttr_core hz)
           | (have hcz : CorePres y z := oaeDir_core hz)
         all_goals
           obtain ⟨w, hw, h⟩ := pbind_ok h
           cases h
           obtain ⟨hw1, hw2⟩ := oaeAppend_pres hw (noCommentState_core hcz hinvy)
           refine ⟨noCommentState_ext rfl rfl rfl hw1, ?_⟩
           show w.options = st.options
           rw [hw2, hcz.2.2.2, hy'.2.2.2])
      | (obtain ⟨z, hz, h⟩ := pbind_ok h
         have hcz : CorePres y z := by cases hz <;> exact corePresRefl _
         obtain ⟨w, hw, h⟩ := pbind_ok h
         cases h
         obtain ⟨hw1, hw2⟩ := oaeAppend_pres hw (noCommentState_core hcz hinvy)
         refine ⟨noCommentState_ext rfl rfl rfl hw1, ?_⟩
         show w.options = st.options
         rw [hw2, hcz.2.2.2, hy'.2.2.2])
  · cases h
    exact ⟨noCommentState_ext rfl rfl rfl hs, rfl⟩

theorem dispatchEvent_pres {st : ParserState} {ev : Parser.ParseEvent} {st' : ParserState}
    (h : Parser.dispatchEvent st ev = .ok st')
    (hc : st.options.comments.getD false = false)
    (hs : noCommentState st = true) :
    noCommentState st' = true ∧ st'.options = st.options := by
  cases ev <;> simp only [Parser.dispatchEvent] at h
  case onerr c i =>
    unfold Parser.onerr at h
    have hcp := emitError_corePres h
    exact ⟨noCommentState_core hcp hs, hcp.2.2.2⟩
  case ontext s e => exact ontext_pres h hs
  case oninterpolation s e => exact oninterpolation_pres h hs
  case onopentagname s e => exact onopentagname_pres h hs
  case onopentagend e => exact onopentagend_pres h hs
  case onclosetag s e => exact onclosetag_pres h hs
  case onselfclosingtag e => exact onselfclosingtag_pres h hs
  case onattribname s e =>
    have hcp := onattribname_core h
    exact ⟨noCommentState_core hcp hs, hcp.2.2.2⟩
  case ondirname s e =>
    have hcp := ondirname_core h
    exact ⟨noCommentState_core hcp hs, hcp.2.2.2⟩
  case ondirarg s e =>
    have hcp := ondirarg_core h
    exact ⟨noCommentState_core hcp hs, hcp.2.2.2⟩
  case ondirmodifier s e =>
    have hcp := ondirmodifier_core h
    exact ⟨noCommentState_core hcp hs, hcp.2.2.2⟩
  case onattribdata s e =>
    have hcp := onattribdata_core h
    exact ⟨noCommentState_core hcp hs, hcp.2.2.2⟩
  case onattribnameend e =>
    have hcp := onattribnameend_core h
    exact ⟨noCommentState_core hcp hs, hcp.2.2.2⟩
  case onattribend q e => exact onattribend_pres h hs
  case oncomment s e =>
    have := oncomment_pres h hc
    subst this
    exact ⟨hs, rfl⟩
  case oncdata s e => exact oncdata_pres h hs
  case onprocessinginstruction s e =>
    have hcp := onprocessinginstruction_core h
    exact ⟨noCommentState_core hcp hs, hcp.2.2.2⟩
  case onend t ss cd => exact onend_pres h hs
  case tokSet rc =>
    cases h
    exact ⟨noCommentState_ext rfl rfl rfl hs, rfl⟩

theorem runEvents_pres : ∀ {evs : List Parser.ParseEvent} {st st' : ParserState},
    Parser.runEvents st evs = .ok st' →
    st.options.comments.getD false = false → noCommentState st = true →
    noCommentState st' = true ∧ st'.options = st.options := by
  intro evs
  induction evs with
  | nil =>
    intro st st' h _ hs
    cases h
    exact ⟨hs, rfl⟩
  | cons ev rest ih =>
    intro st st' h hc hs
    unfold Parser.runEvents at h
    obtain ⟨st1, h1, h⟩ := pbind_ok h
    obtain ⟨hi1, hi2⟩ := dispatchEvent_pres h1 hc hs
    obtain ⟨hj1, hj2⟩ := ih h (by rw [hi2]; exact hc) hi1
    exact ⟨hj1, by rw [hj2, hi2]⟩

theorem initState_noComment (options : ParserOptions) (input : String)
    (newlines : List Nat) :
    noCommentState (Parser.initState options input newlines) = true := by
  unfold noCommentState Parser.initState RootNode.new
  simp [noCommentList, noCommentStack]

/-- Claim C10: under options where the comments flag is unset or false, every
successful run of the parser callbacks from the initial state yields a root
whose children contain no Comment node anywhere. -/
theorem c10_main (options : ParserOptions) (input : String) (newlines : List Nat)
    (evs : List Parser.ParseEvent) (st' : ParserState)
    (hc : options.comments.getD false = false)
    (h : Parser.runEvents (Parser.initState options input newlines) evs = .ok st') :
    noCommentList (Parser.finishRoot st').children = true := by
  obtain ⟨h1, _⟩ := runEvents_pres h hc (initState_noComment options input newlines)
  unfold noCommentState at h1
  rcases Bool.and_eq_true_iff.mp h1 with ⟨h12, _⟩
  rcases Bool.and_eq_true_iff.mp h12 with ⟨h11, _⟩
  show noCommentList (condenseWhitespace st'.root.children
    (decide (st'.options.whitespace ≠ some Whitespace.Preserve)) st'.inPre) = true
  exact noCommentList_cwGo _ _ _ _ h11

theorem c10_witness :
    (ParserOptions.default.comments.getD false = false) ∧
    ((Parser.runEvents (Parser.initState ParserOptions.default "<!--x-->" [])
        [Parser.ParseEvent.oncomment 4 5, Parser.ParseEvent.onend TokState.Text none false]).map
      (fun st => noCommentList (Parser.finishRoot st).children)) = .ok true := by
  refine ⟨rfl, ?_⟩
  cases hrun : Parser.runEvents (Parser.initState ParserOptions.default "<!--x-->" [])
      [Parser.ParseEvent.oncomment 4 5, Parser.ParseEvent.onend TokState.Text none false] with
  | error err =>
    have hok : (Parser.runEvents (Parser.initState ParserOptions.default "<!--x-->" [])
        [Parser.ParseEvent.oncomment 4 5,
         Parser.ParseEvent.onend TokState.Text none false]).isOk = true := by decide
    rw [hrun] at hok
    exact Bool.noConfusion hok
  | ok st' =>
    have := c10_main ParserOptions.default "<!--x-->" []
      [Parser.ParseEvent.oncomment 4 5, Parser.ParseEvent.onend TokState.Text none false]
      st' rfl hrun
    simp [Except.map, this]

theorem getPosAux_offset (index : Nat) : ∀ (l : List Nat) (i : Nat),
    (getPosAux index l i).offset = index := by
  intro l
  induction l with
  | nil => intro i; rfl
  | cons nl rest ih =>
    intro i
    unfold getPosAux
    split
    · rfl
    · exact ih _

theorem getPos_offset (newlines : List Nat) (index : Nat) :
    (getPos newlines index).offset = index :=
  getPosAux_offset index newlines.reverse 0

def dupNamePred (name : String) : BaseElementProps → Bool
  | .attribute a => a.name = name
  | .directive d => d.rawName = some name

/-- Claim C8 (amended): the duplicate check on onattribnameend compares
directives by rawName, not by normalized name. When an existing prop of the
open tag does match (rawName for directives, name for plain attributes),
exactly one DuplicateAttribute error is emitted and its location is the start
offset of the second occurrence of the name. -/
theorem c8_amended (st : ParserState) (stop : Nat) (cp : BaseElementProps)
    (tag : ElementNode) (name : String) (st' : ParserState)
    (hcp : st.currentProp = some cp)
    (htag : st.currentOpenTag = some tag)
    (hname : Parser.getSlice st cp.loc.start.offset stop = .ok name)
    (h : Parser.onattribnameend st stop = .ok st') :
    (tag.props.any (dupNamePred name) = true →
      ∃ loc, st'.errors = st.errors ++
          [{ code := ErrorCodes.DuplicateAttribute, loc := some loc }] ∧
        loc.start.offset = cp.loc.start.offset) ∧
    (tag.props.any (dupNamePred name) = false →
      st'.errors = st.errors) := by
  unfold Parser.onattribnameend at h
  try dsimp only at h
  split at h
  case _ heq => rw [hcp] at heq; exact Option.noConfusion heq
  case _ cp2 heq =>
    rw [hcp] at heq
    injection heq with hcpeq
    subst hcpeq
    obtain ⟨nm, hnm, h⟩ := pbind_ok h
    rw [hname] at hnm
    injection hnm with hnmeq
    subst hnmeq
    rw [hcp] at h
    cases cp with
    | «attribute» a =>
      try dsimp only at h
      split at h
      case _ heq2 => rw [htag] at heq2; exact Option.noConfusion heq2
      case _ tag2 heq2 =>
        rw [htag] at heq2
        injection heq2 with htageq
        subst htageq
        split at h
        case _ hcond =>
          unfold Parser.emitError Parser.getLoc at h
          try dsimp only [Option.getD] at h
          obtain ⟨sl, hsl, h⟩ := pbind_ok h
          try dsimp only [Option.getD] at hsl
          obtain ⟨srcv, _, hsl⟩ := pbind_ok hsl
          cases hsl
          cases h
          constructor
          · intro _
            refine ⟨_, rfl, ?_⟩
            show (Parser.stGetPos st _).offset = _
            exact getPos_offset _ _
          · intro hfalse
            have hc' : tag.props.any (dupNamePred name) = true := hcond
            rw [hfalse] at hc'
            exact Bool.noConfusion hc'
        case _ hcond =>
          cases h
          refine ⟨?_, fun _ => rfl⟩
          intro htrue
          have hc' : tag.props.any (dupNamePred name) = false :=
            bool_eq_false (fun hx => hcond hx)
          rw [htrue] at hc'
          exact Bool.noConfusion hc'
    | directive d =>
      try dsimp only at h
      split at h
      case _ heq2 => rw [htag] at heq2; exact Option.noConfusion heq2
      case _ tag2 heq2 =>
        rw [htag] at heq2
        injection heq2 with htageq
        subst htageq
        split at h
        case _ hcond =>
          unfold Parser.emitError Parser.getLoc at h
          try dsimp only [Option.getD] at h
          obtain ⟨sl, hsl, h⟩ := pbind_ok h
          try dsimp only [Option.getD] at hsl
          obtain ⟨srcv, _, hsl⟩ := pbind_ok hsl
          cases hsl
          cases h
          constructor
          · intro _
            refine ⟨_, rfl, ?_⟩
            show (Parser.stGetPos st _).offset = _
            exact getPos_offset _ _
          · intro hfalse
            have hc' : tag.props.any (dupNamePred name) = true := hcond
            rw [hfalse] at hc'
            exact Bool.noConfusion hc'
        case _ hcond =>
          cases h
          refine ⟨?_, fun _ => rfl⟩
          intro htrue
          have hc' : tag.props.any (dupNamePred name) = false :=
            bool_eq_false (fun hx => hcond hx)
          rw [htrue] at hc'
          exact Bool.noConfusion hc'

def c8Events : List Parser.ParseEvent :=
  [ .onopentagname 1 4, .ondirname 5 6, .ondirarg 6 7, .onattribnameend 7,
    .onattribdata 9 10, .onattribend QuoteType.Double 11,
    .ondirname 12 18, .ondirarg 19 20, .onattribnameend 20,
    .onattribdata 22 23, .onattribend QuoteType.Double 24,
    .onselfclosingtag 25 ]

def c8Input : String := "<div :a=\"x\" v-bind:a=\"y\"/>"

def c8Run : PRes ParserState :=
  Parser.runEvents (Parser.initState ParserOptions.default c8Input []) c8Events

def exprContentOpt : Option ExpressionNode → Option String
  | some (.simple s) => some s.content
  | _ => none

def propSummary : BaseElementProps → (String × Option String × Option String)
  | .attribute a => (a.name, none, none)
  | .directive (.mk n r _ arg _ _ _) => (n, exprContentOpt arg, r)

def c8Summary (st : ParserState) : Option (List (String × Option String × Option String)) :=
  match st.root.children with
  | [.element el] => some (el.props.map propSummary)
  | _ => none

theorem c8_counterexample :
    (c8Run.map (fun st =>
      ((st.errors.filter (fun er => er.code = ErrorCodes.DuplicateAttribute)).length,
        c8Summary st))) =
    .ok (0, some [("bind", some "a", some ":a"), ("bind", some "a", some "v-bind:a")]) := by
  rfl

def c8WitnessPos : Position := { offset := 9, line := 1, column := 10 }

def c8WitnessLoc : SourceLocation :=
  { start := c8WitnessPos, stop := c8WitnessPos, source := "" }

def c8WitnessProp : BaseElementProps :=
  .attribute { name := "a", nameLoc := locStub, value := none, loc := c8WitnessLoc }

def c8WitnessTag : ElementNode :=
  .plainElement 0 "div" ElementTypes.Element
    [.attribute { name := "a", nameLoc := locStub, value := none, loc := locStub }]
    [] none none none locStub

def c8WitnessState : ParserState :=
  { Parser.initState ParserOptions.default "<div a=1 a=2>" [] with
    currentOpenTag := some c8WitnessTag
    currentProp := some c8WitnessProp }

theorem c8_witness :
    c8WitnessState.currentProp = some c8WitnessProp ∧
    c8WitnessState.currentOpenTag = some c8WitnessTag ∧
    Parser.getSlice c8WitnessState c8WitnessProp.loc.start.offset 10 = .ok "a" ∧
    c8WitnessTag.props.any (dupNamePred "a") = true ∧
    ∃ st', Parser.onattribnameend c8WitnessState 10 = .ok st' ∧
      ∃ loc, st'.errors = c8WitnessState.errors ++
          [{ code := ErrorCodes.DuplicateAttribute, loc := some loc }] ∧
        loc.start.offset = c8WitnessProp.loc.start.offset := by
  refine ⟨rfl, rfl, rfl, by decide, ?_⟩
  cases hrun : Parser.onattribnameend c8WitnessState 10 with
  | error e =>
    have hok : (Parser.onattribnameend c8WitnessState 10).isOk = true := by decide
    rw [hrun] at hok
    exact Bool.noConfusion hok
  | ok st' =>
    exact ⟨st', rfl,
      (c8_amended c8WitnessState 10 c8WitnessProp c8WitnessTag "a" st'
        rfl rfl rfl hrun).1 (by decide)⟩


/- ===== C5 ===== -/

theorem c5_counterexample :
    specPatchFlagTable ≠ definedPatchFlags ∧
    ("STYLE", (4 : Int)) ∈ specPatchFlagTable ∧
    ("PROPS", (8 : Int)) ∈ specPatchFlagTable ∧
    definedPatchFlags.all (fun p => p.2 ≠ 4 ∧ p.2 ≠ 8) = true := by
  refine ⟨by decide, by decide, by decide, by decide⟩

/-- Claim C5 (amended): the PatchFlags type defines exactly TEXT = 1, CLASS = 2,
FULL_PROPS = 16, STABLE_FRAGMENT = 64, KEYED_FRAGMENT = 128,
UNKEYED_FRAGMENT = 256 and DEV_ROOT_FRAGMENT = 2048: the STYLE = 4 and
PROPS = 8 rows of the wire table have no corresponding flag. -/
theorem c5_amended :
    definedPatchFlags.map Prod.snd =
      [PatchFlags.Text.bits, PatchFlags.Class.bits, PatchFlags.FullProps.bits,
       PatchFlags.StableFragment.bits, PatchFlags.KeyedFragment.bits,
       PatchFlags.UnkeyedFragment.bits, PatchFlags.DevRootFragment.bits] ∧
    definedPatchFlags.map Prod.snd = [1, 2, 16, 64, 128, 256, 2048] ∧
    specPatchFlagTable.filter
      (fun p => definedPatchFlags.any (fun q => q.1 = p.1)) = definedPatchFlags ∧
    specPatchFlagTable.filter
      (fun p => !(definedPatchFlags.any (fun q => q.1 = p.1))) =
      [("STYLE", 4), ("PROPS", 8)] := by
  refine ⟨by decide, by decide, by decide, by decide⟩

/- ===== C3 ===== -/

/-- Claim C3: code bug. get_pos computed from the newline table diverges from a
linear re-scan: on the input with newline table [1, 3], at offset 4 the table
lookup yields line 2 while the re-scan counts two preceding newlines and
yields line 3. -/
theorem c3_getPos_divergence :
    newlinesOf "a\nb\nc" = [1, 3] ∧
    getPos (newlinesOf "a\nb\nc") 4 = { offset := 4, line := 2, column := 1 } ∧
    rescanPos "a\nb\nc" 4 = { offset := 4, line := 3, column := 1 } ∧
    getPos (newlinesOf "a\nb\nc") 4 ≠ rescanPos "a\nb\nc" 4 := by
  refine ⟨by decide, by decide, by decide, by decide⟩

/- ===== C2 ===== -/

/-- Claim C2: code bug. On an interpolation whose content between the delimiters
is all whitespace, the inner-range trimming drives the trimmed end (2) below
the trimmed start (3) and get_slice hits an invalid byte range: the parse
aborts instead of returning a root. -/
theorem c2_interpolation_panic :
    Parser.scanWsFwd ("\x7b\x7b \x7d\x7d".toList) 6 2 = .ok 3 ∧
    Parser.scanWsBwd ("\x7b\x7b \x7d\x7d".toList) 6 3 = .ok 2 ∧
    Parser.oninterpolation
      (Parser.initState ParserOptions.default "\x7b\x7b \x7d\x7d" []) 0 5 =
      .error "get_slice: byte range panic" := by
  refine ⟨rfl, rfl, rfl⟩

/- ===== C7 ===== -/

/-- The argument list the specification describes, built left to right: tag
first, then props, children and the patch flag, with an absent argument
printed as null exactly when a later argument is present. -/
def specVNodeCallArgs (patchFlagString : Option String)
    (children : Option VNodeCallChildren) (props : Option PropsExpression)
    (tag : String) : List GenNodeListNode :=
  let tail3 : List GenNodeListNode :=
    match patchFlagString with
    | some pf => [.str pf]
    | none => []
  let tail2 : List GenNodeListNode :=
    match children with
    | some ch => GenNodeListNode.ofVNodeCallChildren ch :: tail3
    | none => if tail3.length ≠ 0 then .str "null" :: tail3 else []
  let tail1 : List GenNodeListNode :=
    match props with
    | some pr => GenNodeListNode.ofProps pr :: tail2
    | none => if tail2.length ≠ 0 then .str "null" :: tail2 else []
  .str tag :: tail1

/-- Claim C7: gen_vnode_call emits the arguments in the order tag, props,
children, patch flag, printing null for an absent argument exactly when a
later argument is present and omitting absent arguments at the tail. -/
theorem c7_vnode_args (patchFlagString : Option String)
    (children : Option VNodeCallChildren) (props : Option PropsExpression)
    (tag : String) :
    genVNodeCallArgs patchFlagString children props tag =
      specVNodeCallArgs patchFlagString children props tag := by
  cases patchFlagString <;> cases children <;> cases props <;> rfl

/- ===== C4 ===== -/

theorem createAliasExpression_content {st : ParserState} {loc : SourceLocation}
    {c : String} {off : Nat} {p : Option Bool} {se : SimpleExpressionNode}
    (h : Parser.createAliasExpression st loc c off p = .ok se) : se.content = c := by
  unfold Parser.createAliasExpression at h
  obtain ⟨l, _, h⟩ := pbind_ok h
  cases h
  rfl

/-- Claim C4 (amended): parse_for_expression does not split the LHS at commas:
key and index are always none, and value (when the unwrapped LHS is
non-empty) is a single expression holding the whole unwrapped LHS; source is
the trimmed RHS. -/
theorem c4_amended (st : ParserState) (input : SimpleExpressionNode)
    (r : ForParseResult) (h : Parser.parseForExpression st input = .ok (some r)) :
    r.key = none ∧ r.index = none ∧
    ∃ lhs rhs, Parser.matchForAlias input.content = .ok (some (lhs, rhs)) ∧
      (∃ se, r.source = .simple se ∧ se.content = rustTrim rhs) ∧
      ((Parser.valueContentOf lhs).length = 0 ∧ r.value = none ∨
        ∃ ve, r.value = some (.simple ve) ∧ ve.content = Parser.valueContentOf lhs) := by
  unfold Parser.parseForExpression at h
  try dsimp only at h
  obtain ⟨im, him, h⟩ := pbind_ok h
  split at h
  · injection h with h2
    exact Option.noConfusion h2
  case _ =>
    rename_i x lhs rhs
    split at h
    case _ o ho =>
      obtain ⟨o2, ho2, h⟩ := pbind_ok h
      obtain ⟨sa, hsa, h⟩ := pbind_ok h
      split at h
      case _ toff htoff =>
        obtain ⟨t2, ht2, h⟩ := pbind_ok h
        split at h
        · obtain ⟨v, hv, h⟩ := pbind_ok h
          injection h with h2
          injection h2 with h3
          subst h3
          refine ⟨rfl, rfl, lhs, rhs, him, ⟨sa, rfl, createAliasExpression_content hsa⟩, ?_⟩
          exact Or.inr ⟨v, rfl, createAliasExpression_content hv⟩
        · rename_i hlen
          injection h with h2
          injection h2 with h3
          subst h3
          refine ⟨rfl, rfl, lhs, rhs, him, ⟨sa, rfl, createAliasExpression_content hsa⟩, ?_⟩
          have hlen' : ¬((Parser.valueContentOf lhs).length ≠ 0) := fun hx => hlen hx
          exact Or.inl ⟨not_not.mp hlen', rfl⟩
      case _ htoff => cases h
    case _ ho => cases h

def c4Input : String := "<div v-for=\"(v, k, i) in list\"></div>"

def c4State : ParserState := Parser.initState ParserOptions.default c4Input []

def c4Pos1 : Position := { offset := 12, line := 1, column := 13 }
def c4Pos2 : Position := { offset := 29, line := 1, column := 30 }

def c4Loc : SourceLocation :=
  { start := c4Pos1, stop := c4Pos2, source := "(v, k, i) in list" }

def c4Exp : SimpleExpressionNode :=
  SimpleExpressionNode.new "(v, k, i) in list" (some false) (some c4Loc) none

def fprSummary (r : ForParseResult) :
    (String × Nat × Option String × Option Nat × Bool × Bool) :=
  ((match r.source with | .simple se => se.content | _ => ""),
   (match r.source with | .simple se => se.loc.start.offset | _ => 0),
   (match r.value with | some (.simple se) => some se.content | _ => none),
   (match r.value with | some (.simple se) => some se.loc.start.offset | _ => none),
   r.key.isNone, r.index.isNone)

theorem c4_counterexample :
    (Parser.parseForExpression c4State c4Exp).map (Option.map fprSummary) =
      .ok (some ("list", 25, some "v, k, i", some 13, true, true)) := by
  rfl

theorem c4_witness :
    ∃ r, Parser.parseForExpression c4State c4Exp = .ok (some r) ∧
      (r.key = none ∧ r.index = none ∧
        ∃ lhs rhs, Parser.matchForAlias c4Exp.content = .ok (some (lhs, rhs)) ∧
          (∃ se, r.source = .simple se ∧ se.content = rustTrim rhs) ∧
          ((Parser.valueContentOf lhs).length = 0 ∧ r.value = none ∨
            ∃ ve, r.value = some (.simple ve) ∧ ve.content = Parser.valueContentOf lhs)) := by
  cases hrun : Parser.parseForExpression c4State c4Exp with
  | error e =>
    have hok : (Parser.parseForExpression c4State c4Exp).isOk = true := by rfl
    rw [hrun] at hok
    exact Bool.noConfusion hok
  | ok v =>
    cases v with
    | none =>
      have hsome : (Parser.parseForExpression c4State c4Exp).map Option.isSome = .ok true := by
        rfl
      rw [hrun] at hsome
      simp [Except.map] at hsome
    | some r =>
      exact ⟨r, rfl, c4_amended c4State c4Exp r hrun⟩

/- ===== C1 ===== -/

theorem helper_map_fst (ctx : TransformContext) (n : String) :
    ((ctx.helper n).2.helpers.map Prod.fst) =
      if ctx.helpers.any (fun p => p.1 == n) then ctx.helpers.map Prod.fst
      else ctx.helpers.map Prod.fst ++ [n] := by
  unfold TransformContext.helper
  split
  · simp only [List.map_map]
    congr 1
    funext p
    by_cases hp : p.1 = n
    · simp [hp]
    · simp [hp]
  · simp

theorem mem_helper_self (ctx : TransformContext) (n : String) :
    n ∈ ((ctx.helper n).2.helpers.map Prod.fst) := by
  rw [helper_map_fst]
  split
  case _ hany =>
    rcases List.any_eq_true.mp hany with ⟨p, hp, hpn⟩
    have : p.1 = n := by simpa using hpn
    exact this ▸ List.mem_map_of_mem Prod.fst hp
  case _ => exact List.mem_append_right _ (List.mem_singleton.mpr rfl)

theorem mem_helper_mono (ctx : TransformContext) (n m : String)
    (h : m ∈ ctx.helpers.map Prod.fst) : m ∈ ((ctx.helper n).2.helpers.map Prod.fst) := by
  rw [helper_map_fst]
  split
  · exact h
  · exact List.mem_append_left _ h

def c1KeyProperty (keyIndex : Nat) : Property :=
  Property.new (ExpressionNode.newSimple "key" (some true) none none)
    (JSChildNode.simple (SimpleExpressionNode.new (toString keyIndex) (some false)
      (some locStub) (some ConstantTypes.CanCache)))

/-- Claim C1 (amended): for a v-if branch whose children are a single Element,
create_children_codegen_node does not reuse the element VNodeCall (that path
is commented out in the source): the branch is always wrapped in a Fragment
block VNodeCall carrying the synthetic key property and the StableFragment
patch flag, and the Fragment, openBlock and createElementBlock helpers are
registered. -/
theorem c1_amended (branch : IfBranchNode) (keyIndex : Nat) (ctx : TransformContext)
    (hssr : ctx.inSSR = false) :
    (createChildrenCodegenNode branch keyIndex ctx).1 =
      JSChildNode.vNodeCall (VNodeCall.mk helperFragment
        (some (.object (.mk [c1KeyProperty keyIndex] locStub)))
        (some (.templateChildNodeList branch.children))
        (some PatchFlags.StableFragment) true false false branch.loc) ∧
    helperFragment ∈ ((createChildrenCodegenNode branch keyIndex ctx).2.helpers.map Prod.fst) ∧
    helperOpenBlock ∈ ((createChildrenCodegenNode branch keyIndex ctx).2.helpers.map Prod.fst) ∧
    helperCreateElementBlock ∈
      ((createChildrenCodegenNode branch keyIndex ctx).2.helpers.map Prod.fst) := by
  refine ⟨rfl, ?_, ?_, ?_⟩
  all_goals
    show _ ∈ ((((ctx.helper helperFragment).2.helper helperOpenBlock).2.helper
      (getVNodeBlockHelper ((ctx.helper helperFragment).2.helper helperOpenBlock).2.inSSR
        false)).2.helpers.map Prod.fst)
  · exact mem_helper_mono _ _ _ (mem_helper_mono _ _ _ (mem_helper_self _ _))
  · exact mem_helper_mono _ _ _ (mem_helper_self _ _)
  · have hssr2 : (((ctx.helper helperFragment).2.helper helperOpenBlock).2).inSSR = false := hssr
    rw [show getVNodeBlockHelper (((ctx.helper helperFragment).2.helper
        helperOpenBlock).2).inSSR false = helperCreateElementBlock by
      rw [hssr2]; rfl]
    exact mem_helper_self _ _

def c1Ctx : TransformContext :=
  { ssr := false, inSSR := false, helpers := [], constants := { dev := true } }

def c1DivVNode : VNodeCall :=
  VNodeCall.mk "\"div\"" none none none false false false locStub

def c1DivElement : ElementNode :=
  .plainElement 0 "div" ElementTypes.Element [] [] (some true) (some c1DivVNode) none locStub

def c1Branch : IfBranchNode :=
  .mk (some (.simple (SimpleExpressionNode.new "ok" (some false) none none)))
    [.element c1DivElement] none none locStub

theorem c1_counterexample :
    (createChildrenCodegenNode c1Branch 0 c1Ctx).1 =
      JSChildNode.vNodeCall (VNodeCall.mk "Fragment"
        (some (.object (.mk [c1KeyProperty 0] locStub)))
        (some (.templateChildNodeList [.element c1DivElement]))
        (some PatchFlags.StableFragment) true false false locStub) ∧
    (createChildrenCodegenNode c1Branch 0 c1Ctx).2.helpers =
      [("Fragment", 1), ("openBlock", 1), ("createElementBlock", 1)] ∧
    c1DivVNode.tag = "\"div\"" ∧
    ("Fragment" : String) ≠ "\"div\"" :=
  ⟨rfl, rfl, rfl, by decide⟩

theorem c1_witness :
    c1Ctx.inSSR = false ∧
    ((createChildrenCodegenNode c1Branch 0 c1Ctx).1 =
      JSChildNode.vNodeCall (VNodeCall.mk helperFragment
        (some (.object (.mk [c1KeyProperty 0] locStub)))
        (some (.templateChildNodeList c1Branch.children))
        (some PatchFlags.StableFragment) true false false c1Branch.loc) ∧
    helperFragment ∈ ((createChildrenCodegenNode c1Branch 0 c1Ctx).2.helpers.map Prod.fst) ∧
    helperOpenBlock ∈ ((createChildrenCodegenNode c1Branch 0 c1Ctx).2.helpers.map Prod.fst) ∧
    helperCreateElementBlock ∈
      ((createChildrenCodegenNode c1Branch 0 c1Ctx).2.helpers.map Prod.fst)) :=
  ⟨rfl, c1_amended c1Branch 0 c1Ctx rfl⟩

end VueCompiler
